import Mathlib

/-!
MQTT v5 message codec (`include/mqtt/v5_message.hpp`, `property.hpp`, `property_parse.hpp`)

A shallow embedding of the v5 message classes and of the property codec, followed by
theorems about the byte sequences they produce and accept.

Conventions of the embedding

* a byte (`char`, `std::uint8_t`) is a natural number below 256; a buffer
  (`std::string`, `as::const_buffer`, `static_vector<char, N>`) is a `List Nat`;
* an iterator range `[b, e)` is the list of the bytes between `b` and `e`; advancing `b` drops
  bytes from the front of that list;
* a constructor or function that can throw returns `Except exception _`;
  `boost::optional` is `Option`;
* `std::size_t` quantities (lengths, sizes) are unbounded naturals; the narrowing casts that the
  source writes (`static_cast<std::uint16_t>`, the masks of `MQTT_16BITNUM_TO_BYTE_SEQ`) are
  explicit `%`.
-/

namespace mqtt

deriving instance DecidableEq for Except

/-- The exception classes thrown by the v5 message code (`mqtt/exception.hpp`). -/
inductive exception where
  | remaining_length_error
  | protocol_error
  | property_length_error
  | property_parse_error
  | will_message_length_error
  | utf8string_length_error
  | utf8string_contents_error
  deriving DecidableEq, Repr

/-! ## Fixed header, QoS and flag constants -/

namespace control_packet_type

/-- Modelled from the spec: the constants of `mqtt/fixed_header.hpp`, absent from the sources;
the upper nibble of the fixed header is the control packet type, 1 to 15. -/
def connect : Nat := 1
/-- Modelled from the spec: control packet type 2 (`mqtt/fixed_header.hpp`). -/
def connack : Nat := 2
/-- Modelled from the spec: control packet type 3 (`mqtt/fixed_header.hpp`). -/
def publish : Nat := 3
/-- Modelled from the spec: control packet type 4 (`mqtt/fixed_header.hpp`). -/
def puback : Nat := 4
/-- Modelled from the spec: control packet type 5 (`mqtt/fixed_header.hpp`). -/
def pubrec : Nat := 5
/-- Modelled from the spec: control packet type 6 (`mqtt/fixed_header.hpp`). -/
def pubrel : Nat := 6
/-- Modelled from the spec: control packet type 7 (`mqtt/fixed_header.hpp`). -/
def pubcomp : Nat := 7
/-- Modelled from the spec: control packet type 8 (`mqtt/fixed_header.hpp`). -/
def subscribe : Nat := 8
/-- Modelled from the spec: control packet type 9 (`mqtt/fixed_header.hpp`). -/
def suback : Nat := 9
/-- Modelled from the spec: control packet type 10 (`mqtt/fixed_header.hpp`). -/
def unsubscribe : Nat := 10
/-- Modelled from the spec: control packet type 11 (`mqtt/fixed_header.hpp`). -/
def unsuback : Nat := 11
/-- Modelled from the spec: control packet type 12 (`mqtt/fixed_header.hpp`). -/
def pingreq : Nat := 12
/-- Modelled from the spec: control packet type 13 (`mqtt/fixed_header.hpp`). -/
def pingresp : Nat := 13
/-- Modelled from the spec: control packet type 14 (`mqtt/fixed_header.hpp`). -/
def disconnect : Nat := 14
/-- Modelled from the spec: control packet type 15 (`mqtt/fixed_header.hpp`). -/
def auth : Nat := 15

end control_packet_type

/-- Modelled from the spec: `make_fixed_header` of `mqtt/fixed_header.hpp`, absent from the
sources; one octet, upper nibble the control packet type, lower nibble the flags. -/
def make_fixed_header (type flags : Nat) : Nat :=
  ((type <<< 4) % 256) ||| flags

namespace qos

/-- Modelled from the spec: QoS 0, at most once (`mqtt/qos.hpp`, absent from the sources). -/
def at_most_once : Nat := 0
/-- Modelled from the spec: QoS 1, at least once (`mqtt/qos.hpp`). -/
def at_least_once : Nat := 1
/-- Modelled from the spec: QoS 2, exactly once (`mqtt/qos.hpp`). -/
def exactly_once : Nat := 2

end qos

namespace publish

/-- Modelled from the spec: `publish::get_qos` of `mqtt/publish.hpp`, absent from the sources;
the QoS is bits 2..1 of the PUBLISH fixed header. -/
def get_qos (fixed_header : Nat) : Nat :=
  (fixed_header &&& 0b00000110) >>> 1

/-- Modelled from the spec: `publish::is_retain` (`mqtt/publish.hpp`); RETAIN is bit 0. -/
def is_retain (fixed_header : Nat) : Bool :=
  (fixed_header &&& 0b00000001) != 0

/-- Modelled from the spec: `publish::is_dup` (`mqtt/publish.hpp`); DUP is bit 3. -/
def is_dup (fixed_header : Nat) : Bool :=
  (fixed_header &&& 0b00001000) != 0

/-- Modelled from the spec: `publish::set_qos` (`mqtt/publish.hpp`); the QoS is stored in
bits 2..1 of the fixed header. -/
def set_qos (fixed_header qos : Nat) : Nat :=
  fixed_header ||| ((qos <<< 1) % 256)

/-- Modelled from the spec: `publish::set_retain` (`mqtt/publish.hpp`); RETAIN is bit 0. -/
def set_retain (fixed_header : Nat) (retain : Bool) : Nat :=
  if retain then fixed_header ||| 0b00000001 else fixed_header &&& 0b11111110

/-- Modelled from the spec: `publish::set_dup` (`mqtt/publish.hpp`); DUP is bit 3. -/
def set_dup (fixed_header : Nat) (dup : Bool) : Nat :=
  if dup then fixed_header ||| 0b00001000 else fixed_header &&& 0b11110111

end publish

namespace connect_flags

/-- Modelled from the spec: connect flag bit 1, clean start (`mqtt/connect_flags.hpp`, absent
from the sources). -/
def clean_session : Nat := 0b00000010
/-- Modelled from the spec: connect flag bit 2, will flag (`mqtt/connect_flags.hpp`). -/
def will_flag : Nat := 0b00000100
/-- Modelled from the spec: connect flag bit 5, will retain (`mqtt/connect_flags.hpp`). -/
def will_retain : Nat := 0b00100000
/-- Modelled from the spec: connect flag bit 6, password (`mqtt/connect_flags.hpp`). -/
def password_flag : Nat := 0b01000000
/-- Modelled from the spec: connect flag bit 7, user name (`mqtt/connect_flags.hpp`). -/
def user_name_flag : Nat := 0b10000000

/-- Modelled from the spec: `connect_flags::has_will_flag` (`mqtt/connect_flags.hpp`). -/
def has_will_flag (v : Nat) : Bool := (v &&& will_flag) != 0
/-- Modelled from the spec: `connect_flags::has_password_flag` (`mqtt/connect_flags.hpp`). -/
def has_password_flag (v : Nat) : Bool := (v &&& password_flag) != 0
/-- Modelled from the spec: `connect_flags::has_user_name_flag` (`mqtt/connect_flags.hpp`). -/
def has_user_name_flag (v : Nat) : Bool := (v &&& user_name_flag) != 0

/-- Modelled from the spec: `connect_flags::set_will_qos` (`mqtt/connect_flags.hpp`); the will
QoS is stored in bits 4..3 of the connect flags. -/
def set_will_qos (v qos : Nat) : Nat := v ||| ((qos <<< 3) % 256)

end connect_flags

/-! ## Fixed-width integers -/

/-- Modelled from the spec: the macro `MQTT_16BITNUM_TO_BYTE_SEQ` of `mqtt/two_byte_util.hpp`,
absent from the sources; the two bytes of the low 16 bits of `val`, big-endian. -/
def MQTT_16BITNUM_TO_BYTE_SEQ (val : Nat) : List Nat :=
  [(val % 65536) / 256, val % 256]

/-- Modelled from the spec: the macro `MQTT_32BITNUM_TO_BYTE_SEQ` of `mqtt/four_byte_util.hpp`,
absent from the sources; the four bytes of the low 32 bits of `val`, big-endian. -/
def MQTT_32BITNUM_TO_BYTE_SEQ (val : Nat) : List Nat :=
  [(val / 16777216) % 256, (val / 65536) % 256, (val / 256) % 256, val % 256]

/-- Modelled from the spec: `add_uint16_t_to_buf` of `mqtt/two_byte_util.hpp`, absent from the
sources; appends the big-endian bytes of a 16-bit number. -/
def add_uint16_t_to_buf (buf : List Nat) (num : Nat) : List Nat :=
  buf ++ MQTT_16BITNUM_TO_BYTE_SEQ num

/-- Modelled from the spec: `make_uint16_t` of `mqtt/two_byte_util.hpp`, absent from the
sources; reads a big-endian 16-bit number from the first two bytes of the range. -/
def make_uint16_t (range : List Nat) : Nat :=
  range.headD 0 * 256 + (range.drop 1).headD 0

/-- Modelled from the spec: `make_uint32_t` of `mqtt/four_byte_util.hpp`, absent from the
sources; reads a big-endian number from the bytes of the range. -/
def make_uint32_t (range : List Nat) : Nat :=
  range.foldl (fun acc b => acc * 256 + b) 0

/-- Modelled from the spec: `add_packet_id_to_buf<PacketIdBytes>::apply` of
`mqtt/packet_id_type.hpp`, absent from the sources; appends the packet identifier as
`PacketIdBytes` big-endian bytes. -/
def packet_id_bytes : Nat → Nat → List Nat
  | 0, _ => []
  | n + 1, packet_id => (packet_id / 256 ^ n) % 256 :: packet_id_bytes n packet_id

/-- Modelled from the spec: `add_packet_id_to_buf<PacketIdBytes>::apply`, see
`packet_id_bytes`. -/
def add_packet_id_to_buf (PacketIdBytes : Nat) (buf : List Nat) (packet_id : Nat) : List Nat :=
  buf ++ packet_id_bytes PacketIdBytes packet_id

/-- Modelled from the spec: `make_packet_id<PacketIdBytes>::apply` of
`mqtt/packet_id_type.hpp`, absent from the sources; reads the big-endian packet identifier. -/
def make_packet_id (range : List Nat) : Nat :=
  range.foldl (fun acc b => acc * 256 + b) 0

/-! ## Variable byte integers -/

/-- Modelled from the spec: `variable_bytes` of `mqtt/variable_length.hpp`, absent from the
sources; the shortest base-128 encoding (1 to 4 bytes, seven data bits per byte, the high bit
chaining continuation) of a number in 0..268435455, and an error above that range. -/
def variable_bytes (size : Nat) : Except exception (List Nat) :=
  if size > 0xfffffff then .error .remaining_length_error
  else if size < 128 then .ok [size]
  else if size < 16384 then .ok [size % 128 + 128, size / 128]
  else if size < 2097152 then .ok [size % 128 + 128, (size / 128) % 128 + 128, size / 16384]
  else .ok [size % 128 + 128, (size / 128) % 128 + 128, (size / 16384) % 128 + 128,
    size / 2097152]

/-- Modelled from the spec: `remaining_bytes` of `mqtt/remaining_length.hpp`, absent from the
sources; the variable byte integer encoding used for the remaining length. -/
def remaining_bytes (size : Nat) : Except exception (List Nat) :=
  variable_bytes size

/-- Modelled from the spec: `variable_length` of `mqtt/variable_length.hpp`, absent from the
sources; decodes a variable byte integer from the front of the range and returns the value and
the number of bytes consumed. It fails when the fourth byte still has the continuation bit set
or when the range ends inside the integer. -/
def variable_length (range : List Nat) : Except exception (Nat × Nat) :=
  match range with
  | [] => .error .remaining_length_error
  | b0 :: r1 =>
    if b0 < 128 then .ok (b0, 1) else
    match r1 with
    | [] => .error .remaining_length_error
    | b1 :: r2 =>
      if b1 < 128 then .ok (b0 % 128 + b1 * 128, 2) else
      match r2 with
      | [] => .error .remaining_length_error
      | b2 :: r3 =>
        if b2 < 128 then .ok (b0 % 128 + (b1 % 128) * 128 + b2 * 16384, 3) else
        match r3 with
        | [] => .error .remaining_length_error
        | b3 :: _ =>
          if b3 < 128 then
            .ok (b0 % 128 + (b1 % 128) * 128 + (b2 % 128) * 16384 + b3 * 2097152, 4)
          else .error .remaining_length_error

/-- Modelled from the spec: `remaining_length` of `mqtt/remaining_length.hpp`, absent from the
sources; decodes the remaining length field at the front of the range. -/
def remaining_length (range : List Nat) : Except exception (Nat × Nat) :=
  variable_length range

/-- Modelled from the spec: `variable_push` of `mqtt/variable_length.hpp`, absent from the
sources; appends the variable byte integer encoding of `size` to the container. -/
def variable_push (c : List Nat) (size : Nat) : Except exception (List Nat) :=
  (variable_bytes size).map (c ++ ·)

/-! ## UTF-8 string check -/

namespace utf8string

/-- The result of `utf8string::validate_contents` (`mqtt/utf8encoded_strings.hpp`). -/
inductive validation where
  | well_formed
  | ill_formed
  | well_formed_with_non_charactor
  deriving DecidableEq, Repr

/-- Modelled from the spec: `utf8string::is_valid_length` of `mqtt/utf8encoded_strings.hpp`,
absent from the sources; a length-prefixed string holds at most 65535 bytes. -/
def is_valid_length (str : List Nat) : Bool :=
  decide (str.length ≤ 0xffff)

/-- Continuation byte `10xxxxxx` of a UTF-8 sequence. -/
def is_continuation (b : Nat) : Bool :=
  decide (0x80 ≤ b ∧ b ≤ 0xBF)

/-- Modelled from the spec: one step of the UTF-8 scan of `mqtt/utf8encoded_strings.hpp`,
absent from the sources; decodes the code point at the front of the string, or returns `none`
when the sequence is ill-formed (stray or missing continuation byte, overlong form, surrogate,
code point above U+10FFFF). -/
def decode_code_point (str : List Nat) : Option (Nat × List Nat) :=
  match str with
  | [] => none
  | b0 :: r0 =>
    if b0 < 0x80 then some (b0, r0)
    else if b0 < 0xC2 then none
    else if b0 < 0xE0 then
      match r0 with
      | b1 :: r1 =>
        if is_continuation b1 then some ((b0 - 0xC0) * 64 + (b1 - 0x80), r1) else none
      | _ => none
    else if b0 < 0xF0 then
      match r0 with
      | b1 :: b2 :: r2 =>
        let c := (b0 - 0xE0) * 4096 + (b1 - 0x80) * 64 + (b2 - 0x80)
        if is_continuation b1 && is_continuation b2 && decide (0x800 ≤ c)
            && !decide (0xD800 ≤ c ∧ c ≤ 0xDFFF) then some (c, r2) else none
      | _ => none
    else if b0 < 0xF5 then
      match r0 with
      | b1 :: b2 :: b3 :: r3 =>
        let c := (b0 - 0xF0) * 262144 + (b1 - 0x80) * 4096 + (b2 - 0x80) * 64 + (b3 - 0x80)
        if is_continuation b1 && is_continuation b2 && is_continuation b3
            && decide (0x10000 ≤ c ∧ c ≤ 0x10FFFF) then some (c, r3) else none
      | _ => none
    else none

/-- Modelled from the spec: the code points that an MQTT UTF-8 string may not contain: U+0000,
the control ranges U+0001..U+001F and U+007F..U+009F, and the non-characters U+FDD0..U+FDEF,
U+xFFFE and U+xFFFF of every plane. -/
def is_disallowed (c : Nat) : Bool :=
  decide (c ≤ 0x1F) || decide (0x7F ≤ c ∧ c ≤ 0x9F) || decide (0xFDD0 ≤ c ∧ c ≤ 0xFDEF)
    || decide (c % 0x10000 = 0xFFFE) || decide (c % 0x10000 = 0xFFFF)

/-- The scan of `validate_contents`, one code point per unit of fuel. -/
def validate_loop : Nat → List Nat → validation
  | _, [] => .well_formed
  | 0, _ :: _ => .ill_formed
  | fuel + 1, b :: r =>
    match decode_code_point (b :: r) with
    | none => .ill_formed
    | some (c, rest) =>
      if is_disallowed c then .well_formed_with_non_charactor else validate_loop fuel rest

/-- Modelled from the spec: `utf8string::validate_contents` of
`mqtt/utf8encoded_strings.hpp`, absent from the sources; classifies the string as well-formed,
ill-formed, or well-formed but holding a disallowed code point. Every code point takes at
least one byte, so the length of the string is enough fuel for the scan. -/
def validate_contents (str : List Nat) : validation :=
  validate_loop str.length str

end utf8string

/-- Modelled from the spec: `utf8string_check` of `mqtt/string_check.hpp`, absent from the
sources; throws unless the string is at most 65535 bytes long and its contents are validated
as well-formed. -/
def utf8string_check (str : List Nat) : Except exception Unit :=
  if !utf8string.is_valid_length str then .error .utf8string_length_error
  else if utf8string.validate_contents str != .well_formed then
    .error .utf8string_contents_error
  else .ok ()

/-! ## Buffers -/

/-- Writing with `std::copy(src.begin(), src.end(), it)` into the buffer `ret`, where `it` is
the offset of the output iterator from `ret.begin()`. -/
def copy_to (ret : List Nat) (it : Nat) (src : List Nat) : List Nat :=
  ret.take it ++ src ++ ret.drop (it + src.length)

/-- Resizing with `std::string::resize(n)`: truncates, or pads with zero bytes. -/
def resize (ret : List Nat) (n : Nat) : List Nat :=
  ret.take n ++ List.replicate (n - ret.length) 0

/-! ## Properties (`property.hpp`) -/

namespace v5

namespace property

namespace id

/-- Modelled from the spec: identifier 0x01 of `mqtt/property_id.hpp`, absent from the
sources; the recognised identifiers in the order of the property catalogue. -/
def payload_format_indicator : Nat := 1
/-- Modelled from the spec: identifier 0x02 of `mqtt/property_id.hpp`, absent from the
sources; the recognised identifiers in the order of the property catalogue. -/
def message_expiry_interval : Nat := 2
/-- Modelled from the spec: identifier 0x03 of `mqtt/property_id.hpp`, absent from the
sources; the recognised identifiers in the order of the property catalogue. -/
def content_type : Nat := 3
/-- Modelled from the spec: identifier 0x08 of `mqtt/property_id.hpp`, absent from the
sources; the recognised identifiers in the order of the property catalogue. -/
def response_topic : Nat := 8
/-- Modelled from the spec: identifier 0x09 of `mqtt/property_id.hpp`, absent from the
sources; the recognised identifiers in the order of the property catalogue. -/
def correlation_data : Nat := 9
/-- Modelled from the spec: identifier 0x0B of `mqtt/property_id.hpp`, absent from the
sources; the recognised identifiers in the order of the property catalogue. -/
def subscription_identifier : Nat := 11
/-- Modelled from the spec: identifier 0x11 of `mqtt/property_id.hpp`, absent from the
sources; the recognised identifiers in the order of the property catalogue. -/
def session_expiry_interval : Nat := 17
/-- Modelled from the spec: identifier 0x12 of `mqtt/property_id.hpp`, absent from the
sources; the recognised identifiers in the order of the property catalogue. -/
def assigned_client_identifier : Nat := 18
/-- Modelled from the spec: identifier 0x13 of `mqtt/property_id.hpp`, absent from the
sources; the recognised identifiers in the order of the property catalogue. -/
def server_keep_alive : Nat := 19
/-- Modelled from the spec: identifier 0x15 of `mqtt/property_id.hpp`, absent from the
sources; the recognised identifiers in the order of the property catalogue. -/
def authentication_method : Nat := 21
/-- Modelled from the spec: identifier 0x16 of `mqtt/property_id.hpp`, absent from the
sources; the recognised identifiers in the order of the property catalogue. -/
def authentication_data : Nat := 22
/-- Modelled from the spec: identifier 0x17 of `mqtt/property_id.hpp`, absent from the
sources; the recognised identifiers in the order of the property catalogue. -/
def request_problem_information : Nat := 23
/-- Modelled from the spec: identifier 0x18 of `mqtt/property_id.hpp`, absent from the
sources; the recognised identifiers in the order of the property catalogue. -/
def will_delay_interval : Nat := 24
/-- Modelled from the spec: identifier 0x19 of `mqtt/property_id.hpp`, absent from the
sources; the recognised identifiers in the order of the property catalogue. -/
def request_response_information : Nat := 25
/-- Modelled from the spec: identifier 0x1A of `mqtt/property_id.hpp`, absent from the
sources; the recognised identifiers in the order of the property catalogue. -/
def response_information : Nat := 26
/-- Modelled from the spec: identifier 0x1C of `mqtt/property_id.hpp`, absent from the
sources; the recognised identifiers in the order of the property catalogue. -/
def server_reference : Nat := 28
/-- Modelled from the spec: identifier 0x1F of `mqtt/property_id.hpp`, absent from the
sources; the recognised identifiers in the order of the property catalogue. -/
def reason_string : Nat := 31
/-- Modelled from the spec: identifier 0x21 of `mqtt/property_id.hpp`, absent from the
sources; the recognised identifiers in the order of the property catalogue. -/
def receive_maximum : Nat := 33
/-- Modelled from the spec: identifier 0x22 of `mqtt/property_id.hpp`, absent from the
sources; the recognised identifiers in the order of the property catalogue. -/
def topic_alias_maximum : Nat := 34
/-- Modelled from the spec: identifier 0x23 of `mqtt/property_id.hpp`, absent from the
sources; the recognised identifiers in the order of the property catalogue. -/
def topic_alias : Nat := 35
/-- Modelled from the spec: identifier 0x24 of `mqtt/property_id.hpp`, absent from the
sources; the recognised identifiers in the order of the property catalogue. -/
def maximum_qos : Nat := 36
/-- Modelled from the spec: identifier 0x25 of `mqtt/property_id.hpp`, absent from the
sources; the recognised identifiers in the order of the property catalogue. -/
def retain_available : Nat := 37
/-- Modelled from the spec: identifier 0x26 of `mqtt/property_id.hpp`, absent from the
sources; the recognised identifiers in the order of the property catalogue. -/
def user_property : Nat := 38
/-- Modelled from the spec: identifier 0x27 of `mqtt/property_id.hpp`, absent from the
sources; the recognised identifiers in the order of the property catalogue. -/
def maximum_packet_size : Nat := 39
/-- Modelled from the spec: identifier 0x28 of `mqtt/property_id.hpp`, absent from the
sources; the recognised identifiers in the order of the property catalogue. -/
def wildcard_subscription_available : Nat := 40
/-- Modelled from the spec: identifier 0x29 of `mqtt/property_id.hpp`, absent from the
sources; the recognised identifiers in the order of the property catalogue. -/
def subscription_identifier_available : Nat := 41
/-- Modelled from the spec: identifier 0x2A of `mqtt/property_id.hpp`, absent from the
sources; the recognised identifiers in the order of the property catalogue. -/
def shared_subscription_available : Nat := 42

end id

end property

/-- The alternatives of `property_variant`, by the class of `property.hpp` that holds the
data: the members `id_` and the buffers that `size()` counts and `fill` writes. The named
property classes (`payload_format_indicator`, `content_type`, ...) derive from these and add no
data. -/
inductive property_variant where
  /-- Shape `detail::n_bytes_property<N>`: `id_`, `buf_`. -/
  | n_bytes_property (id_ : Nat) (buf_ : List Nat)
  /-- Shape `detail::binary_property` and `detail::string_property`: `id_`, `length_`,
  `buf_`. -/
  | binary_property (id_ : Nat) (length_ : List Nat) (buf_ : List Nat)
  /-- Shape `detail::binary_property_ref` and `detail::string_property_ref`: `id_`,
  `length_`, `buf_`. -/
  | binary_property_ref (id_ : Nat) (length_ : List Nat) (buf_ : List Nat)
  /-- Shape `detail::variable_property`: `id_`, `value_`. -/
  | variable_property (id_ : Nat) (value_ : List Nat)
  /-- Class `user_property`: `id_`, `key_.len`, `key_.str`, `val_.len`, `val_.str`. -/
  | user_property (id_ : Nat) (key_len key_str val_len val_str : List Nat)
  /-- Class `user_property_ref`: `id_`, `key_.len`, `key_.str`, `val_.len`, `val_.str`. -/
  | user_property_ref (id_ : Nat) (key_len key_str val_len val_str : List Nat)
  deriving DecidableEq, Repr

namespace property_variant

/-- The member `size()` of the property classes. -/
def size : property_variant → Nat
  | n_bytes_property _ buf_ => 1 + buf_.length
  | binary_property _ length_ buf_ => 1 + length_.length + buf_.length
  | binary_property_ref _ length_ buf_ => 1 + length_.length + buf_.length
  | variable_property _ value_ => 1 + value_.length
  | user_property _ key_len key_str val_len val_str =>
    1 + (key_len.length + key_str.length) + (val_len.length + val_str.length)
  | user_property_ref _ key_len key_str val_len val_str =>
    1 + (key_len.length + key_str.length) + (val_len.length + val_str.length)

/-- The member `fill(b, e)` of the property classes: the writes into the buffer `ret`, `b`
being the offset of the output iterator. The iterator is taken by value. -/
def fill (p : property_variant) (ret : List Nat) (b : Nat) : List Nat :=
  match p with
  | n_bytes_property id_ buf_ =>
    copy_to (copy_to ret b [id_]) (b + 1) buf_
  | binary_property id_ length_ buf_ =>
    copy_to (copy_to (copy_to ret b [id_]) (b + 1) length_) (b + 1 + length_.length) buf_
  | binary_property_ref id_ length_ buf_ =>
    copy_to (copy_to (copy_to ret b [id_]) (b + 1) length_) (b + 1 + length_.length) buf_
  | variable_property id_ value_ =>
    copy_to (copy_to ret b [id_]) (b + 1) value_
  | user_property id_ key_len key_str val_len val_str =>
    let r1 := copy_to ret b [id_]
    let r2 := copy_to r1 (b + 1) key_len
    let r3 := copy_to r2 (b + 1 + key_len.length) key_str
    let r4 := copy_to r3 (b + 1 + key_len.length + key_str.length) val_len
    copy_to r4 (b + 1 + key_len.length + key_str.length + val_len.length) val_str
  | user_property_ref id_ key_len key_str val_len val_str =>
    let r1 := copy_to ret b [id_]
    let r2 := copy_to r1 (b + 1) key_len
    let r3 := copy_to r2 (b + 1 + key_len.length) key_str
    let r4 := copy_to r3 (b + 1 + key_len.length + key_str.length) val_len
    copy_to r4 (b + 1 + key_len.length + key_str.length + val_len.length) val_str

end property_variant

/-- A property list, `using properties = std::vector<property_variant>`. -/
abbrev properties := List property_variant

/-- Modelled from the spec: `v5::size(property_variant const&)` of `mqtt/property_variant.hpp`,
absent from the sources; the wire size of the property, that is the `size()` of the class held
by the variant. -/
def size (pv : property_variant) : Nat :=
  pv.size

/-- Modelled from the spec: `v5::fill(property_variant const&, b, e)` of
`mqtt/property_variant.hpp`, absent from the sources; emits the property at the cursor: the
bytes are written by the `fill` of the class held by the variant, and the cursor is left
behind them, so that the properties of a list are emitted back to back in the order of the
list. Returns the buffer and the cursor. -/
def fill (pv : property_variant) (ret : List Nat) (it : Nat) : List Nat × Nat :=
  (pv.fill ret it, it + pv.size)

/-- The accumulation `std::accumulate(props.begin(), props.end(), 0, ...)` of the message
constructors: the sum of `v5::size` over the list. -/
def accumulate_size (props : properties) : Nat :=
  props.foldl (fun total pv => total + size pv) 0

/-- The loop `for (auto const& p : props_) { v5::fill(p, it, end); }` of the
`continuous_buffer()` members. -/
def fill_props : properties → List Nat → Nat → List Nat
  | [], ret, _ => ret
  | p :: ps, ret, it => fill_props ps (fill p ret it).1 (fill p ret it).2

namespace property

/-- The value constructor `payload_format_indicator(bool binary = true)`. -/
def payload_format_indicator (binary : Bool) : property_variant :=
  .n_bytes_property id.payload_format_indicator [if binary then 0 else 1]

/-- The parsing constructor `payload_format_indicator(It& b, It e)`: checks the value byte
and advances `b` past it. The byte is stored through `buf_[0]` into a `buf_` that the base
constructor `n_bytes_property<1>(id)` left empty; that store does not change `buf_.size()`,
so the `buf_` that `size()` and `fill` see stays empty. Returns the property and the range
left after `b`. -/
def payload_format_indicator_parse (range : List Nat) :
    Except exception (property_variant × List Nat) :=
  match range with
  | [] => .error .property_parse_error
  | v :: rest =>
    if v ≠ 0 ∧ v ≠ 1 then .error .property_parse_error
    else .ok (.n_bytes_property id.payload_format_indicator [], rest)

/-- The function `parse_one(it, end)` of `property_parse.hpp`, on the range `[it, end)`.
Returns the parsed property, if any, and the range `[it, end)` on return. Only the arm of
`payload_format_indicator` parses; the arms of the other identifiers `break` and fall to
`return boost::none`, as does an identifier that matches no `case`. -/
def parse_one (range : List Nat) : Option property_variant × List Nat :=
  match range with
  | [] => (none, [])
  | b :: rest =>
    if b = id.payload_format_indicator then
      if rest.length = 0 then (none, b :: rest)
      else
        match payload_format_indicator_parse rest with
        | .ok (p, rest') => (some p, rest')
        | .error _ => (none, rest)
    else (none, b :: rest)

/-- The loop of `parse`, one call of `parse_one` per unit of fuel. -/
def parse_loop : Nat → List Nat → properties × List Nat
  | 0, range => ([], range)
  | fuel + 1, range =>
    match parse_one range with
    | (some p, range') => (p :: (parse_loop fuel range').1, (parse_loop fuel range').2)
    | (none, range') => ([], range')

/-- The function `parse(it, end)` of `property_parse.hpp`: calls `parse_one` until it returns
`boost::none`. Returns the properties and the range `[it, end)` on return. A successful
`parse_one` consumes two bytes, so the length of the range is enough fuel for the loop. -/
def parse (range : List Nat) : properties × List Nat :=
  parse_loop range.length range

/-- The function `parse_with_length(it, end)` of `property_parse.hpp`. Returns the optional
property list and the range `[it, end)` on return; an error is an exception of
`variable_length`. -/
def parse_with_length (range : List Nat) :
    Except exception (Option properties × List Nat) :=
  match variable_length (range.take 4) with
  | .error e => .error e
  | .ok (property_length, consumed) =>
    let range1 := range.drop consumed
    if range1.length < property_length then .ok (none, range1)
    else
      let prop_range := range1.take property_length
      let r := parse prop_range
      .ok (some r.1, range1.drop (prop_range.length - r.2.length))

/-- The memory that the iterators of the parsing functions point into is a function from
addresses to bytes; these are the bytes of the range `[it, e)`. -/
def bytes_at (mem : Nat → Nat) (it e : Nat) : List Nat :=
  (List.range (e - it)).map (fun i => mem (it + i))

/-- The parsing constructor `payload_format_indicator(It& b, It e)` on iterators into a
memory. Returns the property or the exception, the iterator `b` on return, and the addresses
that were dereferenced: `*b` is read after `b == e` has failed. The byte is stored through
`buf_[0]` into a `buf_` that stays empty, see `payload_format_indicator_parse`. -/
def payload_format_indicator_parse_at (mem : Nat → Nat) (b e : Nat) :
    Except exception property_variant × Nat × List Nat :=
  if b = e then (.error .property_parse_error, b, [])
  else if mem b ≠ 0 ∧ mem b ≠ 1 then (.error .property_parse_error, b, [b])
  else (.ok (.n_bytes_property id.payload_format_indicator []), b + 1, [b])

/-- The function `parse_one(it, end)` of `property_parse.hpp` on iterators into a memory.
Returns the parsed property, if any, the iterator `it` on return, and the addresses that were
dereferenced: `*it` by the `switch`, after `it == end` has failed, and what the parsing
constructor reads at `++it`, after `it + 1 >= end` has failed. -/
def parse_one_at (mem : Nat → Nat) (it e : Nat) : Option property_variant × Nat × List Nat :=
  if it = e then (none, it, [])
  else if mem it = id.payload_format_indicator then
    if it + 1 ≥ e then (none, it, [it])
    else
      match payload_format_indicator_parse_at mem (it + 1) e with
      | (.ok p, b, reads) => (some p, b, it :: reads)
      | (.error _, b, reads) => (none, b, it :: reads)
  else (none, it, [it])

/-- The loop of `parse` on iterators into a memory, one call of `parse_one` per unit of
fuel. Returns the properties, the iterator `it` on return and the addresses that were
dereferenced. -/
def parse_loop_at (mem : Nat → Nat) : Nat → Nat → Nat → properties × Nat × List Nat
  | 0, it, _ => ([], it, [])
  | fuel + 1, it, e =>
    match parse_one_at mem it e with
    | (some p, it', reads) =>
      (p :: (parse_loop_at mem fuel it' e).1, (parse_loop_at mem fuel it' e).2.1,
        reads ++ (parse_loop_at mem fuel it' e).2.2)
    | (none, it', reads) => ([], it', reads)

/-- The function `parse(it, end)` of `property_parse.hpp` on iterators into a memory. A
successful `parse_one` advances `it` by two, so the length of the range is enough fuel for
the loop. -/
def parse_at (mem : Nat → Nat) (it e : Nat) : properties × Nat × List Nat :=
  parse_loop_at mem (e - it) it e

/-- The value constructor `maximum_qos(std::uint8_t qos)`: the base is initialised with the
byte, then the body throws unless the value is one of the three QoS constants. -/
def maximum_qos (qos : Nat) : Except exception property_variant :=
  if qos ≠ mqtt.qos.at_most_once ∧ qos ≠ mqtt.qos.at_least_once
      ∧ qos ≠ mqtt.qos.exactly_once then .error .property_parse_error
  else .ok (.n_bytes_property id.maximum_qos [qos])

/-- The parsing constructor `maximum_qos(It& b, It e)`: throws on an empty range and on a
value byte other than 0, 1 and 2, and advances `b` past the byte. As in
`payload_format_indicator_parse`, the store through `buf_[0]` leaves the `buf_` of the base
empty. Returns the property and the range left after `b`. -/
def maximum_qos_parse (range : List Nat) :
    Except exception (property_variant × List Nat) :=
  match range with
  | [] => .error .property_parse_error
  | v :: rest =>
    if v ≠ 0 ∧ v ≠ 1 ∧ v ≠ 2 then .error .property_parse_error
    else .ok (.n_bytes_property id.maximum_qos [], rest)

/-- The constructor `user_property(key, val)`: each of the two strings is stored as a
`len_str`, its two length bytes and its bytes; nothing is checked. -/
def user_property (key val : List Nat) : property_variant :=
  .user_property id.user_property (MQTT_16BITNUM_TO_BYTE_SEQ key.length) key
    (MQTT_16BITNUM_TO_BYTE_SEQ val.length) val

namespace detail

/-- The constructor `binary_property(id, sv)`: the members are initialised, then the body
throws when the data is longer than 0xffff bytes. -/
def binary_property (id : Nat) (sv : List Nat) : Except exception property_variant :=
  if sv.length > 0xffff then .error .property_length_error
  else .ok (.binary_property id (MQTT_16BITNUM_TO_BYTE_SEQ sv.length) sv)

/-- The constructor `string_property(id, sv)`: the base `binary_property(id, sv)` is
constructed first, then the body throws unless `utf8string::validate_contents(sv)` is
`well_formed`. -/
def string_property (id : Nat) (sv : List Nat) : Except exception property_variant :=
  match binary_property id sv with
  | .error e => .error e
  | .ok p =>
    if utf8string.validate_contents sv ≠ .well_formed then .error .utf8string_contents_error
    else .ok p

/-- The data members of `detail::variable_property`. -/
structure variable_property where
  id_ : Nat
  value_ : List Nat
  deriving DecidableEq, Repr

namespace variable_property

/-- The constructor `variable_property(id, value)`: `variable_push(value_, value)` on the
empty `value_`. -/
def make (id value : Nat) : Except exception variable_property :=
  match variable_push [] value with
  | .error e => .error e
  | .ok value_ => .ok { id_ := id, value_ := value_ }

/-- The member `size()`. -/
def size (p : variable_property) : Nat :=
  1 + p.value_.length

/-- The member `val()`: the first component of `variable_length(value_)`. -/
def val (p : variable_property) : Except exception Nat :=
  match variable_length p.value_ with
  | .error e => .error e
  | .ok r => .ok r.1

end variable_property

end detail

/-- The constructor `correlation_data(type)`: the class derives from
`detail::string_property`. -/
def correlation_data (type : List Nat) : Except exception property_variant :=
  detail.string_property id.correlation_data type

/-- The constructor `authentication_data(type)`: the class derives from
`detail::binary_property`. -/
def authentication_data (type : List Nat) : Except exception property_variant :=
  detail.binary_property id.authentication_data type

namespace detail

/-- The constructor `binary_property_ref(id, sv)`: the members are initialised, the data
being referred to and not copied, then the body throws when the data is longer than 0xffff
bytes. -/
def binary_property_ref (id : Nat) (sv : List Nat) : Except exception property_variant :=
  if sv.length > 0xffff then .error .property_length_error
  else .ok (.binary_property_ref id (MQTT_16BITNUM_TO_BYTE_SEQ sv.length) sv)

/-- The member `val()` of `binary_property` and of `binary_property_ref`: the data `buf_`.
The other classes of the variant have no member `val()` of this type. -/
def binary_val : property_variant → Option (List Nat)
  | .binary_property _ _ buf_ => some buf_
  | .binary_property_ref _ _ buf_ => some buf_
  | _ => none

/-- The data members of `detail::n_bytes_property<N>`. -/
structure n_bytes_property where
  id_ : Nat
  buf_ : List Nat
  deriving DecidableEq, Repr

/-- The alternative of `property_variant` that holds an `n_bytes_property`. -/
def n_bytes_property.variant (p : n_bytes_property) : property_variant :=
  .n_bytes_property p.id_ p.buf_

/-- The alternative of `property_variant` that holds a `variable_property`. -/
def variable_property.variant (p : variable_property) : property_variant :=
  .variable_property p.id_ p.value_

/-- The constructor `n_bytes_property<2>(id, { MQTT_16BITNUM_TO_BYTE_SEQ(val) })` of the
classes that hold a `std::uint16_t`. -/
def make_uint16 (id val : Nat) : n_bytes_property :=
  { id_ := id, buf_ := MQTT_16BITNUM_TO_BYTE_SEQ val }

/-- The member `val()` of the classes that hold a `std::uint16_t`:
`make_uint16_t(buf_.begin(), buf_.end())`. -/
def val_uint16 (p : n_bytes_property) : Nat :=
  make_uint16_t p.buf_

/-- The constructor `n_bytes_property<1>(id, { value ? char(1) : char(0) })` of the boolean
classes. -/
def make_bool (id : Nat) (value : Bool) : n_bytes_property :=
  { id_ := id, buf_ := [if value then 1 else 0] }

/-- The member `val()` of the boolean classes: `buf_[0] == 1`. -/
def val_bool (p : n_bytes_property) : Bool :=
  p.buf_.headD 0 == 1

end detail

/-- The constructor `authentication_data_ref(type)`: the class derives from
`detail::binary_property_ref`. -/
def authentication_data_ref (type : List Nat) : Except exception property_variant :=
  detail.binary_property_ref id.authentication_data type

namespace message_expiry_interval

/-- The constructor `message_expiry_interval(std::uint32_t val)`. -/
def make (val : Nat) : detail.n_bytes_property :=
  { id_ := id.message_expiry_interval, buf_ := MQTT_32BITNUM_TO_BYTE_SEQ val }

/-- The member `val()`: `make_uint32_t(buf_.begin(), buf_.end())`. -/
def val (p : detail.n_bytes_property) : Nat :=
  make_uint32_t p.buf_

end message_expiry_interval

namespace server_keep_alive

/-- The constructor `server_keep_alive(std::uint16_t val)`. -/
def make (val : Nat) : detail.n_bytes_property :=
  detail.make_uint16 id.server_keep_alive val

/-- The member `val()`. -/
def val (p : detail.n_bytes_property) : Nat :=
  detail.val_uint16 p

end server_keep_alive

namespace receive_maximum

/-- The constructor `receive_maximum(std::uint16_t val)`. -/
def make (val : Nat) : detail.n_bytes_property :=
  detail.make_uint16 id.receive_maximum val

/-- The member `val()`. -/
def val (p : detail.n_bytes_property) : Nat :=
  detail.val_uint16 p

end receive_maximum

namespace topic_alias_maximum

/-- The constructor `topic_alias_maximum(std::uint16_t val)`. -/
def make (val : Nat) : detail.n_bytes_property :=
  detail.make_uint16 id.topic_alias_maximum val

/-- The member `val()`. -/
def val (p : detail.n_bytes_property) : Nat :=
  detail.val_uint16 p

end topic_alias_maximum

namespace topic_alias

/-- The constructor `topic_alias(std::uint16_t val)`. -/
def make (val : Nat) : detail.n_bytes_property :=
  detail.make_uint16 id.topic_alias val

/-- The member `val()`. -/
def val (p : detail.n_bytes_property) : Nat :=
  detail.val_uint16 p

end topic_alias

namespace request_problem_information

/-- The constructor `request_problem_information(bool value)`. -/
def make (value : Bool) : detail.n_bytes_property :=
  detail.make_bool id.request_problem_information value

/-- The member `val()`. -/
def val (p : detail.n_bytes_property) : Bool :=
  detail.val_bool p

end request_problem_information

namespace request_response_information

/-- The constructor `request_response_information(bool value)`. -/
def make (value : Bool) : detail.n_bytes_property :=
  detail.make_bool id.request_response_information value

/-- The member `val()`. -/
def val (p : detail.n_bytes_property) : Bool :=
  detail.val_bool p

end request_response_information

namespace retain_available

/-- The constructor `retain_available(bool value)`. -/
def make (value : Bool) : detail.n_bytes_property :=
  detail.make_bool id.retain_available value

/-- The member `val()`. -/
def val (p : detail.n_bytes_property) : Bool :=
  detail.val_bool p

end retain_available

namespace wildcard_subscription_available

/-- The constructor `wildcard_subscription_available(bool value)`. -/
def make (value : Bool) : detail.n_bytes_property :=
  detail.make_bool id.wildcard_subscription_available value

/-- The member `val()`. -/
def val (p : detail.n_bytes_property) : Bool :=
  detail.val_bool p

end wildcard_subscription_available

namespace subscription_identifier_available

/-- The constructor `subscription_identifier_available(bool value)`. -/
def make (value : Bool) : detail.n_bytes_property :=
  detail.make_bool id.subscription_identifier_available value

/-- The member `val()`. -/
def val (p : detail.n_bytes_property) : Bool :=
  detail.val_bool p

end subscription_identifier_available

namespace shared_subscription_available

/-- The constructor `shared_subscription_available(bool value)`. -/
def make (value : Bool) : detail.n_bytes_property :=
  detail.make_bool id.shared_subscription_available value

/-- The member `val()`. -/
def val (p : detail.n_bytes_property) : Bool :=
  detail.val_bool p

end shared_subscription_available

end property

/-! ## PUBLISH (`basic_publish_message`) -/

/-- The data members of `basic_publish_message<PacketIdBytes>`. -/
structure basic_publish_message where
  fixed_header_ : Nat
  topic_name_ : List Nat
  topic_name_length_buf_ : List Nat
  packet_id_ : List Nat
  property_length_ : Nat
  property_length_buf_ : List Nat
  props_ : properties
  payload_ : List Nat
  remaining_length_ : Nat
  remaining_length_buf_ : List Nat
  deriving DecidableEq, Repr

namespace basic_publish_message

/-- The static member `publish_remaining_length`. -/
def publish_remaining_length (PacketIdBytes : Nat) (topic_name : List Nat) (qos : Nat)
    (payload : List Nat) : Nat :=
  2 + topic_name.length + payload.length
    + (if qos = mqtt.qos.at_least_once ∨ qos = mqtt.qos.exactly_once then PacketIdBytes else 0)

/-- The value constructor
`basic_publish_message(topic_name, qos, retain, dup, packet_id, props, payload)`. -/
def make (PacketIdBytes : Nat) (topic_name : List Nat) (qos : Nat) (retain dup : Bool)
    (packet_id : Nat) (props : properties) (payload : List Nat) :
    Except exception basic_publish_message := do
  let fixed_header_ := make_fixed_header control_packet_type.publish 0b0000
  let topic_name_length_buf_ := MQTT_16BITNUM_TO_BYTE_SEQ topic_name.length
  let property_length_ := accumulate_size props
  let remaining_length_ := publish_remaining_length PacketIdBytes topic_name qos payload
  utf8string_check topic_name
  let fixed_header_ := publish.set_qos fixed_header_ qos
  let fixed_header_ := publish.set_retain fixed_header_ retain
  let fixed_header_ := publish.set_dup fixed_header_ dup
  let property_length_buf_ ← variable_bytes property_length_
  let remaining_length_ := remaining_length_ + (property_length_buf_.length + property_length_)
  let remaining_length_buf_ ← remaining_bytes remaining_length_
  let packet_id_ :=
    if qos = mqtt.qos.at_least_once ∨ qos = mqtt.qos.exactly_once then
      add_packet_id_to_buf PacketIdBytes [] packet_id
    else []
  pure {
    fixed_header_ := fixed_header_
    topic_name_ := topic_name
    topic_name_length_buf_ := topic_name_length_buf_
    packet_id_ := packet_id_
    property_length_ := property_length_
    property_length_buf_ := property_length_buf_
    props_ := props
    payload_ := payload
    remaining_length_ := remaining_length_
    remaining_length_buf_ := remaining_length_buf_ }

/-- The iterator-range constructor `basic_publish_message(Iterator b, Iterator e)`, on the
bytes of `[b, e)`. -/
def from_range (PacketIdBytes : Nat) (range : List Nat) :
    Except exception basic_publish_message :=
  match range with
  | [] => .error .remaining_length_error
  | fixed_header_ :: b1 =>
    let qos := publish.get_qos fixed_header_
    if b1.length = 0 then .error .remaining_length_error else
    match remaining_length b1 with
    | .error e => .error e
    | .ok (remaining_length_, consumed) =>
      let remaining_length_buf_ := b1.take consumed
      let b2 := b1.drop consumed
      if b2.length ≤ 2 then .error .remaining_length_error else
      let topic_name_length_buf_ := b2.take 2
      let topic_name_length := make_uint16_t (b2.take 2)
      let b3 := b2.drop 2
      if b3.length ≤ topic_name_length then .error .remaining_length_error else
      match utf8string_check (b3.take topic_name_length) with
      | .error e => .error e
      | .ok _ =>
        let topic_name_ := b3.take topic_name_length
        let b4 := b3.drop topic_name_length
        if qos = mqtt.qos.at_most_once then
          from_range_props fixed_header_ remaining_length_ remaining_length_buf_
            topic_name_length_buf_ topic_name_ [] b4
        else if qos = mqtt.qos.at_least_once ∨ qos = mqtt.qos.exactly_once then
          if b4.length ≤ PacketIdBytes then .error .remaining_length_error
          else
            from_range_props fixed_header_ remaining_length_ remaining_length_buf_
              topic_name_length_buf_ topic_name_ (b4.take PacketIdBytes)
              (b4.drop PacketIdBytes)
        else .error .protocol_error
where
  /-- The end of the constructor, from `auto pit = b;` on: the property block and the
  payload. -/
  from_range_props (fixed_header_ remaining_length_ : Nat)
      (remaining_length_buf_ topic_name_length_buf_ topic_name_ packet_id_ b : List Nat) :
      Except exception basic_publish_message :=
    match property.parse_with_length b with
    | .error e => .error e
    | .ok (none, _) => .error .property_length_error
    | .ok (some props, b') =>
      let property_length_ := b.length - b'.length
      match variable_bytes property_length_ with
      | .error e => .error e
      | .ok property_length_buf_ =>
        .ok {
          fixed_header_ := fixed_header_
          topic_name_ := topic_name_
          topic_name_length_buf_ := topic_name_length_buf_
          packet_id_ := packet_id_
          property_length_ := property_length_
          property_length_buf_ := property_length_buf_
          props_ := props
          payload_ := b'
          remaining_length_ := remaining_length_
          remaining_length_buf_ := remaining_length_buf_ }

/-- The member `size()`. -/
def size (m : basic_publish_message) : Nat :=
  1 + m.remaining_length_buf_.length + m.remaining_length_

/-- The member `continuous_buffer()`. -/
def continuous_buffer (m : basic_publish_message) : List Nat :=
  let ret := [m.fixed_header_]
  let ret := ret ++ m.remaining_length_buf_
  let ret := ret ++ m.topic_name_length_buf_
  let ret := ret ++ m.topic_name_
  let ret := ret ++ m.packet_id_
  let it := ret.length
  let ret := resize ret (ret.length + m.property_length_)
  let ret := fill_props m.props_ ret it
  ret ++ m.payload_

/-- The member `packet_id()`. -/
def packet_id (m : basic_publish_message) : Nat :=
  make_packet_id m.packet_id_

/-- The member `qos()`. -/
def qos (m : basic_publish_message) : Nat :=
  publish.get_qos m.fixed_header_

/-- The member `is_retain()`. -/
def is_retain (m : basic_publish_message) : Bool :=
  publish.is_retain m.fixed_header_

/-- The member `is_dup()`. -/
def is_dup (m : basic_publish_message) : Bool :=
  publish.is_dup m.fixed_header_

/-- The member `topic()`. -/
def topic (m : basic_publish_message) : List Nat :=
  m.topic_name_

/-- The member `payload()`. -/
def payload (m : basic_publish_message) : List Nat :=
  m.payload_

/-- The member `set_dup(bool dup)`. -/
def set_dup (m : basic_publish_message) (dup : Bool) : basic_publish_message :=
  { m with fixed_header_ := publish.set_dup m.fixed_header_ dup }

/-- The member `const_buffer_sequence()`: the byte slices in the order of the vector. The
slice of `packet_id_` is pushed only when it is not empty. The loop over `props_` inserts the
slices of each property at `bufs.end()`, an iterator of the empty local vector `bufs` and not
of `ret`; that insertion has no defined result, so the sequence is given for an empty `props_`
only, where the loop does not run. -/
def const_buffer_sequence (m : basic_publish_message) : Option (List (List Nat)) :=
  let ret := [[m.fixed_header_]]
  let ret := ret ++ [m.remaining_length_buf_]
  let ret := ret ++ [m.topic_name_length_buf_]
  let ret := ret ++ [m.topic_name_]
  let ret := if m.packet_id_.length ≠ 0 then ret ++ [m.packet_id_] else ret
  let ret := ret ++ [m.property_length_buf_]
  match m.props_ with
  | [] => some (ret ++ [m.payload_])
  | _ :: _ => none

end basic_publish_message

/-! ## CONNECT (`connect_message`) -/

end v5

/-- Modelled from the spec: the class `will` of `mqtt/will.hpp`, absent from the sources; the
will topic, the will payload, the retain flag and the QoS, read by the accessors `topic()`,
`message()`, `retain()` and `qos()`. -/
structure will where
  topic : List Nat
  message : List Nat
  retain : Bool
  qos : Nat
  deriving DecidableEq, Repr

namespace v5

/-- The data members of `connect_message`. -/
structure connect_message where
  fixed_header_ : Nat
  connect_flags_ : Nat
  remaining_length_ : Nat
  remaining_length_buf_ : List Nat
  protocol_name_and_level_ : List Nat
  client_id_ : List Nat
  client_id_length_buf_ : List Nat
  will_topic_name_ : List Nat
  will_topic_name_length_buf_ : List Nat
  will_message_ : List Nat
  will_message_length_buf_ : List Nat
  user_name_ : List Nat
  user_name_length_buf_ : List Nat
  password_ : List Nat
  password_length_buf_ : List Nat
  keep_alive_buf_ : List Nat
  property_length_ : Nat
  property_length_buf_ : List Nat
  props_ : properties
  deriving DecidableEq, Repr

namespace connect_message

/-- The member initializer list of the constructor; the members it does not name are
default-constructed (empty buffers). -/
def init (keep_alive_sec : Nat) (client_id : List Nat) (props : properties) :
    connect_message :=
  { fixed_header_ := make_fixed_header control_packet_type.connect 0b0000
    connect_flags_ := 0
    remaining_length_ := 2 + 4 + 1 + 1 + 2 + 2 + client_id.length
    remaining_length_buf_ := []
    protocol_name_and_level_ := [0x00, 0x04, 77, 81, 84, 84, 0x05]
    client_id_ := client_id
    client_id_length_buf_ := MQTT_16BITNUM_TO_BYTE_SEQ client_id.length
    will_topic_name_ := []
    will_topic_name_length_buf_ := []
    will_message_ := []
    will_message_length_buf_ := []
    user_name_ := []
    user_name_length_buf_ := []
    password_ := []
    password_length_buf_ := []
    keep_alive_buf_ := MQTT_16BITNUM_TO_BYTE_SEQ keep_alive_sec
    property_length_ := accumulate_size props
    property_length_buf_ := []
    props_ := props }

/-- The block `if (user_name) { ... }` of the constructor. -/
def set_user_name (m : connect_message) (user_name : Option (List Nat)) :
    Except exception connect_message :=
  match user_name with
  | none => .ok m
  | some u =>
    match utf8string_check u with
    | .error e => .error e
    | .ok _ =>
      .ok { m with
        connect_flags_ := m.connect_flags_ ||| connect_flags.user_name_flag
        user_name_ := u
        user_name_length_buf_ := add_uint16_t_to_buf m.user_name_length_buf_ (u.length % 65536)
        remaining_length_ := m.remaining_length_ + (2 + u.length) }

/-- The block `if (password) { ... }` of the constructor. -/
def set_password (m : connect_message) (password : Option (List Nat)) : connect_message :=
  match password with
  | none => m
  | some pw =>
    { m with
      connect_flags_ := m.connect_flags_ ||| connect_flags.password_flag
      password_ := pw
      password_length_buf_ := add_uint16_t_to_buf m.password_length_buf_ (pw.length % 65536)
      remaining_length_ := m.remaining_length_ + (2 + pw.length) }

/-- The block `if (w) { ... }` of the constructor. -/
def set_will (m : connect_message) (w : Option will) : Except exception connect_message :=
  match w with
  | none => .ok m
  | some w =>
    let flags := m.connect_flags_ ||| connect_flags.will_flag
    let flags := if w.retain then flags ||| connect_flags.will_retain else flags
    let flags := connect_flags.set_will_qos flags w.qos
    match utf8string_check w.topic with
    | .error e => .error e
    | .ok _ =>
      if w.message.length > 0xffff then .error .will_message_length_error
      else
        .ok { m with
          connect_flags_ := flags
          will_topic_name_ := w.topic
          will_topic_name_length_buf_ :=
            add_uint16_t_to_buf m.will_topic_name_length_buf_ (w.topic.length % 65536)
          will_message_ := w.message
          will_message_length_buf_ :=
            add_uint16_t_to_buf m.will_message_length_buf_ (w.message.length % 65536)
          remaining_length_ :=
            m.remaining_length_ + (2 + w.topic.length + 2 + w.message.length) }

/-- The first statements of the constructor body: `property_length_buf_` receives the bytes
of `variable_bytes(property_length_)` and the remaining length grows by the size of the
property block. -/
def set_properties (m : connect_message) : Except exception connect_message :=
  match variable_bytes m.property_length_ with
  | .error e => .error e
  | .ok pb =>
    .ok { m with
      property_length_buf_ := m.property_length_buf_ ++ pb
      remaining_length_ :=
        m.remaining_length_ + ((m.property_length_buf_ ++ pb).length + m.property_length_) }

/-- The statement `if (clean_session) connect_flags_ |= connect_flags::clean_session;`. -/
def set_clean_session (m : connect_message) (clean_session : Bool) : connect_message :=
  if clean_session then
    { m with connect_flags_ := m.connect_flags_ ||| connect_flags.clean_session }
  else m

/-- The last statements of the constructor body: `remaining_length_buf_` receives the bytes
of `remaining_bytes(remaining_length_)`. -/
def set_remaining_length_buf (m : connect_message) : Except exception connect_message :=
  match remaining_bytes m.remaining_length_ with
  | .error e => .error e
  | .ok rb => .ok { m with remaining_length_buf_ := m.remaining_length_buf_ ++ rb }

/-- The constructor
`connect_message(keep_alive_sec, client_id, clean_session, w, user_name, password, props)`:
the member initializer list, then the statements of the body in their order. -/
def make (keep_alive_sec : Nat) (client_id : List Nat) (clean_session : Bool)
    (w : Option will) (user_name password : Option (List Nat)) (props : properties) :
    Except exception connect_message := do
  let m ← set_properties (init keep_alive_sec client_id props)
  utf8string_check client_id
  let m ← set_user_name (set_clean_session m clean_session) user_name
  let m ← set_will (set_password m password) w
  set_remaining_length_buf m

/-- The member `size()`. -/
def size (m : connect_message) : Nat :=
  1 + m.remaining_length_buf_.length + m.remaining_length_

/-- The member `continuous_buffer()`. -/
def continuous_buffer (m : connect_message) : List Nat :=
  let ret := [m.fixed_header_]
  let ret := ret ++ m.remaining_length_buf_
  let ret := ret ++ m.protocol_name_and_level_
  let ret := ret ++ [m.connect_flags_]
  let ret := ret ++ m.keep_alive_buf_
  let ret := ret ++ m.property_length_buf_
  let it := ret.length
  let ret := resize ret (ret.length + m.property_length_)
  let ret := fill_props m.props_ ret it
  let ret := ret ++ m.client_id_length_buf_
  let ret := ret ++ m.client_id_
  let ret := if connect_flags.has_will_flag m.connect_flags_ then
      ret ++ m.will_topic_name_length_buf_ ++ m.will_topic_name_
        ++ m.will_message_length_buf_ ++ m.will_message_
    else ret
  let ret := if connect_flags.has_user_name_flag m.connect_flags_ then
      ret ++ m.user_name_length_buf_ ++ m.user_name_
    else ret
  let ret := if connect_flags.has_password_flag m.connect_flags_ then
      ret ++ m.password_length_buf_ ++ m.password_
    else ret
  ret

end connect_message

/-! ## CONNACK (`connack_message`) -/

/-- The data members of `connack_message`. -/
structure connack_message where
  fixed_header_ : Nat
  remaining_length_ : Nat
  remaining_length_buf_ : List Nat
  connect_acknowledge_flags_ : Nat
  reason_code_ : Nat
  property_length_ : Nat
  property_length_buf_ : List Nat
  props_ : properties
  deriving DecidableEq, Repr

namespace connack_message

/-- The constructor `connack_message(session_present, reason_code, props)`. The fixed header
is built from `control_packet_type::connect`, and `remaining_length_buf_` is not written. -/
def make (session_present : Bool) (reason_code : Nat) (props : properties) :
    Except exception connack_message := do
  let fixed_header_ := make_fixed_header control_packet_type.connect 0b0000
  let remaining_length_ := 1 + 1
  let connect_acknowledge_flags_ := if session_present then 1 else 0
  let property_length_ := accumulate_size props
  let property_length_buf_ ← variable_bytes property_length_
  let remaining_length_ := remaining_length_ + (property_length_buf_.length + property_length_)
  pure {
    fixed_header_ := fixed_header_
    remaining_length_ := remaining_length_
    remaining_length_buf_ := []
    connect_acknowledge_flags_ := connect_acknowledge_flags_
    reason_code_ := reason_code
    property_length_ := property_length_
    property_length_buf_ := property_length_buf_
    props_ := props }

/-- The member `size()`. -/
def size (m : connack_message) : Nat :=
  1 + m.remaining_length_buf_.length + m.remaining_length_

/-- The member `continuous_buffer()`. -/
def continuous_buffer (m : connack_message) : List Nat :=
  let ret := [m.fixed_header_]
  let ret := ret ++ m.remaining_length_buf_
  let ret := ret ++ [m.connect_acknowledge_flags_]
  let ret := ret ++ [m.reason_code_]
  let it := ret.length
  let ret := resize ret (ret.length + m.property_length_)
  fill_props m.props_ ret it

end connack_message

/-! ## PUBACK, PUBREC, PUBREL, PUBCOMP -/

/-- The data members of `basic_puback_message<PacketIdBytes>`; the classes
`basic_pubrec_message`, `basic_pubrel_message` and `basic_pubcomp_message` declare the same
members. -/
structure basic_puback_message where
  fixed_header_ : Nat
  remaining_length_ : Nat
  remaining_length_buf_ : List Nat
  packet_id_ : List Nat
  reason_code_ : Nat
  property_length_ : Nat
  property_length_buf_ : List Nat
  props_ : properties
  deriving DecidableEq, Repr

/-- The data members of `basic_pubrec_message<PacketIdBytes>`. -/
abbrev basic_pubrec_message := basic_puback_message
/-- The data members of `basic_pubrel_message<PacketIdBytes>`. -/
abbrev basic_pubrel_message := basic_puback_message
/-- The data members of `basic_pubcomp_message<PacketIdBytes>`. -/
abbrev basic_pubcomp_message := basic_puback_message

namespace basic_puback_message

/-- The body shared, word for word, by the value constructors of `basic_puback_message`,
`basic_pubrec_message`, `basic_pubrel_message` and `basic_pubcomp_message`; they differ in the
control packet type given to `make_fixed_header` only. -/
def make_with (type flags PacketIdBytes packet_id reason_code : Nat) (props : properties) :
    Except exception basic_puback_message := do
  let fixed_header_ := make_fixed_header type flags
  let property_length_ := accumulate_size props
  let packet_id_ := add_packet_id_to_buf PacketIdBytes [] packet_id
  let property_length_buf_ ← variable_bytes property_length_
  let remaining_length_ := PacketIdBytes + 1 + property_length_buf_.length + property_length_
  let remaining_length_buf_ ← remaining_bytes remaining_length_
  pure {
    fixed_header_ := fixed_header_
    remaining_length_ := remaining_length_
    remaining_length_buf_ := remaining_length_buf_
    packet_id_ := packet_id_
    reason_code_ := reason_code
    property_length_ := property_length_
    property_length_buf_ := property_length_buf_
    props_ := props }

/-- The constructor `basic_puback_message(packet_id, reason_code, props)`. -/
def make (PacketIdBytes packet_id reason_code : Nat) (props : properties) :
    Except exception basic_puback_message :=
  make_with control_packet_type.puback 0b0000 PacketIdBytes packet_id reason_code props

/-- The member `size()` (the same in the four classes). -/
def size (m : basic_puback_message) : Nat :=
  1 + m.remaining_length_buf_.length + m.remaining_length_

/-- The member `continuous_buffer()` (the same in the four classes); `packet_id_` is not
appended, and the buffer is resized to `size()`. -/
def continuous_buffer (m : basic_puback_message) : List Nat :=
  let sz := m.size
  let ret := [m.fixed_header_]
  let ret := ret ++ m.remaining_length_buf_
  let ret := ret ++ [m.reason_code_]
  let ret := ret ++ m.property_length_buf_
  let it := ret.length
  let ret := resize ret sz
  fill_props m.props_ ret it

end basic_puback_message

namespace basic_pubrec_message

/-- The constructor `basic_pubrec_message(packet_id, reason_code, props)`. -/
def make (PacketIdBytes packet_id reason_code : Nat) (props : properties) :
    Except exception basic_pubrec_message :=
  basic_puback_message.make_with control_packet_type.pubrec 0b0000 PacketIdBytes packet_id
    reason_code props

end basic_pubrec_message

namespace basic_pubrel_message

/-- The constructor `basic_pubrel_message(packet_id, reason_code, props)`; the flags given to
`make_fixed_header` are `0b0000`. -/
def make (PacketIdBytes packet_id reason_code : Nat) (props : properties) :
    Except exception basic_pubrel_message :=
  basic_puback_message.make_with control_packet_type.pubrel 0b0000 PacketIdBytes packet_id
    reason_code props

/-- The iterator-range constructor `basic_pubrel_message(Iterator b, Iterator e)`, on the
bytes of `[b, e)`. The value of `publish::get_qos(fixed_header_)` that it computes first is
not used. -/
def from_range (PacketIdBytes : Nat) (range : List Nat) :
    Except exception basic_pubrel_message :=
  match range with
  | [] => .error .remaining_length_error
  | fixed_header_ :: b1 =>
    if b1.length = 0 then .error .remaining_length_error else
    match remaining_length b1 with
    | .error e => .error e
    | .ok (remaining_length_, consumed) =>
      let remaining_length_buf_ := b1.take consumed
      let b2 := b1.drop consumed
      if b2.length ≤ PacketIdBytes then .error .remaining_length_error else
      let packet_id_ := b2.take PacketIdBytes
      match b2.drop PacketIdBytes with
      | [] => .error .remaining_length_error
      | reason_code_ :: b4 =>
        match property.parse_with_length b4 with
        | .error e => .error e
        | .ok (none, _) => .error .property_length_error
        | .ok (some props, b5) =>
          let property_length_ := b4.length - b5.length
          match variable_bytes property_length_ with
          | .error e => .error e
          | .ok property_length_buf_ =>
            .ok {
              fixed_header_ := fixed_header_
              remaining_length_ := remaining_length_
              remaining_length_buf_ := remaining_length_buf_
              packet_id_ := packet_id_
              reason_code_ := reason_code_
              property_length_ := property_length_
              property_length_buf_ := property_length_buf_
              props_ := props }

end basic_pubrel_message

namespace basic_pubcomp_message

/-- The constructor `basic_pubcomp_message(packet_id, reason_code, props)`. -/
def make (PacketIdBytes packet_id reason_code : Nat) (props : properties) :
    Except exception basic_pubcomp_message :=
  basic_puback_message.make_with control_packet_type.pubcomp 0b0000 PacketIdBytes packet_id
    reason_code props

end basic_pubcomp_message

/-! ## SUBSCRIBE, SUBACK, UNSUBSCRIBE, UNSUBACK -/

/-- The data members of `basic_subscribe_message<PacketIdBytes>::entry`. -/
structure subscribe_entry where
  topic_filter : List Nat
  topic_filter_length_buf : List Nat
  options : Nat
  deriving DecidableEq, Repr

/-- The constructor `entry(topic_filter, options)` of `basic_subscribe_message`. -/
def subscribe_entry.make (topic_filter : List Nat) (options : Nat) : subscribe_entry :=
  { topic_filter := topic_filter
    topic_filter_length_buf := MQTT_16BITNUM_TO_BYTE_SEQ topic_filter.length
    options := options }

/-- The data members of `basic_subscribe_message<PacketIdBytes>`. -/
structure basic_subscribe_message where
  fixed_header_ : Nat
  entries_ : List subscribe_entry
  packet_id_ : List Nat
  remaining_length_ : Nat
  remaining_length_buf_ : List Nat
  property_length_ : Nat
  property_length_buf_ : List Nat
  props_ : properties
  deriving DecidableEq, Repr

namespace basic_subscribe_message

/-- The loop `for (auto const& e : params) { ... }` of the constructor: checks each topic
filter, appends the entry and adds its size to the remaining length. -/
def add_entries : List (List Nat × Nat) → List subscribe_entry → Nat →
    Except exception (List subscribe_entry × Nat)
  | [], entries_, remaining_length_ => .ok (entries_, remaining_length_)
  | (topic_filter, qos) :: params, entries_, remaining_length_ =>
    match utf8string_check topic_filter with
    | .error e => .error e
    | .ok _ =>
      add_entries params (entries_ ++ [subscribe_entry.make topic_filter qos])
        (remaining_length_ + (2 + topic_filter.length + 1))

/-- The constructor `basic_subscribe_message(params, packet_id, props)`. -/
def make (PacketIdBytes : Nat) (params : List (List Nat × Nat)) (packet_id : Nat)
    (props : properties) : Except exception basic_subscribe_message := do
  let fixed_header_ := make_fixed_header control_packet_type.subscribe 0b0010
  let remaining_length_ := PacketIdBytes
  let property_length_ := accumulate_size props
  let remaining_length_ := remaining_length_ + property_length_
  let packet_id_ := add_packet_id_to_buf PacketIdBytes [] packet_id
  let property_length_buf_ ← variable_bytes property_length_
  let r ← add_entries params [] remaining_length_
  let remaining_length_buf_ ← remaining_bytes r.2
  pure {
    fixed_header_ := fixed_header_
    entries_ := r.1
    packet_id_ := packet_id_
    remaining_length_ := r.2
    remaining_length_buf_ := remaining_length_buf_
    property_length_ := property_length_
    property_length_buf_ := property_length_buf_
    props_ := props }

/-- The member `size()`. -/
def size (m : basic_subscribe_message) : Nat :=
  1 + m.remaining_length_buf_.length + m.remaining_length_

/-- The loop over `entries_` of `continuous_buffer()`. -/
def append_entries (ret : List Nat) : List subscribe_entry → List Nat
  | [] => ret
  | e :: es =>
    append_entries (ret ++ e.topic_filter_length_buf ++ e.topic_filter ++ [e.options]) es

/-- The member `continuous_buffer()`. `ret.reserve(size())` guarantees a capacity of `size()`
bytes, and the string holds what has been appended when `it = ret.end()` is taken. If
`ret.resize(ret.size() + property_length_)` asks for more than both, the string may
reallocate, which invalidates `it`; the fill loop, when it has a property to write, then
writes through the invalid iterator and the call has no defined result: `none`. Here
`size()` does not count `property_length_buf_`, which has been appended, so this happens
whenever the entries hold fewer bytes than the property length does and there is a
property. -/
def continuous_buffer (m : basic_subscribe_message) : Option (List Nat) :=
  let capacity := m.size
  let ret := [m.fixed_header_]
  let ret := ret ++ m.remaining_length_buf_
  let ret := ret ++ m.packet_id_
  let ret := ret ++ m.property_length_buf_
  let it := ret.length
  let capacity := max capacity ret.length
  let it_valid := decide (ret.length + m.property_length_ ≤ capacity)
  let ret := resize ret (ret.length + m.property_length_)
  match m.props_ with
  | [] => some (append_entries ret m.entries_)
  | p :: ps =>
    if it_valid then some (append_entries (fill_props (p :: ps) ret it) m.entries_)
    else none

end basic_subscribe_message

/-- The data members of `basic_suback_message<PacketIdBytes>`; `basic_unsuback_message`
declares the same members. -/
structure basic_suback_message where
  fixed_header_ : Nat
  entries_ : List Nat
  packet_id_ : List Nat
  remaining_length_ : Nat
  remaining_length_buf_ : List Nat
  property_length_ : Nat
  property_length_buf_ : List Nat
  props_ : properties
  deriving DecidableEq, Repr

/-- The data members of `basic_unsuback_message<PacketIdBytes>`. -/
abbrev basic_unsuback_message := basic_suback_message

namespace basic_suback_message

/-- The body shared, word for word, by the constructors of `basic_suback_message` and
`basic_unsuback_message`; they differ in the control packet type only. -/
def make_with (type PacketIdBytes : Nat) (reason_codes : List Nat) (packet_id : Nat)
    (props : properties) : Except exception basic_suback_message := do
  let fixed_header_ := make_fixed_header type 0b0000
  let remaining_length_ := reason_codes.length + PacketIdBytes
  let property_length_ := accumulate_size props
  let remaining_length_ := remaining_length_ + property_length_
  let packet_id_ := add_packet_id_to_buf PacketIdBytes [] packet_id
  let property_length_buf_ ← variable_bytes property_length_
  let remaining_length_buf_ ← remaining_bytes remaining_length_
  pure {
    fixed_header_ := fixed_header_
    entries_ := reason_codes
    packet_id_ := packet_id_
    remaining_length_ := remaining_length_
    remaining_length_buf_ := remaining_length_buf_
    property_length_ := property_length_
    property_length_buf_ := property_length_buf_
    props_ := props }

/-- The constructor `basic_suback_message(reason_codes, packet_id, props)`. -/
def make (PacketIdBytes : Nat) (reason_codes : List Nat) (packet_id : Nat)
    (props : properties) : Except exception basic_suback_message :=
  make_with control_packet_type.suback PacketIdBytes reason_codes packet_id props

/-- The member `size()` (the same in both classes). -/
def size (m : basic_suback_message) : Nat :=
  1 + m.remaining_length_buf_.length + m.remaining_length_

/-- The member `continuous_buffer()` (the same in both classes); `property_length_buf_` is
not appended. -/
def continuous_buffer (m : basic_suback_message) : List Nat :=
  let ret := [m.fixed_header_]
  let ret := ret ++ m.remaining_length_buf_
  let ret := ret ++ m.packet_id_
  let it := ret.length
  let ret := resize ret (ret.length + m.property_length_)
  let ret := fill_props m.props_ ret it
  ret ++ m.entries_

end basic_suback_message

namespace basic_unsuback_message

/-- The constructor `basic_unsuback_message(reason_codes, packet_id, props)`. -/
def make (PacketIdBytes : Nat) (reason_codes : List Nat) (packet_id : Nat)
    (props : properties) : Except exception basic_unsuback_message :=
  basic_suback_message.make_with control_packet_type.unsuback PacketIdBytes reason_codes
    packet_id props

end basic_unsuback_message

/-- The data members of `basic_unsubscribe_message<PacketIdBytes>::entry`. -/
structure unsubscribe_entry where
  topic_filter : List Nat
  topic_filter_length_buf : List Nat
  deriving DecidableEq, Repr

/-- The constructor `entry(topic_filter)` of `basic_unsubscribe_message`. -/
def unsubscribe_entry.make (topic_filter : List Nat) : unsubscribe_entry :=
  { topic_filter := topic_filter
    topic_filter_length_buf := MQTT_16BITNUM_TO_BYTE_SEQ topic_filter.length }

/-- The data members of `basic_unsubscribe_message<PacketIdBytes>`. -/
structure basic_unsubscribe_message where
  fixed_header_ : Nat
  entries_ : List unsubscribe_entry
  packet_id_ : List Nat
  remaining_length_ : Nat
  remaining_length_buf_ : List Nat
  property_length_ : Nat
  property_length_buf_ : List Nat
  props_ : properties
  deriving DecidableEq, Repr

namespace basic_unsubscribe_message

/-- The loop `for (auto const& e : params) { ... }` of the constructor. -/
def add_entries : List (List Nat) → List unsubscribe_entry → Nat →
    Except exception (List unsubscribe_entry × Nat)
  | [], entries_, remaining_length_ => .ok (entries_, remaining_length_)
  | e :: params, entries_, remaining_length_ =>
    match utf8string_check e with
    | .error err => .error err
    | .ok _ =>
      add_entries params (entries_ ++ [unsubscribe_entry.make e])
        (remaining_length_ + (2 + e.length))

/-- The constructor `basic_unsubscribe_message(params, packet_id, props)`. -/
def make (PacketIdBytes : Nat) (params : List (List Nat)) (packet_id : Nat)
    (props : properties) : Except exception basic_unsubscribe_message := do
  let fixed_header_ := make_fixed_header control_packet_type.unsubscribe 0b0010
  let remaining_length_ := PacketIdBytes
  let property_length_ := accumulate_size props
  let remaining_length_ := remaining_length_ + property_length_
  let packet_id_ := add_packet_id_to_buf PacketIdBytes [] packet_id
  let property_length_buf_ ← variable_bytes property_length_
  let r ← add_entries params [] remaining_length_
  let remaining_length_buf_ ← remaining_bytes r.2
  pure {
    fixed_header_ := fixed_header_
    entries_ := r.1
    packet_id_ := packet_id_
    remaining_length_ := r.2
    remaining_length_buf_ := remaining_length_buf_
    property_length_ := property_length_
    property_length_buf_ := property_length_buf_
    props_ := props }

/-- The member `size()`. -/
def size (m : basic_unsubscribe_message) : Nat :=
  1 + m.remaining_length_buf_.length + m.remaining_length_

/-- The loop over `entries_` of `continuous_buffer()`. -/
def append_entries (ret : List Nat) : List unsubscribe_entry → List Nat
  | [] => ret
  | e :: es => append_entries (ret ++ e.topic_filter_length_buf ++ e.topic_filter) es

/-- The member `continuous_buffer()`; `property_length_buf_` is not appended. -/
def continuous_buffer (m : basic_unsubscribe_message) : List Nat :=
  let ret := [m.fixed_header_]
  let ret := ret ++ m.remaining_length_buf_
  let ret := ret ++ m.packet_id_
  let it := ret.length
  let ret := resize ret (ret.length + m.property_length_)
  let ret := fill_props m.props_ ret it
  append_entries ret m.entries_

end basic_unsubscribe_message

/-! ## PINGREQ, PINGRESP (`detail::header_only_message`) -/

namespace detail

/-- The data member `message_` of `detail::header_only_message`. -/
structure header_only_message where
  message_ : List Nat
  deriving DecidableEq, Repr

namespace header_only_message

/-- The constructor `header_only_message(type, flags)`. -/
def make (type flags : Nat) : header_only_message :=
  { message_ := [make_fixed_header type flags, 0] }

/-- The member `size()`. -/
def size (m : header_only_message) : Nat :=
  m.message_.length

/-- The member `continuous_buffer()`. -/
def continuous_buffer (m : header_only_message) : List Nat :=
  m.message_

end header_only_message

end detail

/-- The constructor `pingreq_message()`. -/
def pingreq_message : detail.header_only_message :=
  detail.header_only_message.make control_packet_type.pingreq 0b0000

/-- The constructor `pingresp_message()`. -/
def pingresp_message : detail.header_only_message :=
  detail.header_only_message.make control_packet_type.pingresp 0b0000

/-! ## DISCONNECT, AUTH -/

/-- The data members of `disconnect_message`; `auth_message` declares the same members. -/
structure disconnect_message where
  fixed_header_ : Nat
  remaining_length_ : Nat
  remaining_length_buf_ : List Nat
  reason_code_ : Nat
  property_length_ : Nat
  property_length_buf_ : List Nat
  props_ : properties
  deriving DecidableEq, Repr

/-- The data members of `auth_message`. -/
abbrev auth_message := disconnect_message

namespace disconnect_message

/-- The body shared, word for word, by the constructors of `disconnect_message` and
`auth_message`; they differ in the control packet type only. `remaining_length_buf_` is not
written. -/
def make_with (type reason_code : Nat) (props : properties) :
    Except exception disconnect_message := do
  let fixed_header_ := make_fixed_header type 0b0000
  let remaining_length_ := 1
  let property_length_ := accumulate_size props
  let property_length_buf_ ← variable_bytes property_length_
  let remaining_length_ := remaining_length_ + (property_length_buf_.length + property_length_)
  pure {
    fixed_header_ := fixed_header_
    remaining_length_ := remaining_length_
    remaining_length_buf_ := []
    reason_code_ := reason_code
    property_length_ := property_length_
    property_length_buf_ := property_length_buf_
    props_ := props }

/-- The constructor `disconnect_message(reason_code, props)`. -/
def make (reason_code : Nat) (props : properties) : Except exception disconnect_message :=
  make_with control_packet_type.disconnect reason_code props

/-- The member `size()` (the same in both classes). -/
def size (m : disconnect_message) : Nat :=
  1 + m.remaining_length_buf_.length + m.remaining_length_

/-- The member `continuous_buffer()` (the same in both classes). -/
def continuous_buffer (m : disconnect_message) : List Nat :=
  let ret := [m.fixed_header_]
  let ret := ret ++ m.remaining_length_buf_
  let ret := ret ++ [m.reason_code_]
  let it := ret.length
  let ret := resize ret (ret.length + m.property_length_)
  fill_props m.props_ ret it

end disconnect_message

namespace auth_message

/-- The constructor `auth_message(reason_code, props)`. -/
def make (reason_code : Nat) (props : properties) : Except exception auth_message :=
  disconnect_message.make_with control_packet_type.auth reason_code props

end auth_message

/-! ## Wire images used to state the layout theorems -/

/-- The bytes that the member `fill` of a property writes, in the order it writes them: the
identifier, then the buffers of the class. -/
def property_variant.written : property_variant → List Nat
  | .n_bytes_property id_ buf_ => id_ :: buf_
  | .binary_property id_ length_ buf_ => id_ :: (length_ ++ buf_)
  | .binary_property_ref id_ length_ buf_ => id_ :: (length_ ++ buf_)
  | .variable_property id_ value_ => id_ :: value_
  | .user_property id_ key_len key_str val_len val_str =>
    id_ :: (key_len ++ key_str ++ val_len ++ val_str)
  | .user_property_ref id_ key_len key_str val_len val_str =>
    id_ :: (key_len ++ key_str ++ val_len ++ val_str)

/-- The written bytes of the properties of a list, back to back. -/
def written_props (ps : properties) : List Nat :=
  ps.flatMap property_variant.written

/-- A field with its two-byte big-endian length in front. -/
def length_prefixed (s : List Nat) : List Nat :=
  [s.length / 256, s.length % 256] ++ s

/-- An optional field: length-prefixed when present, nothing when absent. -/
def optional_length_prefixed : Option (List Nat) → List Nat
  | some s => length_prefixed s
  | none => []

namespace connect_message

/-- The bytes that `continuous_buffer()` appends after `remaining_length_buf_`, with the
property region given by `written_props`. -/
def body (m : connect_message) : List Nat :=
  m.protocol_name_and_level_ ++ [m.connect_flags_] ++ m.keep_alive_buf_
    ++ m.property_length_buf_ ++ written_props m.props_
    ++ m.client_id_length_buf_ ++ m.client_id_
    ++ (if connect_flags.has_will_flag m.connect_flags_ then
          m.will_topic_name_length_buf_ ++ m.will_topic_name_
            ++ m.will_message_length_buf_ ++ m.will_message_
        else [])
    ++ (if connect_flags.has_user_name_flag m.connect_flags_ then
          m.user_name_length_buf_ ++ m.user_name_ else [])
    ++ (if connect_flags.has_password_flag m.connect_flags_ then
          m.password_length_buf_ ++ m.password_ else [])

/-- The relation between the members that the statements of the constructor maintain: the
remaining length counts every buffer that `continuous_buffer()` appends, and an optional
section whose flag is clear is empty. -/
def consistent (m : connect_message) : Prop :=
  m.property_length_ = accumulate_size m.props_ ∧
  m.protocol_name_and_level_.length = 7 ∧
  m.keep_alive_buf_.length = 2 ∧
  m.client_id_length_buf_.length = 2 ∧
  m.remaining_length_ = 12 + m.client_id_.length
      + (m.property_length_buf_.length + m.property_length_)
      + (m.will_topic_name_length_buf_.length + m.will_topic_name_.length
          + m.will_message_length_buf_.length + m.will_message_.length)
      + (m.user_name_length_buf_.length + m.user_name_.length)
      + (m.password_length_buf_.length + m.password_.length) ∧
  (connect_flags.has_will_flag m.connect_flags_ = true ∨
    (m.will_topic_name_length_buf_ = [] ∧ m.will_topic_name_ = []
      ∧ m.will_message_length_buf_ = [] ∧ m.will_message_ = [])) ∧
  (connect_flags.has_user_name_flag m.connect_flags_ = true ∨
    (m.user_name_length_buf_ = [] ∧ m.user_name_ = [])) ∧
  (connect_flags.has_password_flag m.connect_flags_ = true ∨
    (m.password_length_buf_ = [] ∧ m.password_ = []))

/-- The members of a CONNECT that hold the constructor arguments: the fixed header, the
protocol name and level, the keep-alive, the properties, the client identifier, and the will,
user name and password sections, each empty while its argument is absent. -/
def built_from (m : connect_message) (keep_alive_sec : Nat) (client_id : List Nat)
    (props : properties) (w : Option will) (user_name password : Option (List Nat)) : Prop :=
  m.fixed_header_ = make_fixed_header control_packet_type.connect 0b0000
  ∧ m.protocol_name_and_level_ = [0x00, 0x04, 77, 81, 84, 84, 0x05]
  ∧ m.keep_alive_buf_ = MQTT_16BITNUM_TO_BYTE_SEQ keep_alive_sec
  ∧ m.props_ = props
  ∧ m.client_id_length_buf_ = MQTT_16BITNUM_TO_BYTE_SEQ client_id.length
  ∧ m.client_id_ = client_id
  ∧ m.will_topic_name_length_buf_
      = (match w with
          | some w => MQTT_16BITNUM_TO_BYTE_SEQ (w.topic.length % 65536)
          | none => [])
  ∧ m.will_topic_name_ = (match w with | some w => w.topic | none => [])
  ∧ m.will_message_length_buf_
      = (match w with
          | some w => MQTT_16BITNUM_TO_BYTE_SEQ (w.message.length % 65536)
          | none => [])
  ∧ m.will_message_ = (match w with | some w => w.message | none => [])
  ∧ m.user_name_length_buf_
      = (match user_name with
          | some u => MQTT_16BITNUM_TO_BYTE_SEQ (u.length % 65536)
          | none => [])
  ∧ m.user_name_ = (match user_name with | some u => u | none => [])
  ∧ m.password_length_buf_
      = (match password with
          | some p => MQTT_16BITNUM_TO_BYTE_SEQ (p.length % 65536)
          | none => [])
  ∧ m.password_ = (match password with | some p => p | none => [])

end connect_message

end v5

/-! ## The persisted store of `test/resend_serialize.cpp` and the resend engine -/

namespace resend

/-- The caller's store of the test, `std::map<packet_id_t, std::tuple<bool, std::string>>`:
the entries in the order of their insertion, each a packet identifier with the flag
"is publish" and the bytes of the packet. -/
abbrev serialized_map := List (Nat × (Bool × List Nat))

/-- What the handlers installed by `set_serialize_handlers` act on: the map `serialized`, and
the outcome of the `BOOST_CHECK`s evaluated so far, true while none of them has failed. -/
structure persisted where
  serialized : serialized_map
  checks : Bool
  deriving DecidableEq, Repr

/-- Modelled from the spec: the states of the state machine that the resend engine keeps per
packet identifier (section 4.F), absent from the sources: a QoS 1 PUBLISH awaiting PUBACK, a
QoS 2 PUBLISH awaiting PUBREC, a PUBREL awaiting PUBCOMP. The terminal state is the unused
identifier. -/
inductive in_flight where
  | q1_pub
  | q2_pub
  | q2_rel
  deriving DecidableEq, Repr

/-- Modelled from the spec: the state of a session of the resend engine (`mqtt/endpoint.hpp`,
absent from the sources): the in-flight record of each live packet identifier, and the
caller's persisted store, which the engine reaches through the three callbacks only. -/
structure session where
  records : List (Nat × in_flight)
  store : persisted
  deriving DecidableEq, Repr

/-- Modelled from the spec: a new session with an empty store: no identifier is live. -/
def init : session :=
  { records := [], store := { serialized := [], checks := true } }

/-- The relation between the in-flight records and the persisted store along a run: no
check of the handlers has failed, and the store holds, in the same order, one entry per
in-flight record, flagged "is publish" unless the record is a PUBREL record. -/
def consistent (s : session) : Prop :=
  s.store.checks = true
    ∧ s.store.serialized.map (fun e => (e.1, e.2.1))
        = s.records.map (fun r => (r.1, decide (r.2 ≠ in_flight.q2_rel)))

end resend

/-! # Theorems -/

/-! ## Buffers -/

theorem length_copy_to (ret : List Nat) (it : Nat) (src : List Nat)
    (h : it + src.length ≤ ret.length) : (copy_to ret it src).length = ret.length := by
  simp only [copy_to, List.length_append, List.length_take, List.length_drop]
  omega

theorem copy_to_copy_to (ret : List Nat) (it : Nat) (a b : List Nat) (h : it ≤ ret.length) :
    copy_to (copy_to ret it a) (it + a.length) b = copy_to ret it (a ++ b) := by
  have h1 : (ret.take it ++ a).length = it + a.length := by
    simp only [List.length_append, List.length_take]; omega
  unfold copy_to
  have e1 : List.take (it + a.length) (List.take it ret ++ a ++ List.drop (it + a.length) ret)
      = List.take it ret ++ a := by
    rw [← h1]; exact List.take_left' rfl
  have e2 : List.drop (it + a.length + b.length)
      (List.take it ret ++ a ++ List.drop (it + a.length) ret)
      = List.drop (it + (a ++ b).length) ret := by
    rw [show it + a.length + b.length = (ret.take it ++ a).length + b.length by omega,
      List.drop_append, List.drop_drop, List.length_append]
    congr 1; omega
  rw [e1, e2]
  simp only [List.append_assoc]

theorem copy_to_append (pre mid post src : List Nat) (h : mid.length = src.length) :
    copy_to (pre ++ mid ++ post) pre.length src = pre ++ src ++ post := by
  have e1 : List.take pre.length (pre ++ mid ++ post) = pre := by
    rw [List.append_assoc]; exact List.take_left' rfl
  have e2 : List.drop (pre.length + src.length) (pre ++ mid ++ post) = post := by
    rw [← h, ← List.length_append]; exact List.drop_left' rfl
  unfold copy_to
  rw [e1, e2]

theorem resize_eq_append (ret : List Nat) (n : Nat) :
    resize ret (ret.length + n) = ret ++ List.replicate n 0 := by
  simp [resize]

theorem variable_bytes_length (n : Nat) (bs : List Nat) (h : variable_bytes n = .ok bs) :
    1 ≤ bs.length ∧ bs.length ≤ 4 := by
  unfold variable_bytes at h
  split_ifs at h <;> cases h <;> simp

theorem variable_length_variable_bytes (n : Nat) (bs rest : List Nat)
    (h : variable_bytes n = .ok bs) :
    variable_length (bs ++ rest) = .ok (n, bs.length) := by
  unfold variable_bytes at h
  split_ifs at h with h0 h1 h2 h3 <;> cases h
  · simp [variable_length, h1]
  · have a : ¬ (n % 128 + 128 < 128) := by omega
    have b : n / 128 < 128 := by omega
    simp [variable_length, a, b]
    omega
  · have a : ¬ (n % 128 + 128 < 128) := by omega
    have b : ¬ (n / 128 % 128 + 128 < 128) := by omega
    have c : n / 16384 < 128 := by omega
    simp [variable_length, a, b, c]
    omega
  · have a : ¬ (n % 128 + 128 < 128) := by omega
    have b : ¬ (n / 128 % 128 + 128 < 128) := by omega
    have c : ¬ (n / 16384 % 128 + 128 < 128) := by omega
    have d : n / 2097152 < 128 := by omega
    simp [variable_length, a, b, c, d]
    omega

theorem land_lor_self (x y : Nat) : (x ||| y) &&& y = y := by
  apply Nat.eq_of_testBit_eq
  intro i
  simp only [Nat.testBit_and, Nat.testBit_or]
  cases x.testBit i <;> cases y.testBit i <;> rfl

theorem land_lor_ne_zero (x y f : Nat) (h : x &&& f ≠ 0) : (x ||| y) &&& f ≠ 0 := by
  intro h0
  apply h
  apply Nat.eq_of_testBit_eq
  intro i
  have := congrArg (fun n => Nat.testBit n i) h0
  simp only [Nat.testBit_and, Nat.testBit_or, Nat.zero_testBit] at this ⊢
  revert this
  cases x.testBit i <;> cases y.testBit i <;> cases f.testBit i <;> simp

namespace v5

/-! ## Properties -/

theorem length_written (p : property_variant) : p.written.length = p.size := by
  cases p <;> simp [property_variant.written, property_variant.size] <;> omega

theorem copy_to_cons_two (ret : List Nat) (b x : Nat) (l : List Nat) (h : b ≤ ret.length) :
    copy_to (copy_to ret b [x]) (b + 1) l = copy_to ret b (x :: l) :=
  copy_to_copy_to ret b [x] l h

theorem copy_to_cons_three (ret : List Nat) (b x : Nat) (l1 l2 : List Nat)
    (h : b ≤ ret.length) :
    copy_to (copy_to (copy_to ret b [x]) (b + 1) l1) (b + 1 + l1.length) l2
      = copy_to ret b (x :: (l1 ++ l2)) := by
  rw [copy_to_cons_two ret b x l1 h]
  have e : b + 1 + l1.length = b + (x :: l1).length := by
    simp only [List.length_cons]; omega
  rw [e, copy_to_copy_to ret b (x :: l1) l2 h]
  rfl

theorem fill_eq_copy_to (p : property_variant) (ret : List Nat) (b : Nat)
    (h : b ≤ ret.length) : p.fill ret b = copy_to ret b p.written := by
  cases p with
  | n_bytes_property id_ buf_ => exact copy_to_cons_two ret b id_ buf_ h
  | binary_property id_ length_ buf_ => exact copy_to_cons_three ret b id_ length_ buf_ h
  | binary_property_ref id_ length_ buf_ => exact copy_to_cons_three ret b id_ length_ buf_ h
  | variable_property id_ value_ => exact copy_to_cons_two ret b id_ value_ h
  | user_property id_ kl ks vl vs =>
    simp only [property_variant.fill, property_variant.written]
    rw [copy_to_cons_three ret b id_ kl ks h]
    have e1 : b + 1 + kl.length + ks.length = b + (id_ :: (kl ++ ks)).length := by
      simp only [List.length_cons, List.length_append]; omega
    rw [e1, copy_to_copy_to ret b _ vl h]
    have e2 : b + (id_ :: (kl ++ ks)).length + vl.length
        = b + (id_ :: (kl ++ ks) ++ vl).length := by
      simp only [List.length_cons, List.length_append]; omega
    rw [e2, copy_to_copy_to ret b _ vs h]
    simp only [List.cons_append, List.append_assoc]
  | user_property_ref id_ kl ks vl vs =>
    simp only [property_variant.fill, property_variant.written]
    rw [copy_to_cons_three ret b id_ kl ks h]
    have e1 : b + 1 + kl.length + ks.length = b + (id_ :: (kl ++ ks)).length := by
      simp only [List.length_cons, List.length_append]; omega
    rw [e1, copy_to_copy_to ret b _ vl h]
    have e2 : b + (id_ :: (kl ++ ks)).length + vl.length
        = b + (id_ :: (kl ++ ks) ++ vl).length := by
      simp only [List.length_cons, List.length_append]; omega
    rw [e2, copy_to_copy_to ret b _ vs h]
    simp only [List.cons_append, List.append_assoc]

theorem accumulate_size_cons (p : property_variant) (ps : properties) :
    accumulate_size (p :: ps) = size p + accumulate_size ps := by
  have key : ∀ (l : properties) (a : Nat),
      List.foldl (fun total pv => total + size pv) a l
        = a + List.foldl (fun total pv => total + size pv) 0 l := by
    intro l
    induction l with
    | nil => intro a; simp
    | cons q qs ih =>
      intro a
      simp only [List.foldl_cons]
      rw [ih (a + size q), ih (0 + size q)]
      omega
  unfold accumulate_size
  rw [List.foldl_cons, key]
  omega

theorem le_length_copy_to (ret : List Nat) (it : Nat) (src : List Nat) (h : it ≤ ret.length) :
    it + src.length ≤ (copy_to ret it src).length := by
  simp only [copy_to, List.length_append, List.length_take, List.length_drop]
  omega

theorem fill_props_eq_copy_to (ps : properties) (ret : List Nat) (it : Nat)
    (h : it ≤ ret.length) :
    fill_props ps ret it = copy_to ret it (written_props ps) := by
  induction ps generalizing ret it with
  | nil =>
    simp [fill_props, written_props, copy_to]
  | cons p ps ih =>
    have hp : p.fill ret it = copy_to ret it p.written := fill_eq_copy_to p ret it h
    have hl : it + p.size ≤ (copy_to ret it p.written).length := by
      rw [← length_written]; exact le_length_copy_to ret it p.written h
    simp only [fill_props, fill]
    rw [hp, ih _ _ hl, ← length_written, copy_to_copy_to ret it _ _ h]
    simp [written_props]

theorem length_written_props (ps : properties) :
    (written_props ps).length = accumulate_size ps := by
  induction ps with
  | nil => simp [written_props, accumulate_size]
  | cons p ps ih =>
    rw [accumulate_size_cons, ← ih]
    simp [written_props, length_written, size]

theorem fill_props_resize (ps : properties) (pre : List Nat) :
    fill_props ps (resize pre (pre.length + accumulate_size ps)) pre.length
      = pre ++ written_props ps := by
  rw [resize_eq_append, fill_props_eq_copy_to _ _ _ (by simp)]
  have h := copy_to_append pre (List.replicate (accumulate_size ps) 0) [] (written_props ps)
    (by simp [length_written_props])
  simpa using h

/-! ## CONNECT -/

theorem connect_continuous_buffer_eq (m : connect_message)
    (h : m.property_length_ = accumulate_size m.props_) :
    m.continuous_buffer = m.fixed_header_ :: (m.remaining_length_buf_ ++ m.body) := by
  unfold connect_message.continuous_buffer connect_message.body
  simp only [h]
  rw [fill_props_resize]
  split_ifs <;> simp

theorem length_ite_of_or (c : Bool) (l : List Nat) (h : c = true ∨ l = []) :
    (if c = true then l else []).length = l.length := by
  rcases h with h | h
  · simp [h]
  · simp [h]

theorem connect_body_length (m : connect_message) (h : m.consistent) :
    m.body.length = m.remaining_length_ := by
  obtain ⟨h1, h2, h3, h4, h5, h6, h7, h8⟩ := h
  have w := length_ite_of_or (connect_flags.has_will_flag m.connect_flags_)
    (m.will_topic_name_length_buf_ ++ m.will_topic_name_
      ++ m.will_message_length_buf_ ++ m.will_message_)
    (by rcases h6 with h6 | ⟨a, b, c, d⟩
        · exact Or.inl h6
        · right; simp [a, b, c, d])
  have u := length_ite_of_or (connect_flags.has_user_name_flag m.connect_flags_)
    (m.user_name_length_buf_ ++ m.user_name_)
    (by rcases h7 with h7 | ⟨a, b⟩
        · exact Or.inl h7
        · right; simp [a, b])
  have p := length_ite_of_or (connect_flags.has_password_flag m.connect_flags_)
    (m.password_length_buf_ ++ m.password_)
    (by rcases h8 with h8 | ⟨a, b⟩
        · exact Or.inl h8
        · right; simp [a, b])
  unfold connect_message.body
  rw [h5]
  simp only [List.length_append, List.length_cons, List.length_nil, length_written_props,
    h2, h3, h4, ← h1] at w u p ⊢
  rw [w, u, p]
  omega


theorem has_flag_set (x f : Nat) (hf : f ≠ 0) : ((x ||| f) &&& f != 0) = true := by
  rw [land_lor_self]; simpa using hf

theorem has_flag_lor (x y f : Nat) (h : (x &&& f != 0) = true) :
    ((x ||| y) &&& f != 0) = true := by
  simp only [bne_iff_ne, ne_eq] at h ⊢
  exact land_lor_ne_zero x y f h

theorem has_will_flag_lor (x y : Nat) (h : connect_flags.has_will_flag x = true) :
    connect_flags.has_will_flag (x ||| y) = true :=
  has_flag_lor x y _ h

theorem has_user_name_flag_lor (x y : Nat) (h : connect_flags.has_user_name_flag x = true) :
    connect_flags.has_user_name_flag (x ||| y) = true :=
  has_flag_lor x y _ h

theorem has_password_flag_lor (x y : Nat) (h : connect_flags.has_password_flag x = true) :
    connect_flags.has_password_flag (x ||| y) = true :=
  has_flag_lor x y _ h

theorem consistent_lor_flags (m : connect_message) (y : Nat) (h : m.consistent) :
    connect_message.consistent { m with connect_flags_ := m.connect_flags_ ||| y } := by
  obtain ⟨h1, h2, h3, h4, h5, h6, h7, h8⟩ := h
  refine ⟨h1, h2, h3, h4, h5, ?_, ?_, ?_⟩
  · exact h6.imp (has_will_flag_lor _ y) id
  · exact h7.imp (has_user_name_flag_lor _ y) id
  · exact h8.imp (has_password_flag_lor _ y) id

theorem consistent_set_properties (keep_alive_sec : Nat) (client_id : List Nat)
    (props : properties) (m : connect_message)
    (h : connect_message.set_properties (connect_message.init keep_alive_sec client_id props)
      = .ok m) :
    m.consistent ∧ (m.user_name_length_buf_ = [] ∧ m.user_name_ = [])
      ∧ (m.password_length_buf_ = [] ∧ m.password_ = [])
      ∧ (m.will_topic_name_length_buf_ = [] ∧ m.will_topic_name_ = []
          ∧ m.will_message_length_buf_ = [] ∧ m.will_message_ = []) := by
  unfold connect_message.set_properties at h
  split at h
  · cases h
  · cases h
    simp [connect_message.consistent, connect_message.init, MQTT_16BITNUM_TO_BYTE_SEQ]

theorem consistent_set_clean_session (m : connect_message) (c : Bool)
    (h : m.consistent ∧ (m.user_name_length_buf_ = [] ∧ m.user_name_ = [])
      ∧ (m.password_length_buf_ = [] ∧ m.password_ = [])
      ∧ (m.will_topic_name_length_buf_ = [] ∧ m.will_topic_name_ = []
          ∧ m.will_message_length_buf_ = [] ∧ m.will_message_ = [])) :
    (m.set_clean_session c).consistent
      ∧ ((m.set_clean_session c).user_name_length_buf_ = []
          ∧ (m.set_clean_session c).user_name_ = [])
      ∧ ((m.set_clean_session c).password_length_buf_ = []
          ∧ (m.set_clean_session c).password_ = [])
      ∧ ((m.set_clean_session c).will_topic_name_length_buf_ = []
          ∧ (m.set_clean_session c).will_topic_name_ = []
          ∧ (m.set_clean_session c).will_message_length_buf_ = []
          ∧ (m.set_clean_session c).will_message_ = []) := by
  unfold connect_message.set_clean_session
  split
  · exact ⟨consistent_lor_flags m _ h.1, h.2⟩
  · exact h

theorem consistent_set_user_name (m m' : connect_message) (user_name : Option (List Nat))
    (hs : m.set_user_name user_name = .ok m')
    (h : m.consistent ∧ (m.user_name_length_buf_ = [] ∧ m.user_name_ = [])
      ∧ (m.password_length_buf_ = [] ∧ m.password_ = [])
      ∧ (m.will_topic_name_length_buf_ = [] ∧ m.will_topic_name_ = []
          ∧ m.will_message_length_buf_ = [] ∧ m.will_message_ = [])) :
    m'.consistent
      ∧ (m'.password_length_buf_ = [] ∧ m'.password_ = [])
      ∧ (m'.will_topic_name_length_buf_ = [] ∧ m'.will_topic_name_ = []
          ∧ m'.will_message_length_buf_ = [] ∧ m'.will_message_ = []) := by
  obtain ⟨⟨h1, h2, h3, h4, h5, h6, h7, h8⟩, ⟨u1, u2⟩, hp, hw⟩ := h
  unfold connect_message.set_user_name at hs
  split at hs
  · cases hs
    exact ⟨⟨h1, h2, h3, h4, h5, h6, h7, h8⟩, hp, hw⟩
  · split at hs
    · cases hs
    · cases hs
      refine ⟨⟨h1, h2, h3, h4, ?_, ?_, ?_, ?_⟩, hp, hw⟩
      · simp only [h5, u1, u2, add_uint16_t_to_buf, MQTT_16BITNUM_TO_BYTE_SEQ]
        simp
        omega
      · exact h6.imp (has_will_flag_lor _ _) id
      · left
        exact has_flag_set _ _ (by decide)
      · exact h8.imp (has_password_flag_lor _ _) id

theorem consistent_set_password (m : connect_message) (password : Option (List Nat))
    (h : m.consistent
      ∧ (m.password_length_buf_ = [] ∧ m.password_ = [])
      ∧ (m.will_topic_name_length_buf_ = [] ∧ m.will_topic_name_ = []
          ∧ m.will_message_length_buf_ = [] ∧ m.will_message_ = [])) :
    (m.set_password password).consistent
      ∧ ((m.set_password password).will_topic_name_length_buf_ = []
          ∧ (m.set_password password).will_topic_name_ = []
          ∧ (m.set_password password).will_message_length_buf_ = []
          ∧ (m.set_password password).will_message_ = []) := by
  obtain ⟨⟨h1, h2, h3, h4, h5, h6, h7, h8⟩, ⟨p1, p2⟩, hw⟩ := h
  unfold connect_message.set_password
  split
  · exact ⟨⟨h1, h2, h3, h4, h5, h6, h7, h8⟩, hw⟩
  · refine ⟨⟨h1, h2, h3, h4, ?_, ?_, ?_, ?_⟩, hw⟩
    · simp only [h5, p1, p2, add_uint16_t_to_buf, MQTT_16BITNUM_TO_BYTE_SEQ]
      simp
    · exact h6.imp (has_will_flag_lor _ _) id
    · exact h7.imp (has_user_name_flag_lor _ _) id
    · left
      exact has_flag_set _ _ (by decide)

theorem consistent_set_will (m m' : connect_message) (w : Option will)
    (hs : m.set_will w = .ok m')
    (h : m.consistent
      ∧ (m.will_topic_name_length_buf_ = [] ∧ m.will_topic_name_ = []
          ∧ m.will_message_length_buf_ = [] ∧ m.will_message_ = [])) :
    m'.consistent := by
  obtain ⟨⟨h1, h2, h3, h4, h5, h6, h7, h8⟩, ⟨w1, w2, w3, w4⟩⟩ := h
  cases w with
  | none =>
    simp only [connect_message.set_will, Except.ok.injEq] at hs
    subst hs
    exact ⟨h1, h2, h3, h4, h5, h6, h7, h8⟩
  | some w =>
    simp only [connect_message.set_will] at hs
    cases hu : utf8string_check w.topic with
    | error e => simp [hu] at hs
    | ok u =>
      by_cases hm : w.message.length > 0xffff
      · simp [hu, hm] at hs
      · simp only [hu, hm, if_false, Except.ok.injEq] at hs
        subst hs
        refine ⟨h1, h2, h3, h4, ?_, ?_, ?_, ?_⟩
        · simp only [h5, w1, w2, w3, w4, add_uint16_t_to_buf, MQTT_16BITNUM_TO_BYTE_SEQ]
          simp
          omega
        · left
          unfold connect_flags.set_will_qos
          apply has_will_flag_lor
          split
          · apply has_will_flag_lor
            exact has_flag_set _ _ (by decide)
          · exact has_flag_set _ _ (by decide)
        · refine h7.imp (fun hh => ?_) id
          unfold connect_flags.set_will_qos
          apply has_user_name_flag_lor
          split
          · exact has_user_name_flag_lor _ _ (has_user_name_flag_lor _ _ hh)
          · exact has_user_name_flag_lor _ _ hh
        · refine h8.imp (fun hh => ?_) id
          unfold connect_flags.set_will_qos
          apply has_password_flag_lor
          split
          · exact has_password_flag_lor _ _ (has_password_flag_lor _ _ hh)
          · exact has_password_flag_lor _ _ hh

theorem remaining_length_buf_set_user_name (m m' : connect_message)
    (user_name : Option (List Nat)) (hs : m.set_user_name user_name = .ok m') :
    m'.remaining_length_buf_ = m.remaining_length_buf_ := by
  cases user_name with
  | none => simp only [connect_message.set_user_name, Except.ok.injEq] at hs; subst hs; rfl
  | some u =>
    simp only [connect_message.set_user_name] at hs
    cases hu : utf8string_check u with
    | error e => simp [hu] at hs
    | ok v => simp only [hu, Except.ok.injEq] at hs; subst hs; rfl

theorem remaining_length_buf_set_will (m m' : connect_message) (w : Option will)
    (hs : m.set_will w = .ok m') :
    m'.remaining_length_buf_ = m.remaining_length_buf_ := by
  cases w with
  | none => simp only [connect_message.set_will, Except.ok.injEq] at hs; subst hs; rfl
  | some w =>
    simp only [connect_message.set_will] at hs
    cases hu : utf8string_check w.topic with
    | error e => simp [hu] at hs
    | ok u =>
      by_cases hm : w.message.length > 0xffff
      · simp [hu, hm] at hs
      · simp only [hu, hm, if_false, Except.ok.injEq] at hs
        subst hs; rfl

theorem remaining_length_buf_set_properties (m m' : connect_message)
    (hs : m.set_properties = .ok m') :
    m'.remaining_length_buf_ = m.remaining_length_buf_ := by
  unfold connect_message.set_properties at hs
  split at hs
  · cases hs
  · cases hs; rfl

theorem connect_make_consistent (keep_alive_sec : Nat) (client_id : List Nat)
    (clean_session : Bool) (w : Option will) (user_name password : Option (List Nat))
    (props : properties) (m : connect_message)
    (h : connect_message.make keep_alive_sec client_id clean_session w user_name password
      props = .ok m) :
    m.consistent ∧ remaining_bytes m.remaining_length_ = .ok m.remaining_length_buf_ := by
  unfold connect_message.make at h
  simp only [bind, Except.bind] at h
  cases h1 : connect_message.set_properties
      (connect_message.init keep_alive_sec client_id props) with
  | error e => simp [h1] at h
  | ok m1 =>
    cases h2 : utf8string_check client_id with
    | error e => simp [h1, h2] at h
    | ok u =>
      cases h3 : (m1.set_clean_session clean_session).set_user_name user_name with
      | error e => simp [h1, h2, h3] at h
      | ok m3 =>
        cases h4 : (m3.set_password password).set_will w with
        | error e => simp [h1, h2, h3, h4] at h
        | ok m4 =>
          simp only [h1, h2, h3, h4] at h
          have c1 := consistent_set_properties keep_alive_sec client_id props m1 h1
          have c2 := consistent_set_clean_session m1 clean_session c1
          have c3 := consistent_set_user_name _ m3 user_name h3 c2
          have c4 := consistent_set_password m3 password c3
          have c5 := consistent_set_will _ m4 w h4 c4
          have e0 : m4.remaining_length_buf_ = [] := by
            rw [remaining_length_buf_set_will _ _ _ h4]
            have : (m3.set_password password).remaining_length_buf_
                = m3.remaining_length_buf_ := by
              unfold connect_message.set_password; split <;> rfl
            rw [this, remaining_length_buf_set_user_name _ _ _ h3]
            have : (m1.set_clean_session clean_session).remaining_length_buf_
                = m1.remaining_length_buf_ := by
              unfold connect_message.set_clean_session; split <;> rfl
            rw [this, remaining_length_buf_set_properties _ _ h1]
            rfl
          simp only [connect_message.set_remaining_length_buf] at h
          split at h
          · cases h
          · rename_i rb hrb
            cases h
            refine ⟨c5, ?_⟩
            simpa [e0] using hrb

/-! ## PUBLISH -/

theorem utf8string_check_length (str : List Nat) (h : utf8string_check str = .ok ()) :
    str.length ≤ 65535 := by
  unfold utf8string_check at h
  split at h
  · cases h
  · rename_i hl
    simpa [utf8string.is_valid_length] using hl

theorem parse_with_length_zero (y : List Nat) :
    property.parse_with_length (0 :: y) = .ok (some [], y) := by
  simp [property.parse_with_length, variable_length, property.parse, property.parse_loop]

theorem from_range_props_zero (fh rl : Nat) (rlb tlb t pid y : List Nat) :
    basic_publish_message.from_range.from_range_props fh rl rlb tlb t pid (0 :: y)
      = .ok { fixed_header_ := fh, topic_name_ := t, topic_name_length_buf_ := tlb,
              packet_id_ := pid, property_length_ := 1, property_length_buf_ := [1],
              props_ := [], payload_ := y, remaining_length_ := rl,
              remaining_length_buf_ := rlb } := by
  simp [basic_publish_message.from_range.from_range_props, parse_with_length_zero,
    variable_bytes]

theorem from_range_standard (fh n : Nat) (rlb t y : List Nat) (l1 l2 k1 k2 : Nat)
    (hq : publish.get_qos fh = 1 ∨ publish.get_qos fh = 2)
    (ht : utf8string_check t = .ok ())
    (hu : make_uint16_t [l1, l2] = t.length)
    (hrl : variable_bytes n = .ok rlb) :
    basic_publish_message.from_range 2
        (fh :: (rlb ++ (l1 :: l2 :: (t ++ k1 :: k2 :: 0 :: y))))
      = .ok { fixed_header_ := fh, topic_name_ := t,
              topic_name_length_buf_ := [l1, l2],
              packet_id_ := [k1, k2], property_length_ := 1, property_length_buf_ := [1],
              props_ := [], payload_ := y, remaining_length_ := n,
              remaining_length_buf_ := rlb } := by
  have hl := variable_bytes_length n rlb hrl
  have hv := variable_length_variable_bytes n rlb (l1 :: l2 :: (t ++ k1 :: k2 :: 0 :: y)) hrl
  have e1 : (rlb ++ (l1 :: l2 :: (t ++ k1 :: k2 :: 0 :: y))).length ≠ 0 := by
    simp only [List.length_append, List.length_cons]; omega
  have e2 : List.take rlb.length (rlb ++ (l1 :: l2 :: (t ++ k1 :: k2 :: 0 :: y))) = rlb :=
    List.take_left' rfl
  have e3 : List.drop rlb.length (rlb ++ (l1 :: l2 :: (t ++ k1 :: k2 :: 0 :: y)))
      = l1 :: l2 :: (t ++ k1 :: k2 :: 0 :: y) :=
    List.drop_left' rfl
  have e4 : List.take t.length (t ++ k1 :: k2 :: 0 :: y) = t := List.take_left' rfl
  have e5 : List.drop t.length (t ++ k1 :: k2 :: 0 :: y) = k1 :: k2 :: 0 :: y :=
    List.drop_left' rfl
  have e6 : ¬ (t ++ k1 :: k2 :: 0 :: y).length ≤ t.length := by
    simp only [List.length_append, List.length_cons]; omega
  have e7 : ¬ (l1 :: l2 :: (t ++ k1 :: k2 :: 0 :: y)).length ≤ 2 := by
    simp only [List.length_append, List.length_cons]; omega
  have q0 : ¬ publish.get_qos fh = qos.at_most_once := by
    unfold qos.at_most_once; omega
  have q1 : publish.get_qos fh = qos.at_least_once ∨ publish.get_qos fh = qos.exactly_once :=
    hq
  have e8 : ¬ (k1 :: k2 :: 0 :: y).length ≤ 2 := by
    simp only [List.length_cons]; omega
  unfold basic_publish_message.from_range
  simp only [remaining_length, hv, e1, e2, e3, if_false, e7, List.take_succ_cons,
    List.take_zero, List.drop_succ_cons, List.drop_zero, hu, e4, e5, e6, ht]
  simp only [q0, q1, e8, if_false, if_true, from_range_props_zero]

theorem publish_header_cases (q : Nat) (d r : Bool) (hq : q = 1 ∨ q = 2) :
    publish.get_qos (0x30 ||| (d.toNat <<< 3) ||| (q <<< 1) ||| r.toNat) = q
      ∧ publish.is_dup (0x30 ||| (d.toNat <<< 3) ||| (q <<< 1) ||| r.toNat) = d
      ∧ publish.is_retain (0x30 ||| (d.toNat <<< 3) ||| (q <<< 1) ||| r.toNat) = r := by
  rcases hq with rfl | rfl <;> cases d <;> cases r <;> decide

theorem make_packet_id_two (k : Nat) (hk : k < 65536) :
    make_packet_id [k / 256 % 256, k % 256] = k := by
  simp only [make_packet_id, List.foldl_cons, List.foldl_nil]
  omega

theorem make_uint16_t_two (n : Nat) (hn : n ≤ 65535) :
    make_uint16_t [n / 256 % 256, n % 256] = n := by
  simp only [make_uint16_t, List.headD_cons, List.drop_succ_cons, List.drop_zero]
  omega

/-! ## The claims -/

/-- C1 (fails on the code): a PUBLISH built by the value constructor is not decoded back by
the iterator-range constructor. For topic "a/b", QoS 1, packet identifier 7, no property and
payload "hi" the value constructor succeeds and `continuous_buffer()` is the 11 bytes
`32 0A 00 03 'a' '/' 'b' 00 07 'h' 'i'`, without the property length byte; decoding these
bytes reads `'h'` as a property length of 104 and throws `property_length_error`. -/
theorem publish_roundtrip_fails :
    ∃ p, basic_publish_message.make 2 [97, 47, 98] 1 false false 7 [] [104, 105] = .ok p
      ∧ p.continuous_buffer = [0x32, 0x0A, 0x00, 0x03, 97, 47, 98, 0x00, 0x07, 104, 105]
      ∧ basic_publish_message.from_range 2 p.continuous_buffer
          = .error .property_length_error :=
  ⟨_, rfl, by decide, by decide⟩

/-- C2 (fails on the code): a buffer that the PUBLISH iterator-range constructor accepts is
not always reproduced by `continuous_buffer()`. The PUBLISH with QoS 0, topic "t", the
property block `05 02 00 00 00 0A` (one message expiry interval) and payload "x" is accepted:
`parse_one` returns `boost::none` at the identifier 0x02, so the property list is empty,
`property_length_` is 1 and the payload starts at the identifier. `continuous_buffer()` then
writes 0x00 where the buffer had the property length 0x05. The PUBLISH with the property
block `02 01 00` (one payload format indicator, which `parse_one` does parse) is accepted
too, and `continuous_buffer()` writes `01 00 00` where the buffer had `02 01 00`. -/
theorem publish_reencode_differs :
    (∃ m, basic_publish_message.from_range 2
          [0x30, 0x0A, 0x00, 0x01, 116, 0x05, 0x02, 0x00, 0x00, 0x00, 0x0A, 120] = .ok m
      ∧ m.props_ = []
      ∧ m.continuous_buffer
          = [0x30, 0x0A, 0x00, 0x01, 116, 0x00, 0x02, 0x00, 0x00, 0x00, 0x0A, 120]
      ∧ m.continuous_buffer
          ≠ [0x30, 0x0A, 0x00, 0x01, 116, 0x05, 0x02, 0x00, 0x00, 0x00, 0x0A, 120])
    ∧ (∃ m, basic_publish_message.from_range 2
          [0x30, 0x07, 0x00, 0x01, 116, 0x02, 0x01, 0x00, 120] = .ok m
      ∧ m.props_.length = 1
      ∧ m.continuous_buffer = [0x30, 0x07, 0x00, 0x01, 116, 0x01, 0x00, 0x00, 120]
      ∧ m.continuous_buffer ≠ [0x30, 0x07, 0x00, 0x01, 116, 0x02, 0x01, 0x00, 120]) :=
  ⟨⟨_, rfl, by decide, by decide, by decide⟩, ⟨_, rfl, by decide, by decide, by decide⟩⟩

/-- C3 (fails on the code): `size()` is not the length of `continuous_buffer()` for every
value constructor. For the PUBLISH with topic "a/b", QoS 1, packet identifier 7, no property
and payload "hi", `size()` is 12 and the buffer has 11 bytes; for CONNACK, DISCONNECT and AUTH
without properties `size()` is 4, 3 and 3 and the buffers have 3, 2 and 2 bytes; for the
SUBSCRIBE of the filter "t" `size()` is 8 and the buffer has 9 bytes. -/
theorem size_differs_from_buffer_length :
    (∃ p, basic_publish_message.make 2 [97, 47, 98] 1 false false 7 [] [104, 105] = .ok p
      ∧ p.size = 12 ∧ p.continuous_buffer.length = 11)
    ∧ (∃ m, connack_message.make false 0 [] = .ok m
      ∧ m.size = 4 ∧ m.continuous_buffer.length = 3)
    ∧ (∃ m, disconnect_message.make 0 [] = .ok m
      ∧ m.size = 3 ∧ m.continuous_buffer.length = 2)
    ∧ (∃ m, auth_message.make 0 [] = .ok m
      ∧ m.size = 3 ∧ m.continuous_buffer.length = 2)
    ∧ (∃ m, basic_subscribe_message.make 2 [([116], 1)] 7 [] = .ok m
      ∧ m.size = 8 ∧ m.continuous_buffer.map List.length = some 9) :=
  ⟨⟨_, rfl, by decide, by decide⟩, ⟨_, rfl, by decide, by decide⟩,
    ⟨_, rfl, by decide, by decide⟩, ⟨_, rfl, by decide, by decide⟩,
    ⟨_, rfl, by decide, by decide⟩⟩

/-- C4: for every CONNECT that the constructor `connect_message` builds (any keep-alive,
client identifier, clean flag, optional will, optional user name, optional password and
property list), `size()` is the length of `continuous_buffer()`, and the remaining length
field, decoded from the second byte on, holds the number of bytes that follow the field. -/
theorem connect_size_eq_buffer_length (keep_alive_sec : Nat) (client_id : List Nat)
    (clean_session : Bool) (w : Option will) (user_name password : Option (List Nat))
    (props : properties) (m : connect_message)
    (h : connect_message.make keep_alive_sec client_id clean_session w user_name password
      props = .ok m) :
    m.size = m.continuous_buffer.length
      ∧ ∃ n c, remaining_length (m.continuous_buffer.drop 1) = .ok (n, c)
          ∧ m.continuous_buffer.length = 1 + c + n := by
  obtain ⟨hc, hr⟩ := connect_make_consistent keep_alive_sec client_id clean_session w
    user_name password props m h
  have hb := connect_continuous_buffer_eq m hc.1
  have hl := connect_body_length m hc
  have hv := variable_length_variable_bytes m.remaining_length_ m.remaining_length_buf_
    m.body hr
  rw [hb]
  refine ⟨?_, m.remaining_length_, m.remaining_length_buf_.length, ?_, ?_⟩
  · simp only [connect_message.size, List.length_cons, List.length_append, hl]
    omega
  · simpa only [List.drop_succ_cons, List.drop_zero, remaining_length] using hv
  · simp only [List.length_cons, List.length_append, hl]
    omega

/-- C4, at a CONNECT with keep-alive 60, client identifier "c1", clean start, the will
("t", `01 02 03`, retain, QoS 1), user name "u", password "pw" and one property: the
constructor succeeds, `size()` is the length of the buffer and the remaining length field
holds the number of bytes that follow it. -/
theorem connect_size_eq_buffer_length_witness :
    ∃ m, connect_message.make 60 [99, 49] true (some ⟨[116], [1, 2, 3], true, 1⟩)
          (some [117]) (some [112, 119]) [property.payload_format_indicator false] = .ok m
      ∧ m.size = m.continuous_buffer.length
      ∧ ∃ n c, remaining_length (m.continuous_buffer.drop 1) = .ok (n, c)
          ∧ m.continuous_buffer.length = 1 + c + n :=
  ⟨_, rfl, connect_size_eq_buffer_length 60 [99, 49] true (some ⟨[116], [1, 2, 3], true, 1⟩)
    (some [117]) (some [112, 119]) [property.payload_format_indicator false] _ rfl⟩

/-- C5 (as stated, fails on the code): the PUBLISH with topic "a/b", payload "hi", QoS 1,
no retain, no dup, packet identifier 7 and no property is built, and its
`continuous_buffer()` does not begin with
`32 0B 00 03 'a' '/' 'b' 00 07 00 'h' 'i'`: the second byte is 0x0A. -/
theorem publish_spec_bytes_counterexample :
    ∃ p, basic_publish_message.make 2 [97, 47, 98] 1 false false 7 [] [104, 105] = .ok p
      ∧ ¬ ([0x32, 0x0B, 0x00, 0x03, 97, 47, 98, 0x00, 0x07, 0x00, 104, 105]
            <+: p.continuous_buffer)
      ∧ (p.continuous_buffer.drop 1).head? = some 0x0A :=
  ⟨_, rfl, by decide, by decide⟩

/-- C5 (amended): the PUBLISH with topic "a/b", payload "hi", QoS 1, no retain, no dup,
packet identifier 7 and no property is built, and its `continuous_buffer()` begins with
`32 0A 00 03 'a' '/' 'b' 00 07` (fixed header, remaining length 10, topic name, packet
identifier) and ends with the payload `'h' 'i'`. -/
theorem publish_spec_bytes_amended :
    ∃ p, basic_publish_message.make 2 [97, 47, 98] 1 false false 7 [] [104, 105] = .ok p
      ∧ [0x32, 0x0A, 0x00, 0x03, 97, 47, 98, 0x00, 0x07] <+: p.continuous_buffer
      ∧ [104, 105] <:+ p.continuous_buffer :=
  ⟨_, rfl, by decide, by decide⟩

/-- C6: for every topic `t` that passes the UTF-8 string check (so of at most 65535 bytes),
QoS `q` in {1, 2}, flags `d` and `r`, 16-bit packet identifier `k` and payload `y`, the
iterator-range constructor accepts the bytes
`[0x30 | d<<3 | q<<1 | r] ++ varint(remaining length) ++ u16be(|t|) ++ t ++ u16be(k) ++ [0x00] ++ y`
and the decoded message has `qos() = q`, `is_dup() = d`, `is_retain() = r`,
`packet_id() = k`, `topic() = t`, no property and `payload() = y`. -/
theorem publish_from_range_standard (t y rlb : List Nat) (q k : Nat) (d r : Bool)
    (ht : utf8string_check t = .ok ()) (hq : q = 1 ∨ q = 2) (hk : k < 65536)
    (hrl : variable_bytes (2 + t.length + 2 + 1 + y.length) = .ok rlb) :
    ∃ m, basic_publish_message.from_range 2
          ([0x30 ||| (d.toNat <<< 3) ||| (q <<< 1) ||| r.toNat] ++ rlb
            ++ [t.length / 256 % 256, t.length % 256] ++ t
            ++ [k / 256 % 256, k % 256] ++ [0x00] ++ y) = .ok m
      ∧ m.qos = q ∧ m.is_dup = d ∧ m.is_retain = r ∧ m.packet_id = k ∧ m.topic = t
      ∧ m.props_ = [] ∧ m.payload = y := by
  obtain ⟨h1, h2, h3⟩ := publish_header_cases q d r hq
  have hs := from_range_standard (0x30 ||| (d.toNat <<< 3) ||| (q <<< 1) ||| r.toNat)
    (2 + t.length + 2 + 1 + y.length) rlb t y (t.length / 256 % 256) (t.length % 256)
    (k / 256 % 256) (k % 256) (by rw [h1]; exact hq) ht
    (make_uint16_t_two t.length (utf8string_check_length t ht)) hrl
  have e : [0x30 ||| (d.toNat <<< 3) ||| (q <<< 1) ||| r.toNat] ++ rlb
        ++ [t.length / 256 % 256, t.length % 256] ++ t ++ [k / 256 % 256, k % 256]
        ++ [0x00] ++ y
      = (0x30 ||| (d.toNat <<< 3) ||| (q <<< 1) ||| r.toNat)
        :: (rlb ++ (t.length / 256 % 256 :: t.length % 256
            :: (t ++ k / 256 % 256 :: k % 256 :: 0 :: y))) := by
    simp only [List.singleton_append, List.cons_append, List.append_assoc, List.nil_append]
  rw [e, hs]
  exact ⟨_, rfl, h1, h2, h3, make_packet_id_two k hk, rfl, rfl, rfl⟩

/-- C6, at the bytes `32 0A 00 03 'a' '/' 'b' 00 07 00 'h' 'i'` (topic "a/b", QoS 1, packet
identifier 7, payload "hi"): the hypotheses hold and the decoded message has QoS 1, no dup,
no retain, packet identifier 7, topic "a/b", no property and payload "hi". -/
theorem publish_from_range_standard_witness :
    utf8string_check [97, 47, 98] = .ok () ∧ ((1 : Nat) = 1 ∨ (1 : Nat) = 2)
      ∧ (7 : Nat) < 65536 ∧ variable_bytes (2 + 3 + 2 + 1 + 2) = .ok [0x0A]
      ∧ ∃ m, basic_publish_message.from_range 2
            [0x32, 0x0A, 0x00, 0x03, 97, 47, 98, 0x00, 0x07, 0x00, 104, 105] = .ok m
          ∧ m.qos = 1 ∧ m.is_dup = false ∧ m.is_retain = false ∧ m.packet_id = 7
          ∧ m.topic = [97, 47, 98] ∧ m.props_ = [] ∧ m.payload = [104, 105] :=
  ⟨by decide, Or.inl rfl, by decide, by decide,
    publish_from_range_standard [97, 47, 98] [104, 105] [0x0A] 1 7 false false
      (by decide) (Or.inl rfl) (by decide) (by decide)⟩

/-- C7 (as stated, fails on the code): the CONNECT with keep-alive 60, client identifier
"c1", clean start, no will, no user name, no password and no property is built, and its
`continuous_buffer()` does not begin with
`10 0D 00 04 'M' 'Q' 'T' 'T' 05 02 00 3C 00 00 02 'c' '1'`: the second byte, the remaining
length, is 0x0F, the number of the bytes that follow it. -/
theorem connect_spec_bytes_counterexample :
    ∃ m, connect_message.make 60 [99, 49] true none none none [] = .ok m
      ∧ ¬ ([0x10, 0x0D, 0x00, 0x04, 77, 81, 84, 84, 0x05, 0x02, 0x00, 0x3C, 0x00, 0x00, 0x02,
            99, 49] <+: m.continuous_buffer)
      ∧ (m.continuous_buffer.drop 1).head? = some 0x0F
      ∧ (m.continuous_buffer.drop 2).length = 0x0F :=
  ⟨_, rfl, by decide, by decide, by decide⟩

/-- C7 (amended): the CONNECT with keep-alive 60, client identifier "c1", clean start, no
will, no user name, no password and no property is built, and the first bytes of its
`continuous_buffer()` are `10 0F 00 04 'M' 'Q' 'T' 'T' 05 02 00 3C 00 00 02 'c' '1'`. -/
theorem connect_spec_bytes_amended :
    ∃ m, connect_message.make 60 [99, 49] true none none none [] = .ok m
      ∧ [0x10, 0x0F, 0x00, 0x04, 77, 81, 84, 84, 0x05, 0x02, 0x00, 0x3C, 0x00, 0x00, 0x02,
          99, 49] <+: m.continuous_buffer :=
  ⟨_, rfl, by decide⟩

/-- C8: `pingreq_message` encodes to exactly the two bytes `C0 00` and `pingresp_message` to
exactly `D0 00`; for both `continuous_buffer()` has length 2, `size()` is 2 and the remaining
length byte is 0. -/
theorem ping_bytes :
    pingreq_message.continuous_buffer = [0xC0, 0x00]
      ∧ pingresp_message.continuous_buffer = [0xD0, 0x00]
      ∧ pingreq_message.continuous_buffer.length = 2
      ∧ pingresp_message.continuous_buffer.length = 2
      ∧ pingreq_message.size = 2 ∧ pingresp_message.size = 2
      ∧ pingreq_message.continuous_buffer.get? 1 = some 0
      ∧ pingresp_message.continuous_buffer.get? 1 = some 0 := by
  decide

/-- C9 (fails on the code): the flags of a PUBREL built by the value constructor are
`0b0000`, not `0b0010`. For packet identifier 7, reason code 0 and no property the first byte
of `continuous_buffer()` is 0x60; the SUBSCRIBE and UNSUBSCRIBE constructors do set `0b0010`
(first bytes 0x82 and 0xA2). -/
theorem pubrel_flags_are_zero :
    (∃ m, basic_pubrel_message.make 2 7 0 [] = .ok m
      ∧ m.continuous_buffer.head? = some 0x60
      ∧ m.continuous_buffer.headD 0 % 16 = 0b0000
      ∧ m.continuous_buffer.headD 0 % 16 ≠ 0b0010)
    ∧ (∃ m, basic_subscribe_message.make 2 [([116], 1)] 7 [] = .ok m
      ∧ m.continuous_buffer.map List.head? = some (some 0x82))
    ∧ (∃ m, basic_unsubscribe_message.make 2 [[116]] 7 [] = .ok m
      ∧ m.continuous_buffer.head? = some 0xA2) :=
  ⟨⟨_, rfl, by decide, by decide, by decide⟩, ⟨_, rfl, by decide⟩, ⟨_, rfl, by decide⟩⟩

/-- C10 (fails on the code): `connack_message(false, 0, {})` is built and its
`continuous_buffer()` is the three bytes `10 00 00`: the fixed header carries the type
nibble of CONNECT, no remaining length field is emitted (`remaining_length_buf_` is never
written) and no property length is emitted, where the claim has `20 03 00 00 00`. -/
theorem connack_layout_fails :
    ∃ m, connack_message.make false 0 [] = .ok m
      ∧ m.continuous_buffer = [0x10, 0x00, 0x00]
      ∧ m.continuous_buffer ≠ [0x20, 0x03, 0x00, 0x00, 0x00]
      ∧ m.remaining_length_buf_ = []
      ∧ m.continuous_buffer.head?
          = some (make_fixed_header control_packet_type.connect 0b0000) :=
  ⟨_, rfl, by decide, by decide, by decide, by decide⟩

end v5

/-! ## Lemmas for the acknowledgement, SUBSCRIBE and CONNECT payload claims -/

theorem variable_bytes_ok (n : Nat) (h : n ≤ 0xfffffff) : ∃ bs, variable_bytes n = .ok bs := by
  unfold variable_bytes
  have h0 : ¬ n > 0xfffffff := by omega
  simp only [h0, if_false]
  split_ifs <;> exact ⟨_, rfl⟩

theorem get_qos_eq_div_mod (fh : Nat) : publish.get_qos fh = fh / 2 % 4 := by
  unfold publish.get_qos
  apply Nat.eq_of_testBit_eq
  intro j
  have h6 : Nat.testBit 6 (j + 1) = decide (j < 2) := by
    rw [← Nat.testBit_div_two]
    exact Nat.testBit_two_pow_sub_one 2 j
  rw [Nat.testBit_shiftRight, Nat.testBit_and, show (4 : Nat) = 2 ^ 2 from rfl,
    Nat.testBit_mod_two_pow, Nat.testBit_div_two, Nat.add_comm 1 j, h6, Bool.and_comm]

namespace v5

theorem pubrel_from_range_short (fh k1 k2 : Nat) :
    basic_pubrel_message.from_range 2 [fh, 0x02, k1, k2] = .error .remaining_length_error := by
  simp [basic_pubrel_message.from_range, remaining_length, variable_length]

theorem pubrel_from_range_long (fh k1 k2 : Nat) :
    basic_pubrel_message.from_range 2 [fh, 0x04, k1, k2, 0x00, 0x00]
      = .ok { fixed_header_ := fh, remaining_length_ := 4, remaining_length_buf_ := [4],
              packet_id_ := [k1, k2], reason_code_ := 0, property_length_ := 1,
              property_length_buf_ := [1], props_ := [] } := by
  simp [basic_pubrel_message.from_range, remaining_length, variable_length,
    parse_with_length_zero, variable_bytes]

theorem publish_continuous_buffer_eq (m : basic_publish_message)
    (h : m.property_length_ = accumulate_size m.props_) :
    m.continuous_buffer = m.fixed_header_ :: (m.remaining_length_buf_
      ++ m.topic_name_length_buf_ ++ m.topic_name_ ++ m.packet_id_
      ++ written_props m.props_ ++ m.payload_) := by
  unfold basic_publish_message.continuous_buffer
  simp only [h]
  rw [fill_props_resize]
  simp

theorem publish_make_fields (PacketIdBytes : Nat) (topic_name : List Nat) (qos : Nat)
    (retain dup : Bool) (packet_id : Nat) (props : properties) (payload : List Nat)
    (p : basic_publish_message)
    (h : basic_publish_message.make PacketIdBytes topic_name qos retain dup packet_id props
      payload = .ok p) :
    p.fixed_header_ = publish.set_dup (publish.set_retain (publish.set_qos
        (make_fixed_header control_packet_type.publish 0b0000) qos) retain) dup
      ∧ p.property_length_ = accumulate_size p.props_ ∧ p.props_ = props
      ∧ p.topic_name_ = topic_name ∧ p.payload_ = payload := by
  unfold basic_publish_message.make at h
  simp only [bind, Except.bind, pure, Except.pure] at h
  cases h1 : utf8string_check topic_name with
  | error e => simp [h1] at h
  | ok u =>
    cases h2 : variable_bytes (accumulate_size props) with
    | error e => simp [h1, h2] at h
    | ok pb =>
      simp only [h1, h2] at h
      split at h
      · cases h
      · cases h
        exact ⟨rfl, rfl, rfl, rfl, rfl⟩

theorem ite_eq_of_or (c : Bool) (l : List Nat) (h : c = true ∨ l = []) :
    (if c = true then l else []) = l := by
  rcases h with h | h
  · simp [h]
  · simp [h]

theorem connect_body_eq (m : connect_message) (h : m.consistent) :
    m.body = m.protocol_name_and_level_ ++ [m.connect_flags_] ++ m.keep_alive_buf_
      ++ m.property_length_buf_ ++ written_props m.props_
      ++ m.client_id_length_buf_ ++ m.client_id_
      ++ (m.will_topic_name_length_buf_ ++ m.will_topic_name_
          ++ m.will_message_length_buf_ ++ m.will_message_)
      ++ (m.user_name_length_buf_ ++ m.user_name_)
      ++ (m.password_length_buf_ ++ m.password_) := by
  obtain ⟨_, _, _, _, _, h6, h7, h8⟩ := h
  have w := ite_eq_of_or (connect_flags.has_will_flag m.connect_flags_)
    (m.will_topic_name_length_buf_ ++ m.will_topic_name_
      ++ m.will_message_length_buf_ ++ m.will_message_)
    (by rcases h6 with h6 | ⟨a, b, c, d⟩
        · exact Or.inl h6
        · right; simp [a, b, c, d])
  have u := ite_eq_of_or (connect_flags.has_user_name_flag m.connect_flags_)
    (m.user_name_length_buf_ ++ m.user_name_)
    (by rcases h7 with h7 | ⟨a, b⟩
        · exact Or.inl h7
        · right; simp [a, b])
  have p := ite_eq_of_or (connect_flags.has_password_flag m.connect_flags_)
    (m.password_length_buf_ ++ m.password_)
    (by rcases h8 with h8 | ⟨a, b⟩
        · exact Or.inl h8
        · right; simp [a, b])
  unfold connect_message.body
  rw [w, u, p]

theorem uint16_seq_of_le (n : Nat) (h : n ≤ 65535) :
    MQTT_16BITNUM_TO_BYTE_SEQ n = [n / 256, n % 256] := by
  simp only [MQTT_16BITNUM_TO_BYTE_SEQ]
  have a : n % 65536 / 256 = n / 256 := by omega
  rw [a]

theorem built_from_set_properties (keep_alive_sec : Nat) (client_id : List Nat)
    (props : properties) (m : connect_message)
    (h : connect_message.set_properties (connect_message.init keep_alive_sec client_id props)
      = .ok m) :
    m.built_from keep_alive_sec client_id props none none none := by
  unfold connect_message.set_properties at h
  split at h
  · cases h
  · cases h
    exact ⟨rfl, rfl, rfl, rfl, rfl, rfl, rfl, rfl, rfl, rfl, rfl, rfl, rfl, rfl⟩

theorem built_from_set_clean_session (m : connect_message) (c : Bool) (ka : Nat)
    (cid : List Nat) (props : properties) (w : Option will) (un pw : Option (List Nat))
    (h : m.built_from ka cid props w un pw) :
    (m.set_clean_session c).built_from ka cid props w un pw := by
  unfold connect_message.set_clean_session
  split
  · exact h
  · exact h

theorem built_from_set_user_name (m m' : connect_message) (ka : Nat) (cid : List Nat)
    (props : properties) (user_name : Option (List Nat))
    (hs : m.set_user_name user_name = .ok m')
    (h : m.built_from ka cid props none none none) :
    m'.built_from ka cid props none user_name none
      ∧ ∀ u, user_name = some u → utf8string_check u = .ok () := by
  obtain ⟨a1, a2, a3, a4, a5, a6, a7, a8, a9, a10, a11, a12, a13, a14⟩ := h
  cases user_name with
  | none =>
    simp only [connect_message.set_user_name, Except.ok.injEq] at hs
    subst hs
    exact ⟨⟨a1, a2, a3, a4, a5, a6, a7, a8, a9, a10, a11, a12, a13, a14⟩, by simp⟩
  | some u =>
    simp only [connect_message.set_user_name] at hs
    cases hu : utf8string_check u with
    | error e => simp [hu] at hs
    | ok v =>
      simp only [hu, Except.ok.injEq] at hs
      subst hs
      refine ⟨⟨a1, a2, a3, a4, a5, a6, a7, a8, a9, a10, ?_, rfl, a13, a14⟩, ?_⟩
      · simp only [a11, add_uint16_t_to_buf, List.nil_append]
      · intro u' hu'
        cases hu'
        exact hu

theorem built_from_set_password (m : connect_message) (ka : Nat) (cid : List Nat)
    (props : properties) (un password : Option (List Nat))
    (h : m.built_from ka cid props none un none) :
    (m.set_password password).built_from ka cid props none un password := by
  obtain ⟨a1, a2, a3, a4, a5, a6, a7, a8, a9, a10, a11, a12, a13, a14⟩ := h
  cases password with
  | none => exact ⟨a1, a2, a3, a4, a5, a6, a7, a8, a9, a10, a11, a12, a13, a14⟩
  | some p =>
    refine ⟨a1, a2, a3, a4, a5, a6, a7, a8, a9, a10, a11, a12, ?_, rfl⟩
    simp only [connect_message.set_password, a13, add_uint16_t_to_buf, List.nil_append]

theorem built_from_set_will (m m' : connect_message) (ka : Nat) (cid : List Nat)
    (props : properties) (w : Option will) (un pw : Option (List Nat))
    (hs : m.set_will w = .ok m')
    (h : m.built_from ka cid props none un pw) :
    m'.built_from ka cid props w un pw
      ∧ ∀ w', w = some w' → utf8string_check w'.topic = .ok () ∧ w'.message.length ≤ 65535 := by
  obtain ⟨a1, a2, a3, a4, a5, a6, a7, a8, a9, a10, a11, a12, a13, a14⟩ := h
  cases w with
  | none =>
    simp only [connect_message.set_will, Except.ok.injEq] at hs
    subst hs
    exact ⟨⟨a1, a2, a3, a4, a5, a6, a7, a8, a9, a10, a11, a12, a13, a14⟩, by simp⟩
  | some w =>
    simp only [connect_message.set_will] at hs
    cases hu : utf8string_check w.topic with
    | error e => simp [hu] at hs
    | ok u =>
      by_cases hm : w.message.length > 0xffff
      · simp [hu, hm] at hs
      · simp only [hu, hm, if_false, Except.ok.injEq] at hs
        subst hs
        refine ⟨⟨a1, a2, a3, a4, a5, a6, ?_, rfl, ?_, rfl, a11, a12, a13, a14⟩, ?_⟩
        · simp only [a7, add_uint16_t_to_buf, List.nil_append]
        · simp only [a9, add_uint16_t_to_buf, List.nil_append]
        · intro w' hw'
          cases hw'
          exact ⟨hu, by omega⟩

theorem built_from_set_remaining_length_buf (m m' : connect_message) (ka : Nat)
    (cid : List Nat) (props : properties) (w : Option will) (un pw : Option (List Nat))
    (hs : m.set_remaining_length_buf = .ok m')
    (h : m.built_from ka cid props w un pw) :
    m'.built_from ka cid props w un pw := by
  unfold connect_message.set_remaining_length_buf at hs
  split at hs
  · cases hs
  · cases hs
    exact h

theorem connect_make_built_from (keep_alive_sec : Nat) (client_id : List Nat)
    (clean_session : Bool) (w : Option will) (user_name password : Option (List Nat))
    (props : properties) (m : connect_message)
    (h : connect_message.make keep_alive_sec client_id clean_session w user_name password
      props = .ok m) :
    m.built_from keep_alive_sec client_id props w user_name password
      ∧ utf8string_check client_id = .ok ()
      ∧ (∀ u, user_name = some u → utf8string_check u = .ok ())
      ∧ (∀ w', w = some w' →
          utf8string_check w'.topic = .ok () ∧ w'.message.length ≤ 65535) := by
  unfold connect_message.make at h
  simp only [bind, Except.bind] at h
  cases h1 : connect_message.set_properties
      (connect_message.init keep_alive_sec client_id props) with
  | error e => simp [h1] at h
  | ok m1 =>
    cases h2 : utf8string_check client_id with
    | error e => simp [h1, h2] at h
    | ok u =>
      cases h3 : (m1.set_clean_session clean_session).set_user_name user_name with
      | error e => simp [h1, h2, h3] at h
      | ok m3 =>
        cases h4 : (m3.set_password password).set_will w with
        | error e => simp [h1, h2, h3, h4] at h
        | ok m4 =>
          simp only [h1, h2, h3, h4] at h
          have b1 := built_from_set_properties keep_alive_sec client_id props m1 h1
          have b2 := built_from_set_clean_session m1 clean_session _ _ _ _ _ _ b1
          have b3 := built_from_set_user_name _ m3 _ _ _ user_name h3 b2
          have b4 := built_from_set_password m3 _ _ _ user_name password b3.1
          have b5 := built_from_set_will _ m4 _ _ _ w _ _ h4 b4
          exact ⟨built_from_set_remaining_length_buf m4 m _ _ _ _ _ _ h b5.1, rfl, b3.2,
            b5.2⟩


theorem uint16_mod_of_le (n : Nat) (h : n ≤ 65535) :
    MQTT_16BITNUM_TO_BYTE_SEQ (n % 65536) = [n / 256, n % 256] := by
  simp only [MQTT_16BITNUM_TO_BYTE_SEQ]
  have a : n % 65536 % 65536 / 256 = n / 256 := by omega
  have b : n % 65536 % 256 = n % 256 := by omega
  rw [a, b]

/-! ## The claims, continued -/

/-- C11 (fails on the code): the packet identifier is not among the bytes that
`continuous_buffer()` produces for PUBACK, PUBREC, PUBREL and PUBCOMP. For packet identifier
7, a non-zero reason code and no property the value constructors succeed, `packet_id_` holds
`00 07`, and the bytes after the remaining length field are the reason code, the property
length 0 and two zero bytes of padding up to `size()`, where the claim has `00 07`, the
reason code and `00`. -/
theorem puback_family_omits_packet_id :
    (∃ m, basic_puback_message.make 2 7 0x80 [] = .ok m
      ∧ m.packet_id_ = [0x00, 0x07]
      ∧ m.continuous_buffer = [0x40, 0x04, 0x80, 0x00, 0x00, 0x00]
      ∧ m.continuous_buffer.drop 2 ≠ [0x00, 0x07, 0x80, 0x00])
    ∧ (∃ m, basic_pubrec_message.make 2 7 0x80 [] = .ok m
      ∧ m.packet_id_ = [0x00, 0x07]
      ∧ m.continuous_buffer = [0x50, 0x04, 0x80, 0x00, 0x00, 0x00]
      ∧ m.continuous_buffer.drop 2 ≠ [0x00, 0x07, 0x80, 0x00])
    ∧ (∃ m, basic_pubrel_message.make 2 7 0x92 [] = .ok m
      ∧ m.packet_id_ = [0x00, 0x07]
      ∧ m.continuous_buffer = [0x60, 0x04, 0x92, 0x00, 0x00, 0x00]
      ∧ m.continuous_buffer.drop 2 ≠ [0x00, 0x07, 0x92, 0x00])
    ∧ (∃ m, basic_pubcomp_message.make 2 7 0x92 [] = .ok m
      ∧ m.packet_id_ = [0x00, 0x07]
      ∧ m.continuous_buffer = [0x70, 0x04, 0x92, 0x00, 0x00, 0x00]
      ∧ m.continuous_buffer.drop 2 ≠ [0x00, 0x07, 0x92, 0x00]) :=
  ⟨⟨_, rfl, by decide, by decide, by decide⟩, ⟨_, rfl, by decide, by decide, by decide⟩,
    ⟨_, rfl, by decide, by decide, by decide⟩, ⟨_, rfl, by decide, by decide, by decide⟩⟩

/-- C12 (fails on the code): decoding the `continuous_buffer()` of a PUBREL built by the
value constructor does not give back its packet identifier and reason code. For packet
identifier 7, reason code 0x92 and no property the buffer is `60 04 92 00 00 00`; the
iterator-range constructor accepts it and reads the packet identifier `92 00` (37376) and
the reason code 0. -/
theorem pubrel_roundtrip_loses_packet_id :
    ∃ p, basic_pubrel_message.make 2 7 0x92 [] = .ok p
      ∧ make_packet_id p.packet_id_ = 7 ∧ p.reason_code_ = 0x92
      ∧ p.continuous_buffer = [0x60, 0x04, 0x92, 0x00, 0x00, 0x00]
      ∧ ∃ m, basic_pubrel_message.from_range 2 p.continuous_buffer = .ok m
          ∧ make_packet_id m.packet_id_ = 37376 ∧ m.reason_code_ = 0
          ∧ make_packet_id m.packet_id_ ≠ make_packet_id p.packet_id_
          ∧ m.reason_code_ ≠ p.reason_code_ :=
  ⟨_, rfl, by decide, by decide, by decide, _, rfl, by decide, by decide, by decide,
    by decide⟩

/-- C13 (as stated, fails on the code): the PUBREL iterator-range constructor does not
accept the short-form buffer `62 02 00 07`; after the remaining length it finds
`b + PacketIdBytes >= e` and throws `remaining_length_error`. -/
theorem pubrel_short_form_counterexample :
    basic_pubrel_message.from_range 2 [0x62, 0x02, 0x00, 0x07]
      = .error .remaining_length_error := by
  decide

/-- C13 (amended): for every 16-bit packet identifier `k`, the PUBREL iterator-range
constructor rejects the short-form buffer `[0x62, 0x02, k_hi, k_lo]` with
`remaining_length_error`, and accepts the buffer `[0x62, 0x04, k_hi, k_lo, 0x00, 0x00]`, in
which the reason code and the property length are present, yielding a PUBREL with packet
identifier `k`, reason code 0 and no property. -/
theorem pubrel_short_form_amended (k : Nat) (hk : k < 65536) :
    basic_pubrel_message.from_range 2 [0x62, 0x02, k / 256 % 256, k % 256]
        = .error .remaining_length_error
      ∧ ∃ m, basic_pubrel_message.from_range 2
            [0x62, 0x04, k / 256 % 256, k % 256, 0x00, 0x00] = .ok m
          ∧ make_packet_id m.packet_id_ = k ∧ m.reason_code_ = 0 ∧ m.props_ = [] := by
  refine ⟨pubrel_from_range_short _ _ _, ?_⟩
  rw [pubrel_from_range_long]
  exact ⟨_, rfl, make_packet_id_two k hk, rfl, rfl⟩

/-- C13 (amended), at packet identifier 7: `62 02 00 07` is rejected and `62 04 00 07 00 00`
is decoded to packet identifier 7, reason code 0 and no property. -/
theorem pubrel_short_form_amended_witness :
    (7 : Nat) < 65536
      ∧ basic_pubrel_message.from_range 2 [0x62, 0x02, 7 / 256 % 256, 7 % 256]
        = .error .remaining_length_error
      ∧ ∃ m, basic_pubrel_message.from_range 2
            [0x62, 0x04, 7 / 256 % 256, 7 % 256, 0x00, 0x00] = .ok m
          ∧ make_packet_id m.packet_id_ = 7 ∧ m.reason_code_ = 0 ∧ m.props_ = [] :=
  ⟨by decide, pubrel_short_form_amended 7 (by decide)⟩

/-- C14 (fails on the code): the remaining length field of a SUBSCRIBE does not count the
property length. For the entry ("t", 1), packet identifier 7 and no property the constructor
succeeds and `continuous_buffer()` is `82 06 00 07 00 00 01 't' 01`: the layout is the one
of the claim, but the remaining length field holds 6 and 7 bytes follow it. -/
theorem subscribe_remaining_length_short :
    ∃ m, basic_subscribe_message.make 2 [([116], 1)] 7 [] = .ok m
      ∧ m.continuous_buffer = some [0x82, 0x06, 0x00, 0x07, 0x00, 0x00, 0x01, 116, 0x01]
      ∧ m.continuous_buffer.map (fun buf => remaining_length (buf.drop 1))
          = some (.ok (6, 1))
      ∧ m.continuous_buffer.map (fun buf => (buf.drop 2).length) = some 7 :=
  ⟨_, rfl, by decide, by decide, by decide⟩

/-- C15 (as stated, fails on the code): constructing a v5 SUBSCRIBE with an empty entry list
does not fail. For packet identifier 7 and no property the constructor succeeds, the message
has no entry and `continuous_buffer()` is `82 02 00 07 00`. -/
theorem subscribe_empty_counterexample :
    ∃ m, basic_subscribe_message.make 2 [] 7 [] = .ok m
      ∧ m.entries_ = []
      ∧ m.continuous_buffer = some [0x82, 0x02, 0x00, 0x07, 0x00] :=
  ⟨_, rfl, by decide, by decide⟩

/-- C15 (amended): constructing a v5 SUBSCRIBE with an empty entry list succeeds, for every
packet identifier and every property list whose size keeps the remaining length within
268435455, and builds a SUBSCRIBE without entry. -/
theorem subscribe_empty_amended (PacketIdBytes packet_id : Nat) (props : properties)
    (h : PacketIdBytes + accumulate_size props ≤ 0xfffffff) :
    ∃ m, basic_subscribe_message.make PacketIdBytes [] packet_id props = .ok m
      ∧ m.entries_ = [] := by
  obtain ⟨pb, hpb⟩ := variable_bytes_ok (accumulate_size props) (by omega)
  obtain ⟨rb, hrb⟩ := variable_bytes_ok (PacketIdBytes + accumulate_size props) h
  unfold basic_subscribe_message.make
  simp only [bind, Except.bind, pure, Except.pure, hpb,
    basic_subscribe_message.add_entries, remaining_bytes, hrb]
  exact ⟨_, rfl, rfl⟩

/-- C15 (amended), at packet identifier 7 and one property: the size bound holds and the
constructor builds a SUBSCRIBE without entry. -/
theorem subscribe_empty_amended_witness :
    2 + accumulate_size [property.payload_format_indicator true] ≤ 0xfffffff
      ∧ ∃ m, basic_subscribe_message.make 2 [] 7 [property.payload_format_indicator true]
            = .ok m
          ∧ m.entries_ = [] :=
  ⟨by decide, subscribe_empty_amended 2 7 [property.payload_format_indicator true]
    (by decide)⟩

/-- C16 (fails on the code): the `continuous_buffer()` of a SUBACK has no property length.
For the reason codes 1, 2, packet identifier 7 and no property the constructor succeeds,
`property_length_buf_` holds `00`, and the bytes after the remaining length field are
`00 07 01 02`, where the claim has `00 07 00 01 02`. -/
theorem suback_omits_property_length :
    ∃ m, basic_suback_message.make 2 [1, 2] 7 [] = .ok m
      ∧ m.property_length_buf_ = [0x00]
      ∧ m.continuous_buffer = [0x90, 0x04, 0x00, 0x07, 0x01, 0x02]
      ∧ m.continuous_buffer.drop 2 ≠ [0x00, 0x07, 0x00, 0x01, 0x02] :=
  ⟨_, rfl, by decide, by decide, by decide⟩

/-- C17 (fails on the code): the `continuous_buffer()` of DISCONNECT and AUTH has neither a
remaining length field nor a property length. For reason code 0 and no property the
constructors succeed, `remaining_length_buf_` is empty and the buffers are `E0 00` and
`F0 00`, where the claim has `E0 02 00 00` and `F0 02 00 00`. -/
theorem disconnect_auth_layout_fails :
    (∃ m, disconnect_message.make 0 [] = .ok m
      ∧ m.remaining_length_buf_ = [] ∧ m.remaining_length_ = 2
      ∧ m.continuous_buffer = [0xE0, 0x00]
      ∧ m.continuous_buffer ≠ [0xE0, 0x02, 0x00, 0x00])
    ∧ (∃ m, auth_message.make 0 [] = .ok m
      ∧ m.remaining_length_buf_ = [] ∧ m.remaining_length_ = 2
      ∧ m.continuous_buffer = [0xF0, 0x00]
      ∧ m.continuous_buffer ≠ [0xF0, 0x02, 0x00, 0x00]) :=
  ⟨⟨_, rfl, by decide, by decide, by decide, by decide⟩,
    ⟨_, rfl, by decide, by decide, by decide, by decide⟩⟩

/-- C18 (as stated, fails on the code): a CONNECT built with a will has no will-properties
block. For client identifier "c1", the will ("t", `01 02 03`), no user name, no password and
no property the bytes after the client identifier are `00 01 't' 00 03 01 02 03`, the
length-prefixed will topic and will payload alone: they are not a variable-byte length, that
many property bytes, and then the length-prefixed will topic and will payload. -/
theorem connect_will_properties_counterexample :
    ∃ m, connect_message.make 60 [99, 49] true (some ⟨[116], [1, 2, 3], false, 0⟩) none none
          [] = .ok m
      ∧ m.continuous_buffer
          = [0x10, 0x17, 0x00, 0x04, 77, 81, 84, 84, 0x05, 0x06, 0x00, 0x3C, 0x00,
              0x00, 0x02, 99, 49, 0x00, 0x01, 116, 0x00, 0x03, 1, 2, 3]
      ∧ ¬ ∃ will_property_length will_properties,
          variable_bytes will_properties.length = .ok will_property_length
          ∧ List.drop 17 [0x10, 0x17, 0x00, 0x04, 77, 81, 84, 84, 0x05, 0x06, 0x00, 0x3C, 0x00,
              0x00, 0x02, 99, 49, 0x00, 0x01, 116, 0x00, 0x03, 1, 2, 3]
              = will_property_length ++ will_properties
                ++ length_prefixed [116] ++ length_prefixed [1, 2, 3] := by
  refine ⟨_, rfl, by decide, ?_⟩
  rintro ⟨wl, wp, hv, he⟩
  have h1 := (variable_bytes_length _ _ hv).1
  have h2 := congrArg List.length he
  simp only [List.length_append, length_prefixed, List.length_cons, List.length_nil,
    List.drop_succ_cons, List.drop_zero] at h2
  omega

/-- C18 (amended): for every CONNECT built with a will (and with a password, if any, of at
most 65535 bytes), `continuous_buffer()` is the fixed header, the remaining length, the
protocol name and level, the connect flags, the keep-alive and the property block, then the
length-prefixed client identifier, and after it the length-prefixed will topic, the
length-prefixed will payload, the optional length-prefixed user name and the optional
length-prefixed password; there is no will-properties block. -/
theorem connect_will_payload_layout (keep_alive_sec : Nat) (client_id : List Nat)
    (clean_session : Bool) (w : will) (user_name password : Option (List Nat))
    (props : properties) (m : connect_message)
    (h : connect_message.make keep_alive_sec client_id clean_session (some w) user_name
      password props = .ok m)
    (hp : ∀ p, password = some p → p.length ≤ 65535) :
    m.continuous_buffer
      = [m.fixed_header_] ++ m.remaining_length_buf_ ++ m.protocol_name_and_level_
        ++ [m.connect_flags_] ++ m.keep_alive_buf_
        ++ m.property_length_buf_ ++ written_props props
        ++ length_prefixed client_id
        ++ length_prefixed w.topic ++ length_prefixed w.message
        ++ optional_length_prefixed user_name ++ optional_length_prefixed password := by
  obtain ⟨hc, _⟩ := connect_make_consistent keep_alive_sec client_id clean_session (some w)
    user_name password props m h
  obtain ⟨⟨_, _, _, a4, a5, a6, a7, a8, a9, a10, a11, a12, a13, a14⟩, hcid, hun, hw⟩ :=
    connect_make_built_from keep_alive_sec client_id clean_session (some w) user_name
      password props m h
  obtain ⟨hwt, hwm⟩ := hw w rfl
  dsimp only at a7 a8 a9 a10
  have eu : m.user_name_length_buf_ ++ m.user_name_ = optional_length_prefixed user_name := by
    rw [a11, a12]
    cases user_name with
    | none => rfl
    | some u =>
      simp only [uint16_mod_of_le _ (utf8string_check_length _ (hun u rfl)),
        optional_length_prefixed, length_prefixed]
  have ep : m.password_length_buf_ ++ m.password_ = optional_length_prefixed password := by
    rw [a13, a14]
    cases password with
    | none => rfl
    | some p =>
      simp only [uint16_mod_of_le _ (hp p rfl), optional_length_prefixed, length_prefixed]
  rw [connect_continuous_buffer_eq m hc.1, connect_body_eq m hc, eu, ep, a4, a5, a6, a7, a8,
    a9, a10, uint16_seq_of_le _ (utf8string_check_length _ hcid),
    uint16_mod_of_le _ (utf8string_check_length _ hwt), uint16_mod_of_le _ hwm]
  simp only [length_prefixed, List.singleton_append, List.cons_append, List.append_assoc,
    List.nil_append]

/-- C18 (amended), at a CONNECT with keep-alive 60, client identifier "c1", the will
("t", `01 02 03`, retain, QoS 1), user name "u", password "pw" and one property: the
constructor succeeds and the buffer has the layout of the amended claim. -/
theorem connect_will_payload_layout_witness :
    (∀ p, (some [112, 119] : Option (List Nat)) = some p → p.length ≤ 65535)
      ∧ ∃ m, connect_message.make 60 [99, 49] true (some ⟨[116], [1, 2, 3], true, 1⟩)
            (some [117]) (some [112, 119]) [property.payload_format_indicator false] = .ok m
          ∧ m.continuous_buffer
            = [m.fixed_header_] ++ m.remaining_length_buf_ ++ m.protocol_name_and_level_
              ++ [m.connect_flags_] ++ m.keep_alive_buf_
              ++ m.property_length_buf_
              ++ written_props [property.payload_format_indicator false]
              ++ length_prefixed [99, 49]
              ++ length_prefixed [116] ++ length_prefixed [1, 2, 3]
              ++ optional_length_prefixed (some [117])
              ++ optional_length_prefixed (some [112, 119]) :=
  ⟨by intro p hp; cases hp; decide,
    _, rfl, connect_will_payload_layout 60 [99, 49] true ⟨[116], [1, 2, 3], true, 1⟩
      (some [117]) (some [112, 119]) [property.payload_format_indicator false] _ rfl
      (by intro p hp; cases hp; decide)⟩

/-- C19: for every buffer whose first byte has the QoS bits (bits 2..1) equal to 3, the
PUBLISH iterator-range constructor throws: whatever the rest of the buffer is, it returns an
exception and no message. -/
theorem publish_qos3_rejected (PacketIdBytes fh : Nat) (rest : List Nat)
    (h : fh / 2 % 4 = 3) :
    ∃ e, basic_publish_message.from_range PacketIdBytes (fh :: rest) = .error e := by
  have hq : publish.get_qos fh = 3 := by rw [get_qos_eq_div_mod, h]
  have q0 : ¬ (3 : Nat) = 0 := by decide
  have q1 : ¬ ((3 : Nat) = 1 ∨ (3 : Nat) = 2) := by decide
  unfold basic_publish_message.from_range
  simp only [hq, qos.at_most_once, qos.at_least_once, qos.exactly_once, q0, q1, if_false]
  repeat' split
  all_goals exact ⟨_, rfl⟩

/-- C19, at the buffer `36 05 00 01 't' 00 'x'`, otherwise well-formed: the QoS bits of 0x36
are 3 and the constructor throws `protocol_error`. -/
theorem publish_qos3_rejected_witness :
    0x36 / 2 % 4 = 3
      ∧ (∃ e, basic_publish_message.from_range 2 [0x36, 0x05, 0x00, 0x01, 116, 0x00, 120]
          = .error e)
      ∧ basic_publish_message.from_range 2 [0x36, 0x05, 0x00, 0x01, 116, 0x00, 120]
          = .error .protocol_error :=
  ⟨by decide, publish_qos3_rejected 2 0x36 [0x05, 0x00, 0x01, 116, 0x00, 120] (by decide),
    by decide⟩

/-- C20 (as stated, fails on the code): the value constructor accepts QoS 0 with `dup = true`
and sets the DUP bit. For topic "t", QoS 0, no retain, dup and payload "x" it succeeds, and
the first byte of `continuous_buffer()` is 0x38, whose bit 3 is set. -/
theorem publish_qos0_dup_counterexample :
    ∃ p, basic_publish_message.make 2 [116] 0 false true 0 [] [120] = .ok p
      ∧ p.qos = 0 ∧ p.is_dup = true
      ∧ p.continuous_buffer.head? = some 0x38
      ∧ 0x38 / 8 % 2 = 1 :=
  ⟨_, rfl, by decide, by decide, by decide, by decide⟩

/-- C20 (amended): for every PUBLISH that the value constructor builds with QoS 0, the first
byte of `continuous_buffer()` is `0x30 + 8 * dup + retain`: the DUP bit (bit 3) is set exactly
when the argument `dup` is true, and `is_dup()` returns `dup`. -/
theorem publish_qos0_dup_amended (PacketIdBytes : Nat) (topic_name : List Nat)
    (retain dup : Bool) (packet_id : Nat) (props : properties) (payload : List Nat)
    (p : basic_publish_message)
    (h : basic_publish_message.make PacketIdBytes topic_name 0 retain dup packet_id props
      payload = .ok p) :
    p.is_dup = dup
      ∧ p.continuous_buffer.head? = some (0x30 + 8 * dup.toNat + retain.toNat)
      ∧ (p.continuous_buffer.headD 0 / 8 % 2 = 1 ↔ dup = true) := by
  obtain ⟨hf, hl, _, _, _⟩ := publish_make_fields PacketIdBytes topic_name 0 retain dup
    packet_id props payload p h
  rw [publish_continuous_buffer_eq p hl]
  simp only [basic_publish_message.is_dup, List.head?_cons, List.headD_cons, hf]
  cases retain <;> cases dup <;> decide

/-- C20 (amended), at topic "t", QoS 0, no retain, dup and payload "x": the constructor
succeeds, `is_dup()` is true and the first byte is 0x38. -/
theorem publish_qos0_dup_amended_witness :
    ∃ p, basic_publish_message.make 2 [116] 0 false true 0 [] [120] = .ok p
      ∧ p.is_dup = true
      ∧ p.continuous_buffer.head? = some (0x30 + 8 * true.toNat + false.toNat)
      ∧ (p.continuous_buffer.headD 0 / 8 % 2 = 1 ↔ true = true) :=
  ⟨_, rfl, publish_qos0_dup_amended 2 [116] false true 0 [] [120] _ rfl⟩

end v5

/-! ## Lemmas for the UTF-8, property and PUBLISH frame claims -/

namespace utf8string

theorem decode_code_point_some (s : List Nat) (c : Nat) (rest : List Nat)
    (h : decode_code_point s = some (c, rest)) :
    ∃ b0 cont, s = b0 :: (cont ++ rest) ∧ (∀ x ∈ cont, is_continuation x = true)
      ∧ (cont = [] → c = b0) ∧ (cont ≠ [] → 0xC2 ≤ b0) := by
  unfold decode_code_point at h
  split at h
  · cases h
  · rename_i b0 r0
    split_ifs at h with h1 h2 h3 h4 h5
    · simp only [Option.some.injEq, Prod.mk.injEq] at h
      refine ⟨b0, [], by rw [h.2]; rfl, by simp, fun _ => h.1.symm, fun hc => absurd rfl hc⟩
    · split at h
      · rename_i b1 r1
        split_ifs at h with hc1
        simp only [Option.some.injEq, Prod.mk.injEq] at h
        refine ⟨b0, [b1], by rw [h.2]; rfl, by simpa using hc1, by simp, fun _ => by omega⟩
      · cases h
    · split at h
      · rename_i b1 b2 r2
        dsimp only at h
        split_ifs at h with hc
        simp only [Option.some.injEq, Prod.mk.injEq] at h
        simp only [Bool.and_eq_true] at hc
        refine ⟨b0, [b1, b2], by rw [h.2]; rfl, by simp [hc.1.1.1, hc.1.1.2], by simp,
          fun _ => by omega⟩
      · cases h
    · split at h
      · rename_i b1 b2 b3 r3
        dsimp only at h
        split_ifs at h with hc
        simp only [Option.some.injEq, Prod.mk.injEq] at h
        simp only [Bool.and_eq_true] at hc
        refine ⟨b0, [b1, b2, b3], by rw [h.2]; rfl, by simp [hc.1.1.1, hc.1.1.2, hc.1.2],
          by simp, fun _ => by omega⟩
      · cases h

theorem validate_loop_zero_mem (fuel : Nat) (s : List Nat) (h : 0 ∈ s) :
    validate_loop fuel s ≠ .well_formed := by
  induction fuel generalizing s with
  | zero =>
    cases s with
    | nil => simp at h
    | cons b r => simp [validate_loop]
  | succ fuel ih =>
    cases s with
    | nil => simp at h
    | cons b r =>
      unfold validate_loop
      split
      · simp
      · rename_i c rest hd
        obtain ⟨b0, cont, hs, hcont, hc0, hc1⟩ := decode_code_point_some _ _ _ hd
        split_ifs with hdis
        · simp
        · apply ih
          rw [hs] at h
          simp only [List.mem_cons, List.mem_append] at h
          rcases h with h | h | h
          · exfalso
            by_cases hn : cont = []
            · have : c = 0 := by rw [hc0 hn, ← h]
              rw [this] at hdis
              exact hdis (by decide)
            · have := hc1 hn
              omega
          · exfalso
            have := hcont 0 h
            revert this
            decide
          · exact h

theorem validate_loop_surrogate (fuel : Nat) (pre post : List Nat) :
    validate_loop fuel (pre ++ 0xED :: 0xA0 :: 0x80 :: post) ≠ .well_formed := by
  induction fuel generalizing pre with
  | zero =>
    cases pre <;> simp [validate_loop]
  | succ fuel ih =>
    cases pre with
    | nil =>
      simp [validate_loop, decode_code_point, is_continuation]
    | cons a pre =>
      rw [List.cons_append]
      unfold validate_loop
      split
      · simp
      · rename_i c rest hd
        obtain ⟨b0, cont, hs, hcont, _, _⟩ := decode_code_point_some _ _ _ hd
        split_ifs with hdis
        · simp
        · have hs' : pre ++ 0xED :: 0xA0 :: 0x80 :: post = cont ++ rest := by
            injection hs
          rcases List.append_eq_append_iff.mp hs' with ⟨a', ha, hr⟩ | ⟨c', hc, hr⟩
          · cases a' with
            | nil =>
              rw [List.nil_append] at hr
              rw [← hr]
              exact ih []
            | cons x xs =>
              exfalso
              rw [List.cons_append] at hr
              injection hr with hx _
              have := hcont x (by rw [ha]; simp)
              rw [← hx] at this
              revert this
              decide
          · rw [hr]
            exact ih c'

end utf8string

theorem utf8string_check_zero_mem (s : List Nat) (h : 0 ∈ s) :
    ∃ e, utf8string_check s = .error e := by
  unfold utf8string_check
  split_ifs with h1 h2
  · exact ⟨_, rfl⟩
  · exact ⟨_, rfl⟩
  · exfalso
    apply utf8string.validate_loop_zero_mem s.length s h
    simpa [utf8string.validate_contents] using h2

theorem utf8string_check_surrogate (pre post : List Nat) :
    ∃ e, utf8string_check (pre ++ 0xED :: 0xA0 :: 0x80 :: post) = .error e := by
  unfold utf8string_check
  split_ifs with h1 h2
  · exact ⟨_, rfl⟩
  · exact ⟨_, rfl⟩
  · exfalso
    apply utf8string.validate_loop_surrogate
      (pre ++ 0xED :: 0xA0 :: 0x80 :: post).length pre post
    simpa [utf8string.validate_contents] using h2

theorem variable_length_min (bs : List Nat) (n c : Nat)
    (h : variable_length bs = .ok (n, c)) (hn : n ≤ 0xfffffff) :
    ∀ vb, variable_bytes n = .ok vb → vb.length ≤ c := by
  intro vb hvb
  unfold variable_length at h
  unfold variable_bytes at hvb
  split at h
  · cases h
  · rename_i b0 r1
    split_ifs at h with h0
    · cases h
      simp only [h0] at hvb
      split_ifs at hvb
      cases hvb
      simp
    · split at h
      · cases h
      · rename_i b1 r2
        split_ifs at h with h1
        · cases h
          have : b0 % 128 + b1 * 128 < 16384 := by omega
          split_ifs at hvb <;> cases hvb <;> simp
        · split at h
          · cases h
          · rename_i b2 r3
            split_ifs at h with h2
            · cases h
              have : b0 % 128 + (b1 % 128) * 128 + b2 * 16384 < 2097152 := by omega
              split_ifs at hvb <;> cases hvb <;> simp
            · split at h
              · cases h
              · rename_i b3 r4
                split_ifs at h with h3
                cases h
                split_ifs at hvb <;> cases hvb <;> simp

namespace v5

theorem length_packet_id_bytes (n k : Nat) : (packet_id_bytes n k).length = n := by
  induction n with
  | zero => rfl
  | succ n ih => simp [packet_id_bytes, ih]

theorem fill_props_region (ps : properties) (pre : List Nat) (n : Nat)
    (h : pre.length ≤ n) :
    fill_props ps (resize pre n) pre.length
      = pre ++ written_props ps
        ++ (List.replicate (n - pre.length) 0).drop (written_props ps).length := by
  have e : resize pre n = pre ++ List.replicate (n - pre.length) 0 := by
    unfold resize
    rw [List.take_of_length_le h]
  rw [fill_props_eq_copy_to _ _ _ (by rw [e]; simp), e]
  unfold copy_to
  rw [List.take_left' rfl, List.drop_append]

theorem length_written_props_sum (ps : properties) :
    (written_props ps).length = (ps.map size).sum := by
  induction ps with
  | nil => rfl
  | cons p ps ih =>
    simp only [written_props, List.flatMap_cons, List.length_append, List.map_cons,
      List.sum_cons, length_written, size] at ih ⊢
    rw [ih]

theorem connack_make_props (session_present : Bool) (reason_code : Nat) (props : properties)
    (m : connack_message) (h : connack_message.make session_present reason_code props = .ok m) :
    m.props_ = props ∧ m.property_length_ = accumulate_size props := by
  unfold connack_message.make at h
  simp only [bind, Except.bind, pure, Except.pure] at h
  split at h
  · cases h
  · cases h
    exact ⟨rfl, rfl⟩

theorem puback_make_with_props (type flags PacketIdBytes packet_id reason_code : Nat)
    (props : properties) (m : basic_puback_message)
    (h : basic_puback_message.make_with type flags PacketIdBytes packet_id reason_code props
      = .ok m) :
    m.props_ = props ∧ m.property_length_ = accumulate_size props
      ∧ 1 + m.property_length_buf_.length ≤ m.remaining_length_ := by
  unfold basic_puback_message.make_with at h
  simp only [bind, Except.bind, pure, Except.pure] at h
  split at h
  · cases h
  · split at h
    · cases h
    · cases h
      refine ⟨rfl, rfl, ?_⟩
      simp only
      omega

theorem subscribe_make_props (PacketIdBytes : Nat) (params : List (List Nat × Nat))
    (packet_id : Nat) (props : properties) (m : basic_subscribe_message)
    (h : basic_subscribe_message.make PacketIdBytes params packet_id props = .ok m) :
    m.props_ = props ∧ m.property_length_ = accumulate_size props := by
  unfold basic_subscribe_message.make at h
  simp only [bind, Except.bind, pure, Except.pure] at h
  split at h
  · cases h
  · split at h
    · cases h
    · split at h
      · cases h
      · cases h
        exact ⟨rfl, rfl⟩

theorem suback_make_with_props (type PacketIdBytes : Nat) (reason_codes : List Nat)
    (packet_id : Nat) (props : properties) (m : basic_suback_message)
    (h : basic_suback_message.make_with type PacketIdBytes reason_codes packet_id props
      = .ok m) :
    m.props_ = props ∧ m.property_length_ = accumulate_size props := by
  unfold basic_suback_message.make_with at h
  simp only [bind, Except.bind, pure, Except.pure] at h
  split at h
  · cases h
  · split at h
    · cases h
    · cases h
      exact ⟨rfl, rfl⟩

theorem unsubscribe_make_props (PacketIdBytes : Nat) (params : List (List Nat))
    (packet_id : Nat) (props : properties) (m : basic_unsubscribe_message)
    (h : basic_unsubscribe_message.make PacketIdBytes params packet_id props = .ok m) :
    m.props_ = props ∧ m.property_length_ = accumulate_size props := by
  unfold basic_unsubscribe_message.make at h
  simp only [bind, Except.bind, pure, Except.pure] at h
  split at h
  · cases h
  · split at h
    · cases h
    · split at h
      · cases h
      · cases h
        exact ⟨rfl, rfl⟩

theorem disconnect_make_with_props (type reason_code : Nat) (props : properties)
    (m : disconnect_message) (h : disconnect_message.make_with type reason_code props = .ok m) :
    m.props_ = props ∧ m.property_length_ = accumulate_size props := by
  unfold disconnect_message.make_with at h
  simp only [bind, Except.bind, pure, Except.pure] at h
  split at h
  · cases h
  · cases h
    exact ⟨rfl, rfl⟩

theorem subscribe_append_entries_eq (es : List subscribe_entry) (ret : List Nat) :
    basic_subscribe_message.append_entries ret es
      = ret ++ basic_subscribe_message.append_entries [] es := by
  induction es generalizing ret with
  | nil => simp [basic_subscribe_message.append_entries]
  | cons e es ih =>
    simp only [basic_subscribe_message.append_entries]
    rw [ih, ih ([] ++ _ ++ _ ++ _)]
    simp

theorem unsubscribe_append_entries_eq (es : List unsubscribe_entry) (ret : List Nat) :
    basic_unsubscribe_message.append_entries ret es
      = ret ++ basic_unsubscribe_message.append_entries [] es := by
  induction es generalizing ret with
  | nil => simp [basic_unsubscribe_message.append_entries]
  | cons e es ih =>
    simp only [basic_unsubscribe_message.append_entries]
    rw [ih, ih ([] ++ _ ++ _)]
    simp

theorem parse_one_indicator (v : Nat) (rest : List Nat) (hv : v = 0 ∨ v = 1) :
    property.parse_one (property.id.payload_format_indicator :: v :: rest)
      = (some (.n_bytes_property property.id.payload_format_indicator []), rest) := by
  have h : ¬ (v ≠ 0 ∧ v ≠ 1) := by omega
  simp [property.parse_one, property.payload_format_indicator_parse, h]

theorem parse_one_other (b : Nat) (rest : List Nat)
    (hb : b ≠ property.id.payload_format_indicator) :
    property.parse_one (b :: rest) = (none, b :: rest) := by
  simp [property.parse_one, hb]

theorem parse_loop_indicators (vs : List Nat) (hvs : ∀ v ∈ vs, v = 0 ∨ v = 1)
    (stop stop' : List Nat) (hstop : property.parse_one stop = (none, stop'))
    (fuel : Nat) (hf : vs.length < fuel) :
    property.parse_loop fuel
        (vs.flatMap (fun v => [property.id.payload_format_indicator, v]) ++ stop)
      = (List.replicate vs.length
          (.n_bytes_property property.id.payload_format_indicator []), stop') := by
  induction vs generalizing fuel with
  | nil =>
    obtain ⟨f, rfl⟩ : ∃ f, fuel = f + 1 := ⟨fuel - 1, by simp at hf; omega⟩
    simp [property.parse_loop, hstop]
  | cons v vs ih =>
    obtain ⟨f, rfl⟩ : ∃ f, fuel = f + 1 := ⟨fuel - 1, by simp at hf; omega⟩
    have hv := hvs v (List.mem_cons_self _ _)
    have ih' := ih (fun x hx => hvs x (List.mem_cons_of_mem _ hx)) f
      (by simp at hf; omega)
    simp only [List.flatMap_cons, List.cons_append, List.nil_append, property.parse_loop,
      parse_one_indicator v _ hv, ih', List.length_cons, List.replicate_succ]

theorem variable_length_take_four (n : Nat) (bs rest : List Nat)
    (h : variable_bytes n = .ok bs) :
    variable_length ((bs ++ rest).take 4) = .ok (n, bs.length) := by
  have hl := variable_bytes_length n bs h
  have e : (bs ++ rest).take 4 = bs ++ rest.take (4 - bs.length) := by
    rw [List.take_append_eq_append_take, List.take_of_length_le (by omega)]
  rw [e]
  exact variable_length_variable_bytes n bs _ h

theorem parse_with_length_block (block stop' tail lenb : List Nat) (ps : properties)
    (hlen : variable_bytes block.length = .ok lenb)
    (hparse : ∃ pre, block = pre ++ stop' ∧ property.parse block = (ps, stop')) :
    property.parse_with_length (lenb ++ block ++ tail) = .ok (some ps, stop' ++ tail) := by
  obtain ⟨pre, hb, hp⟩ := hparse
  have hv := variable_length_take_four block.length lenb (block ++ tail) hlen
  unfold property.parse_with_length
  rw [List.append_assoc, hv]
  have e1 : List.drop lenb.length (lenb ++ (block ++ tail)) = block ++ tail :=
    List.drop_left' rfl
  have e2 : List.take block.length (block ++ tail) = block := List.take_left' rfl
  have e3 : ¬ (block ++ tail).length < block.length := by
    simp only [List.length_append]; omega
  simp only [e1, e2, e3, if_false, hp]
  have e4 : block.length - stop'.length = pre.length := by
    rw [hb, List.length_append]; omega
  rw [e4, hb, List.append_assoc]
  simp

theorem parse_indicators_stop (vs : List Nat) (hvs : ∀ v ∈ vs, v = 0 ∨ v = 1)
    (b : Nat) (rest : List Nat) (hb : b ≠ property.id.payload_format_indicator) :
    property.parse (vs.flatMap (fun v => [property.id.payload_format_indicator, v])
        ++ b :: rest)
      = (List.replicate vs.length
          (.n_bytes_property property.id.payload_format_indicator []), b :: rest) := by
  unfold property.parse
  apply parse_loop_indicators vs hvs _ _ (parse_one_other b rest hb)
  simp only [List.length_append, List.length_cons]
  have : (vs.flatMap (fun v => [property.id.payload_format_indicator, v])).length
      = 2 * vs.length := by
    induction vs with
    | nil => rfl
    | cons v vs ih' =>
      simp only [List.flatMap_cons, List.length_append, List.length_cons, List.length_nil]
      rw [ih' (fun x hx => hvs x (List.mem_cons_of_mem _ hx))]
      omega
  omega

/-! ## The claims, continued: PUBLISH identifier, UTF-8 rejection, property region -/

/-- C22: constructing a CONNECT fails (the constructor throws) whenever the client
identifier contains the byte 0x00, whenever it contains the bytes `ED A0 80`, and more
generally whenever `utf8string_check` rejects the client identifier, the user name or the
will topic. -/
theorem connect_rejects_invalid_utf8 (keep_alive_sec : Nat) (client_id : List Nat)
    (clean_session : Bool) (w : Option will) (user_name password : Option (List Nat))
    (props : properties)
    (h : 0 ∈ client_id
      ∨ [0xED, 0xA0, 0x80] <:+: client_id
      ∨ (∃ e, utf8string_check client_id = .error e)
      ∨ (∃ u e, user_name = some u ∧ utf8string_check u = .error e)
      ∨ (∃ w' e, w = some w' ∧ utf8string_check w'.topic = .error e)) :
    ∃ e, connect_message.make keep_alive_sec client_id clean_session w user_name password
      props = .error e := by
  cases hm : connect_message.make keep_alive_sec client_id clean_session w user_name password
      props with
  | error e => exact ⟨e, rfl⟩
  | ok m =>
    exfalso
    obtain ⟨_, hcid, hun, hw⟩ := connect_make_built_from keep_alive_sec client_id
      clean_session w user_name password props m hm
    rcases h with h | h | ⟨e, h⟩ | ⟨u, e, hu, h⟩ | ⟨w', e, hw', h⟩
    · obtain ⟨e, he⟩ := utf8string_check_zero_mem client_id h
      rw [hcid] at he
      cases he
    · obtain ⟨pre, post, hpp⟩ := h
      obtain ⟨e, he⟩ := utf8string_check_surrogate pre post
      have e1 : pre ++ 0xED :: 0xA0 :: 0x80 :: post = client_id := by
        rw [← hpp]; simp
      rw [e1, hcid] at he
      cases he
    · rw [hcid] at h
      cases h
    · rw [hun u hu] at h
      cases h
    · rw [(hw w' hw').1] at h
      cases h

/-- C22, at the client identifiers `'c' 00 '1'` and `'c' ED A0 80`: the hypothesis holds and
the constructor throws; the exception is `utf8string_contents_error`, as it is for the user
name `FF` and for the will topic `C0 80`. -/
theorem connect_rejects_invalid_utf8_witness :
    (0 ∈ [99, 0x00, 49]
      ∧ ∃ e, connect_message.make 60 [99, 0x00, 49] true none none none [] = .error e)
    ∧ ([0xED, 0xA0, 0x80] <:+: [99, 0xED, 0xA0, 0x80]
      ∧ ∃ e, connect_message.make 60 [99, 0xED, 0xA0, 0x80] true none none none []
          = .error e)
    ∧ connect_message.make 60 [99, 0x00, 49] true none none none []
        = .error .utf8string_contents_error
    ∧ connect_message.make 60 [99, 0xED, 0xA0, 0x80] true none none none []
        = .error .utf8string_contents_error
    ∧ connect_message.make 60 [99, 49] true none (some [0xFF]) none []
        = .error .utf8string_contents_error
    ∧ connect_message.make 60 [99, 49] true (some ⟨[0xC0, 0x80], [1], false, 0⟩) none none []
        = .error .utf8string_contents_error :=
  ⟨⟨by decide, connect_rejects_invalid_utf8 60 [99, 0x00, 49] true none none none []
      (Or.inl (by decide))⟩,
    ⟨⟨[99], [], rfl⟩, connect_rejects_invalid_utf8 60 [99, 0xED, 0xA0, 0x80] true none none
      none [] (Or.inr (Or.inl ⟨[99], [], rfl⟩))⟩,
    by decide, by decide, by decide, by decide⟩

/-- Whenever the `continuous_buffer()` of a SUBSCRIBE has a result, it is the header, the
property region and the entries, the fill loop having run on the resized string. -/
theorem subscribe_continuous_buffer_some (m : basic_subscribe_message) (buf : List Nat)
    (h : m.continuous_buffer = some buf) :
    buf = basic_subscribe_message.append_entries
      (fill_props m.props_
        (resize ([m.fixed_header_] ++ m.remaining_length_buf_ ++ m.packet_id_
            ++ m.property_length_buf_)
          (([m.fixed_header_] ++ m.remaining_length_buf_ ++ m.packet_id_
            ++ m.property_length_buf_).length + m.property_length_))
        ([m.fixed_header_] ++ m.remaining_length_buf_ ++ m.packet_id_
            ++ m.property_length_buf_).length)
      m.entries_ := by
  unfold basic_subscribe_message.continuous_buffer at h
  simp only at h
  split at h
  · rename_i hp
    rw [hp]
    exact (Option.some.inj h).symm
  · rename_i p ps hp
    rw [hp]
    split_ifs at h
    exact (Option.some.inj h).symm

/-- On the model of `v5::fill` that leaves the cursor behind the property it wrote: for every
property list `[p1, ..., pn]` and every packet that a value constructor builds with it, the
property region of `continuous_buffer()`, which starts after the members listed in front of
it, holds the bytes written by `p1`, ..., `pn` back to back in the order of the list; these
are `size(p1) + ... + size(pn)` bytes, the value of `property_length_`. For SUBSCRIBE this is
about the calls of `continuous_buffer()` that have a result. -/
theorem property_region_in_order (props : properties) :
    (written_props props).length = (props.map size).sum
    ∧ (∀ ka cid cs w un pw (m : connect_message),
        connect_message.make ka cid cs w un pw props = .ok m →
        m.property_length_ = (props.map size).sum
        ∧ ∃ post, m.continuous_buffer
            = [m.fixed_header_] ++ m.remaining_length_buf_ ++ m.protocol_name_and_level_
              ++ [m.connect_flags_] ++ m.keep_alive_buf_ ++ m.property_length_buf_
              ++ written_props props ++ post)
    ∧ (∀ sp rc (m : connack_message), connack_message.make sp rc props = .ok m →
        m.property_length_ = (props.map size).sum
        ∧ ∃ post, m.continuous_buffer
            = [m.fixed_header_] ++ m.remaining_length_buf_
              ++ [m.connect_acknowledge_flags_] ++ [m.reason_code_]
              ++ written_props props ++ post)
    ∧ (∀ n t q r d k y (m : basic_publish_message),
        basic_publish_message.make n t q r d k props y = .ok m →
        m.property_length_ = (props.map size).sum
        ∧ ∃ post, m.continuous_buffer
            = [m.fixed_header_] ++ m.remaining_length_buf_ ++ m.topic_name_length_buf_
              ++ m.topic_name_ ++ m.packet_id_ ++ written_props props ++ post)
    ∧ (∀ type flags n k rc (m : basic_puback_message),
        basic_puback_message.make_with type flags n k rc props = .ok m →
        m.property_length_ = (props.map size).sum
        ∧ ∃ post, m.continuous_buffer
            = [m.fixed_header_] ++ m.remaining_length_buf_ ++ [m.reason_code_]
              ++ m.property_length_buf_ ++ written_props props ++ post)
    ∧ (∀ n params k (m : basic_subscribe_message),
        basic_subscribe_message.make n params k props = .ok m →
        m.property_length_ = (props.map size).sum
        ∧ ∀ buf, m.continuous_buffer = some buf →
          ∃ post, buf
            = [m.fixed_header_] ++ m.remaining_length_buf_ ++ m.packet_id_
              ++ m.property_length_buf_ ++ written_props props ++ post)
    ∧ (∀ type n rcs k (m : basic_suback_message),
        basic_suback_message.make_with type n rcs k props = .ok m →
        m.property_length_ = (props.map size).sum
        ∧ ∃ post, m.continuous_buffer
            = [m.fixed_header_] ++ m.remaining_length_buf_ ++ m.packet_id_
              ++ written_props props ++ post)
    ∧ (∀ n params k (m : basic_unsubscribe_message),
        basic_unsubscribe_message.make n params k props = .ok m →
        m.property_length_ = (props.map size).sum
        ∧ ∃ post, m.continuous_buffer
            = [m.fixed_header_] ++ m.remaining_length_buf_ ++ m.packet_id_
              ++ written_props props ++ post)
    ∧ (∀ type rc (m : disconnect_message),
        disconnect_message.make_with type rc props = .ok m →
        m.property_length_ = (props.map size).sum
        ∧ ∃ post, m.continuous_buffer
            = [m.fixed_header_] ++ m.remaining_length_buf_ ++ [m.reason_code_]
              ++ written_props props ++ post) := by
  have hsum : accumulate_size props = (props.map size).sum := by
    rw [← length_written_props, length_written_props_sum]
  refine ⟨length_written_props_sum props, ?_, ?_, ?_, ?_, ?_, ?_, ?_, ?_⟩
  · intro ka cid cs w un pw m h
    obtain ⟨hc, _⟩ := connect_make_consistent ka cid cs w un pw props m h
    obtain ⟨⟨_, _, _, a4, _⟩, _⟩ := connect_make_built_from ka cid cs w un pw props m h
    refine ⟨by rw [hc.1, a4, hsum], ?_⟩
    rw [connect_continuous_buffer_eq m hc.1, connect_message.body, a4]
    exact ⟨_, by simp only [List.singleton_append, List.cons_append, List.append_assoc,
      List.nil_append]; rfl⟩
  · intro sp rc m h
    obtain ⟨hp, hl⟩ := connack_make_props sp rc props m h
    refine ⟨by rw [hl, hsum], ?_⟩
    unfold connack_message.continuous_buffer
    simp only [hp]
    rw [fill_props_region _ _ _ (by omega)]
    exact ⟨_, rfl⟩
  · intro n t q r d k y m h
    obtain ⟨_, hl, hp, _, _⟩ := publish_make_fields n t q r d k props y m h
    refine ⟨by rw [hl, hp, hsum], ?_⟩
    unfold basic_publish_message.continuous_buffer
    simp only [hp]
    rw [fill_props_region _ _ _ (by omega)]
    exact ⟨_, by simp only [List.append_assoc]; rfl⟩
  · intro type flags n k rc m h
    obtain ⟨hp, hl, hr⟩ := puback_make_with_props type flags n k rc props m h
    refine ⟨by rw [hl, hsum], ?_⟩
    unfold basic_puback_message.continuous_buffer
    simp only [hp]
    rw [fill_props_region _ _ _ (by
      simp only [basic_puback_message.size, List.length_append, List.length_cons,
        List.length_nil]; omega)]
    exact ⟨_, rfl⟩
  · intro n params k m h
    obtain ⟨hp, hl⟩ := subscribe_make_props n params k props m h
    refine ⟨by rw [hl, hsum], ?_⟩
    intro buf hb
    rw [subscribe_continuous_buffer_some m buf hb, hp]
    rw [fill_props_region _ _ _ (by omega), subscribe_append_entries_eq]
    exact ⟨_, by simp only [List.append_assoc]; rfl⟩
  · intro type n rcs k m h
    obtain ⟨hp, hl⟩ := suback_make_with_props type n rcs k props m h
    refine ⟨by rw [hl, hsum], ?_⟩
    unfold basic_suback_message.continuous_buffer
    simp only [hp]
    rw [fill_props_region _ _ _ (by omega)]
    exact ⟨_, by simp only [List.append_assoc]; rfl⟩
  · intro n params k m h
    obtain ⟨hp, hl⟩ := unsubscribe_make_props n params k props m h
    refine ⟨by rw [hl, hsum], ?_⟩
    unfold basic_unsubscribe_message.continuous_buffer
    simp only [hp]
    rw [fill_props_region _ _ _ (by omega), unsubscribe_append_entries_eq]
    exact ⟨_, by simp only [List.append_assoc]; rfl⟩
  · intro type rc m h
    obtain ⟨hp, hl⟩ := disconnect_make_with_props type rc props m h
    refine ⟨by rw [hl, hsum], ?_⟩
    unfold disconnect_message.continuous_buffer
    simp only [hp]
    rw [fill_props_region _ _ _ (by omega)]
    exact ⟨_, rfl⟩

/-- A SUBSCRIBE built without entry: the remaining length is the packet identifier and the
properties, and the property length has at least one byte. -/
theorem subscribe_make_no_entry (PacketIdBytes packet_id : Nat) (props : properties)
    (m : basic_subscribe_message)
    (h : basic_subscribe_message.make PacketIdBytes [] packet_id props = .ok m) :
    m.props_ = props ∧ m.property_length_ = accumulate_size props
      ∧ m.remaining_length_ = PacketIdBytes + accumulate_size props
      ∧ m.packet_id_.length = PacketIdBytes
      ∧ 1 ≤ m.property_length_buf_.length := by
  unfold basic_subscribe_message.make at h
  simp only [bind, Except.bind, pure, Except.pure, basic_subscribe_message.add_entries] at h
  split at h
  · cases h
  · rename_i pb hpb
    split at h
    · cases h
    · cases h
      refine ⟨rfl, rfl, rfl, ?_, (variable_bytes_length _ _ hpb).1⟩
      simp [add_packet_id_to_buf, length_packet_id_bytes]

/-- C23 (fails on the code): the property region of `continuous_buffer()` is not the
encodings of the properties for every packet. For a SUBSCRIBE built without entry, with packet
identifier 7 and the two user properties (30 bytes 'k', "1") and ("a", "2"), `size()` is 47,
and that is what `ret.reserve(size())` guarantees; the string holds 5 bytes when `it` is
taken, and `ret.resize` asks for 5 + 43 = 48 bytes: the string may reallocate, `it` is no
longer valid and the fill loop writes through it, so the call has no result. The same holds
for every SUBSCRIBE built without entry and with at least one property. -/
theorem subscribe_property_region_invalid :
    (∃ m, basic_subscribe_message.make 2 [] 7
          [property.user_property (List.replicate 30 107) [49],
            property.user_property [97] [50]] = .ok m
      ∧ m.size = 47
      ∧ ([m.fixed_header_] ++ m.remaining_length_buf_ ++ m.packet_id_
          ++ m.property_length_buf_).length = 5
      ∧ m.property_length_ = 43
      ∧ m.continuous_buffer = none)
    ∧ (∀ n k p ps (m : basic_subscribe_message),
        basic_subscribe_message.make n [] k (p :: ps) = .ok m →
        m.continuous_buffer = none) := by
  refine ⟨⟨_, rfl, by decide, by decide, by decide, by decide⟩, ?_⟩
  intro n k p ps m h
  obtain ⟨hp, hl, hr, hk, hb⟩ := subscribe_make_no_entry n k (p :: ps) m h
  have hs : 1 ≤ size p := by
    unfold size
    cases p <;> simp [property_variant.size] <;> omega
  have hl1 : 1 ≤ m.property_length_ := by
    rw [hl, accumulate_size_cons]
    omega
  unfold basic_subscribe_message.continuous_buffer
  simp only [hp]
  rw [if_neg]
  simp only [basic_subscribe_message.size, hr, List.length_append, List.length_cons,
    List.length_nil, hk, decide_eq_true_eq]
  omega

/-! ## The claims, continued: property parsing -/

/-- C24: for every input range, if the property length that `variable_length` reads at the
cursor is larger than the number of bytes that remain after it, `parse_with_length` returns
`boost::none`, and no property list; the cursor is left after the length. -/
theorem parse_with_length_overrun (range : List Nat) (property_length consumed : Nat)
    (hv : variable_length (range.take 4) = .ok (property_length, consumed))
    (hl : (range.drop consumed).length < property_length) :
    property.parse_with_length range = .ok (none, range.drop consumed) := by
  unfold property.parse_with_length
  simp only [hv, hl, if_true]

/-- C24, at the range `05 01 00`: the length read is 5, two bytes remain after it, and
`parse_with_length` returns `boost::none`. -/
theorem parse_with_length_overrun_witness :
    variable_length ([0x05, 0x01, 0x00].take 4) = .ok (5, 1)
      ∧ ([0x05, 0x01, 0x00].drop 1).length < 5
      ∧ property.parse_with_length [0x05, 0x01, 0x00]
          = .ok (none, [0x05, 0x01, 0x00].drop 1) :=
  ⟨by decide, by decide,
    parse_with_length_overrun [0x05, 0x01, 0x00] 5 1 (by decide) (by decide)⟩

/-- C25 (as stated, fails on the code): `parse_with_length` does not signal failure on an
unknown identifier. For the block `01 FF` it returns an empty property list, and for the
block `03 01 00 FF` the list of the one property parsed before the byte 0xFF; in both cases
the cursor is left on that byte. -/
theorem parse_unknown_identifier_counterexample :
    property.parse_with_length [0x01, 0xFF] = .ok (some [], [0xFF])
      ∧ property.parse_with_length [0x03, 0x01, 0x00, 0xFF]
          = .ok (some [.n_bytes_property property.id.payload_format_indicator []], [0xFF]) :=
  ⟨by decide, by decide⟩

/-- C25 (amended): for every property block that holds, after any number of
`payload_format_indicator` properties with value 0 or 1, an identifier byte `b` outside the
recognised identifiers (any byte other than the identifier of `payload_format_indicator`),
`parse_with_length` does not signal failure: it returns the list of the properties parsed
before that byte, one per `payload_format_indicator`, and leaves the cursor on `b`. -/
theorem parse_unknown_identifier_amended (vs : List Nat) (b : Nat)
    (rest tail lenb : List Nat)
    (hvs : ∀ v ∈ vs, v = 0 ∨ v = 1)
    (hb : b ≠ property.id.payload_format_indicator)
    (hlen : variable_bytes
        (vs.flatMap (fun v => [property.id.payload_format_indicator, v]) ++ b :: rest).length
      = .ok lenb) :
    ∃ ps, property.parse_with_length
          (lenb ++ (vs.flatMap (fun v => [property.id.payload_format_indicator, v])
            ++ b :: rest) ++ tail)
        = .ok (some ps, b :: rest ++ tail)
      ∧ ps.length = vs.length
      ∧ ∀ p ∈ ps, ∃ buf_, p = .n_bytes_property property.id.payload_format_indicator buf_ := by
  refine ⟨_, parse_with_length_block _ (b :: rest) tail lenb _ hlen
    ⟨_, rfl, parse_indicators_stop vs hvs b rest hb⟩, by simp, ?_⟩
  intro p hp
  exact ⟨[], List.eq_of_mem_replicate hp⟩

/-- C25 (amended), at the block `04 01 00 FF 00` followed by the byte `'x'`: one property is
returned and the cursor is left on `FF`. -/
theorem parse_unknown_identifier_amended_witness :
    (∀ v ∈ [0], v = 0 ∨ v = 1)
      ∧ 0xFF ≠ property.id.payload_format_indicator
      ∧ ∃ ps, property.parse_with_length
          ([0x04] ++ (([0] : List Nat).flatMap
              (fun v => [property.id.payload_format_indicator, v])
            ++ 0xFF :: [0x00]) ++ [0x78])
          = .ok (some ps, 0xFF :: [0x00] ++ [0x78])
        ∧ ps.length = [0].length
        ∧ ∀ p ∈ ps, ∃ buf_, p = .n_bytes_property property.id.payload_format_indicator buf_ :=
  ⟨by decide, by decide,
    parse_unknown_identifier_amended [0] 0xFF [0x00] [0x78] [0x04] (by decide) (by decide)
      (by decide)⟩

/-- C26 (as stated, fails on the code): `parse_with_length` does not signal failure on a
repeated singleton identifier. For the block `04 01 00 01 01`, two `payload_format_indicator`
properties, it returns a list that holds both occurrences. -/
theorem parse_duplicate_indicator_counterexample :
    property.parse_with_length [0x04, 0x01, 0x00, 0x01, 0x01]
      = .ok (some [.n_bytes_property property.id.payload_format_indicator [],
                   .n_bytes_property property.id.payload_format_indicator []], []) := by
  decide

/-- C26 (amended): for every property block that holds two `payload_format_indicator`
properties (bytes `04 01 v1 01 v2` with `v1` and `v2` in 0, 1), `parse_with_length` succeeds
and returns a list of two properties, both `payload_format_indicator`, with the cursor after
the block. -/
theorem parse_duplicate_indicator_amended (v1 v2 : Nat) (tail : List Nat)
    (h1 : v1 = 0 ∨ v1 = 1) (h2 : v2 = 0 ∨ v2 = 1) :
    ∃ p1 p2, property.parse_with_length
          ([0x04, property.id.payload_format_indicator, v1,
            property.id.payload_format_indicator, v2] ++ tail)
        = .ok (some [p1, p2], tail)
      ∧ (∃ buf_, p1 = .n_bytes_property property.id.payload_format_indicator buf_)
      ∧ (∃ buf_, p2 = .n_bytes_property property.id.payload_format_indicator buf_) := by
  refine ⟨_, _, ?_, ⟨[], rfl⟩, ⟨[], rfl⟩⟩
  have hvs : ∀ v ∈ [v1, v2], v = 0 ∨ v = 1 := by
    intro v hv
    simp only [List.mem_cons, List.mem_singleton, List.not_mem_nil, or_false] at hv
    rcases hv with rfl | rfl
    · exact h1
    · exact h2
  have hp := parse_loop_indicators [v1, v2] hvs [] [] rfl 4 (by simp)
  have h := parse_with_length_block
    [property.id.payload_format_indicator, v1, property.id.payload_format_indicator, v2]
    [] tail [0x04] _ rfl ⟨_, (List.append_nil _).symm, hp⟩
  simpa using h

/-- C26 (amended), at the block `04 01 00 01 01` followed by the byte `'x'`: two
`payload_format_indicator` properties are returned. -/
theorem parse_duplicate_indicator_amended_witness :
    ((0 : Nat) = 0 ∨ (0 : Nat) = 1) ∧ ((1 : Nat) = 0 ∨ (1 : Nat) = 1)
      ∧ ∃ p1 p2, property.parse_with_length
            ([0x04, property.id.payload_format_indicator, 0,
              property.id.payload_format_indicator, 1] ++ [0x78])
          = .ok (some [p1, p2], [0x78])
        ∧ (∃ buf_, p1 = .n_bytes_property property.id.payload_format_indicator buf_)
        ∧ (∃ buf_, p2 = .n_bytes_property property.id.payload_format_indicator buf_) :=
  ⟨by decide, by decide,
    parse_duplicate_indicator_amended 0 1 [0x78] (by decide) (by decide)⟩

/-! ## The claims, continued: property classes and the DUP flag -/

/-- C27 (as stated, fails on the code): the parsing constructor of `maximum_qos` accepts the
value byte 2. -/
theorem maximum_qos_parse_two_counterexample :
    ∃ p rest, property.maximum_qos_parse [2] = .ok (p, rest) :=
  ⟨_, _, rfl⟩

/-- C27 (amended): the parsing constructor of `maximum_qos` accepts a value byte `v` if and
only if `v` is 0, 1 or 2, and advances past it; every other value is rejected with
`property_parse_error`. -/
theorem maximum_qos_parse_accepts (v : Nat) (rest : List Nat) :
    ((∃ p, property.maximum_qos_parse (v :: rest) = .ok (p, rest)) ↔ (v = 0 ∨ v = 1 ∨ v = 2))
      ∧ (property.maximum_qos_parse (v :: rest) = .error .property_parse_error
          ↔ ¬ (v = 0 ∨ v = 1 ∨ v = 2)) := by
  unfold property.maximum_qos_parse
  by_cases hv : v = 0 ∨ v = 1 ∨ v = 2
  · have hn : ¬ (v ≠ 0 ∧ v ≠ 1 ∧ v ≠ 2) := by omega
    have e : (if v ≠ 0 ∧ v ≠ 1 ∧ v ≠ 2 then
          (Except.error exception.property_parse_error :
            Except exception (property_variant × List Nat))
        else .ok (.n_bytes_property property.id.maximum_qos [], rest))
        = .ok (.n_bytes_property property.id.maximum_qos [], rest) := if_neg hn
    refine ⟨⟨fun _ => hv, fun _ => ⟨_, e⟩⟩, ⟨fun h => ?_, fun h => absurd hv h⟩⟩
    cases e.symm.trans h
  · have hp : v ≠ 0 ∧ v ≠ 1 ∧ v ≠ 2 := by omega
    have e : (if v ≠ 0 ∧ v ≠ 1 ∧ v ≠ 2 then
          (Except.error exception.property_parse_error :
            Except exception (property_variant × List Nat))
        else .ok (.n_bytes_property property.id.maximum_qos [], rest))
        = .error .property_parse_error := if_pos hp
    refine ⟨⟨fun h => ?_, fun h => absurd h hv⟩, ⟨fun _ => hv, fun _ => e⟩⟩
    obtain ⟨p, h⟩ := h
    cases e.symm.trans h

/-- C28 (fails on the code): constructing `correlation_data` from octets that are not
well-formed UTF-8 does not succeed. For the single byte 0xFF the constructor throws
`utf8string_contents_error`, where the claim has the encoding `09 00 01 FF`; the sibling
`authentication_data`, a `binary_property`, accepts the same byte and encodes it as
`16 00 01 FF`. -/
theorem correlation_data_rejects_binary :
    property.correlation_data [0xFF] = .error .utf8string_contents_error
      ∧ property.authentication_data [0xFF]
          = .ok (.binary_property property.id.authentication_data [0x00, 0x01] [0xFF])
      ∧ (property_variant.binary_property property.id.authentication_data [0x00, 0x01]
          [0xFF]).written = [0x16, 0x00, 0x01, 0xFF] :=
  ⟨by decide, by decide, by decide⟩

/-- C29: for every `n` from 0 to 268435455, the constructor of `variable_property` succeeds
and stores in `value_` the variable byte encoding of `n`, which has 1 byte below 128, 2 below
16384, 3 below 2097152 and 4 otherwise and is the shortest one (no byte sequence that decodes
to `n` is shorter); `size()` is between 2 and 5, and `val()` returns `n`. -/
theorem variable_property_shortest (id n : Nat) (h : n ≤ 268435455) :
    ∃ p, property.detail.variable_property.make id n = .ok p
      ∧ p.id_ = id
      ∧ variable_bytes n = .ok p.value_
      ∧ p.value_.length
          = (if n < 128 then 1 else if n < 16384 then 2 else if n < 2097152 then 3 else 4)
      ∧ (∀ bs c, variable_length bs = .ok (n, c) → p.value_.length ≤ c)
      ∧ 2 ≤ p.size ∧ p.size ≤ 5
      ∧ p.val = .ok n := by
  obtain ⟨bs, hbs⟩ := variable_bytes_ok n h
  have hl := variable_bytes_length n bs hbs
  have hv := variable_length_variable_bytes n bs [] hbs
  rw [List.append_nil] at hv
  refine ⟨⟨id, bs⟩, ?_, rfl, hbs, ?_, ?_, ?_, ?_, ?_⟩
  · simp [property.detail.variable_property.make, variable_push, hbs, Except.map]
  · unfold variable_bytes at hbs
    have h0 : ¬ n > 0xfffffff := by omega
    simp only [h0, if_false] at hbs
    split_ifs at hbs <;> cases hbs <;> simp [*]
  · intro bs' c hc
    exact variable_length_min bs' n c hc h bs hbs
  · simp only [property.detail.variable_property.size]; omega
  · simp only [property.detail.variable_property.size]; omega
  · simp only [property.detail.variable_property.val, hv]

/-- C29, at identifier 11 and value 300: the bound holds and the statement of the theorem
holds for the property built. -/
theorem variable_property_shortest_witness :
    (300 : Nat) ≤ 268435455
      ∧ ∃ p, property.detail.variable_property.make 11 300 = .ok p
          ∧ p.id_ = 11
          ∧ variable_bytes 300 = .ok p.value_
          ∧ p.value_.length
              = (if 300 < 128 then 1 else if 300 < 16384 then 2
                  else if 300 < 2097152 then 3 else 4)
          ∧ (∀ bs c, variable_length bs = .ok (300, c) → p.value_.length ≤ c)
          ∧ 2 ≤ p.size ∧ p.size ≤ 5
          ∧ p.val = .ok 300 :=
  ⟨by decide, variable_property_shortest 11 300 (by decide)⟩

theorem make_uint32_t_four (n : Nat) (hn : n < 4294967296) :
    make_uint32_t (MQTT_32BITNUM_TO_BYTE_SEQ n) = n := by
  simp only [make_uint32_t, MQTT_32BITNUM_TO_BYTE_SEQ, List.foldl_cons, List.foldl_nil]
  omega

theorem val_make_uint16 (id n : Nat) (hn : n < 65536) :
    property.detail.val_uint16 (property.detail.make_uint16 id n) = n
      ∧ (property.detail.make_uint16 id n).buf_ = [n / 256, n % 256]
      ∧ (property.detail.make_uint16 id n).id_ = id := by
  refine ⟨?_, ?_, rfl⟩
  · simp only [property.detail.val_uint16, property.detail.make_uint16, make_uint16_t,
      MQTT_16BITNUM_TO_BYTE_SEQ, List.headD_cons, List.drop_succ_cons, List.drop_zero]
    omega
  · simp only [property.detail.make_uint16]
    exact uint16_seq_of_le n (by omega)

theorem val_make_bool (id : Nat) (b : Bool) :
    property.detail.val_bool (property.detail.make_bool id b) = b
      ∧ (property.detail.make_bool id b).buf_ = [if b then 1 else 0]
      ∧ (property.detail.make_bool id b).id_ = id := by
  cases b <;> exact ⟨rfl, rfl, rfl⟩

theorem user_property_written_short (key val : List Nat) (hk : key.length ≤ 65535)
    (hv : val.length ≤ 65535) :
    (property.user_property key val).written
      = [property.id.user_property] ++ length_prefixed key ++ length_prefixed val := by
  simp only [property.user_property, property_variant.written, uint16_seq_of_le _ hk,
    uint16_seq_of_le _ hv, length_prefixed, List.singleton_append, List.cons_append,
    List.append_assoc, List.nil_append]

theorem user_property_written_long (key val : List Nat) (hk : key.length = 65536)
    (hv : val.length ≤ 65535) :
    (property.user_property key val).written
        = [0x26] ++ ([0x00, 0x00] ++ key) ++ length_prefixed val
      ∧ (property.user_property key val).size = 65541 + val.length := by
  constructor
  · have e : val.length % 65536 / 256 = val.length / 256 := by omega
    simp only [property.user_property, property_variant.written,
      length_prefixed, List.singleton_append, List.cons_append, List.append_assoc,
      List.nil_append, MQTT_16BITNUM_TO_BYTE_SEQ, hk, e]
    rfl
  · simp only [property.user_property, property_variant.size, MQTT_16BITNUM_TO_BYTE_SEQ,
      List.length_cons, List.length_nil, hk]
    omega

theorem binary_property_long (id : Nat) (sv : List Nat) (h : 65535 < sv.length) :
    property.detail.binary_property id sv = .error .property_length_error := by
  unfold property.detail.binary_property
  exact if_pos h

theorem parse_one_cases (range : List Nat) :
    (∃ p v rest, range = property.id.payload_format_indicator :: v :: rest
        ∧ property.parse_one range = (some p, rest))
      ∨ (property.parse_one range = (none, range))
      ∨ (∃ v rest, range = property.id.payload_format_indicator :: v :: rest
        ∧ property.parse_one range = (none, v :: rest)) := by
  unfold property.parse_one
  split
  · right; left; rfl
  · rename_i b r
    split_ifs with h1 h2
    · right; left; rfl
    · cases r with
      | nil => simp at h2
      | cons v r' =>
        unfold property.payload_format_indicator_parse
        simp only
        split_ifs with h3
        · right; right
          exact ⟨v, r', by rw [h1], rfl⟩
        · left
          exact ⟨_, v, r', by rw [h1], rfl⟩
    · right; left; rfl

theorem parse_loop_fuel (f1 f2 : Nat) (range : List Nat) (h1 : range.length ≤ f1)
    (h2 : range.length ≤ f2) :
    property.parse_loop f1 range = property.parse_loop f2 range := by
  induction f1 generalizing f2 range with
  | zero =>
    have hr : range = [] := List.length_eq_zero.mp (by omega)
    subst hr
    cases f2 with
    | zero => rfl
    | succ b => simp [property.parse_loop, property.parse_one]
  | succ a ih =>
    cases f2 with
    | zero =>
      have hr : range = [] := List.length_eq_zero.mp (by omega)
      subst hr
      simp [property.parse_loop, property.parse_one]
    | succ b =>
      rcases parse_one_cases range with ⟨p, v, rest, hr, hp⟩ | hp | ⟨v, rest, hr, hp⟩
      · have l1 : rest.length ≤ a := by rw [hr] at h1; simp at h1; omega
        have l2 : rest.length ≤ b := by rw [hr] at h2; simp at h2; omega
        simp only [property.parse_loop, hp, ih b rest l1 l2]
      · simp only [property.parse_loop, hp]
      · simp only [property.parse_loop, hp]

theorem parse_loop_succ (fuel : Nat) (range : List Nat) :
    property.parse_loop (fuel + 1) range
      = match property.parse_one range with
        | (some p, range') =>
          (p :: (property.parse_loop fuel range').1, (property.parse_loop fuel range').2)
        | (none, range') => ([], range') := rfl

theorem parse_unroll (range : List Nat) :
    property.parse range
      = match property.parse_one range with
        | (some p, range') =>
          (p :: (property.parse range').1, (property.parse range').2)
        | (none, range') => ([], range') := by
  unfold property.parse
  rcases parse_one_cases range with ⟨p, v, rest, hr, hp⟩ | hp | ⟨v, rest, hr, hp⟩
  · have e : range.length = rest.length + 1 + 1 := by rw [hr]; simp
    rw [e, parse_loop_succ, hp]
    simp only
    rw [parse_loop_fuel (rest.length + 1) rest.length rest (by omega) (by omega)]
  · rw [hp]
    cases range with
    | nil => rfl
    | cons b r =>
      rw [List.length_cons, parse_loop_succ, hp]
  · have e : range.length = rest.length + 1 + 1 := by rw [hr]; simp
    rw [e, parse_loop_succ, hp]

theorem parse_loop_consumed (fuel : Nat) (range : List Nat) :
    ∃ consumed, range = consumed ++ (property.parse_loop fuel range).2
      ∧ 2 * (property.parse_loop fuel range).1.length ≤ consumed.length := by
  induction fuel generalizing range with
  | zero => exact ⟨[], rfl, by simp [property.parse_loop]⟩
  | succ f ih =>
    rcases parse_one_cases range with ⟨p, v, rest, hr, hp⟩ | hp | ⟨v, rest, hr, hp⟩
    · obtain ⟨c, hc, hl⟩ := ih rest
      refine ⟨property.id.payload_format_indicator :: v :: c, ?_, ?_⟩
      · simp only [property.parse_loop, hp]
        rw [hr]
        simp only [List.cons_append]
        rw [← hc]
      · simp only [property.parse_loop, hp, List.length_cons]
        omega
    · exact ⟨[], by simp [property.parse_loop, hp], by simp [property.parse_loop, hp]⟩
    · refine ⟨[property.id.payload_format_indicator], ?_, ?_⟩
      · simp only [property.parse_loop, hp]
        rw [hr]; rfl
      · simp [property.parse_loop, hp]

theorem bytes_at_nil (mem : Nat → Nat) (it e : Nat) (h : e ≤ it) :
    property.bytes_at mem it e = [] := by
  unfold property.bytes_at
  rw [Nat.sub_eq_zero_of_le h]
  rfl

theorem bytes_at_cons (mem : Nat → Nat) (it e : Nat) (h : it < e) :
    property.bytes_at mem it e = mem it :: property.bytes_at mem (it + 1) e := by
  unfold property.bytes_at
  have e1 : e - it = (e - (it + 1)) + 1 := by omega
  rw [e1, List.range_succ_eq_map, List.map_cons, List.map_map]
  refine congrArg₂ List.cons rfl ?_
  apply List.map_congr_left
  intro i _
  simp only [Function.comp, Nat.succ_eq_add_one]
  congr 1
  omega

theorem length_bytes_at (mem : Nat → Nat) (it e : Nat) :
    (property.bytes_at mem it e).length = e - it := by
  simp [property.bytes_at]

theorem parse_one_at_cases (mem : Nat → Nat) (it e : Nat) (h : it ≤ e) :
    (∃ p, it + 2 ≤ e ∧ property.parse_one_at mem it e = (some p, it + 2, [it, it + 1])
        ∧ property.parse_one (property.bytes_at mem it e)
            = (some p, property.bytes_at mem (it + 2) e))
      ∨ (it + 2 ≤ e ∧ property.parse_one_at mem it e = (none, it + 1, [it, it + 1])
        ∧ property.parse_one (property.bytes_at mem it e)
            = (none, property.bytes_at mem (it + 1) e))
      ∨ (it + 1 ≤ e ∧ property.parse_one_at mem it e = (none, it, [it])
        ∧ property.parse_one (property.bytes_at mem it e)
            = (none, property.bytes_at mem it e))
      ∨ (it = e ∧ property.parse_one_at mem it e = (none, it, [])
        ∧ property.parse_one (property.bytes_at mem it e)
            = (none, property.bytes_at mem it e)) := by
  by_cases h0 : it = e
  · right; right; right
    refine ⟨h0, ?_, ?_⟩
    · unfold property.parse_one_at
      rw [if_pos h0]
    · rw [bytes_at_nil mem it e (by omega)]
      rfl
  · have hlt : it < e := by omega
    by_cases h1 : mem it = property.id.payload_format_indicator
    · by_cases h2 : it + 1 ≥ e
      · right; right; left
        refine ⟨by omega, ?_, ?_⟩
        · unfold property.parse_one_at
          rw [if_neg h0, if_pos h1, if_pos h2]
        · rw [bytes_at_cons mem it e hlt, bytes_at_nil mem (it + 1) e (by omega)]
          unfold property.parse_one
          simp only [h1, if_true, List.length_nil]
      · have hlt2 : it + 1 < e := by omega
        have hb : property.bytes_at mem it e
            = mem it :: mem (it + 1) :: property.bytes_at mem (it + 2) e := by
          rw [bytes_at_cons mem it e hlt, bytes_at_cons mem (it + 1) e hlt2]
        by_cases h3 : mem (it + 1) ≠ 0 ∧ mem (it + 1) ≠ 1
        · right; left
          refine ⟨by omega, ?_, ?_⟩
          · unfold property.parse_one_at property.payload_format_indicator_parse_at
            rw [if_neg h0, if_pos h1, if_neg h2, if_neg (by omega), if_pos h3]
          · rw [bytes_at_cons mem it e hlt, bytes_at_cons mem (it + 1) e hlt2]
            unfold property.parse_one property.payload_format_indicator_parse
            simp only [h1, if_true, List.length_cons]
            rw [if_neg (by omega), if_pos h3]
        · left
          refine ⟨.n_bytes_property property.id.payload_format_indicator [], by omega, ?_,
            ?_⟩
          · unfold property.parse_one_at property.payload_format_indicator_parse_at
            rw [if_neg h0, if_pos h1, if_neg h2, if_neg (by omega), if_neg h3]
          · rw [hb]
            unfold property.parse_one property.payload_format_indicator_parse
            simp only [h1, if_true, List.length_cons]
            rw [if_neg (by omega), if_neg h3]
    · right; right; left
      refine ⟨by omega, ?_, ?_⟩
      · unfold property.parse_one_at
        rw [if_neg h0, if_neg h1]
      · rw [bytes_at_cons mem it e hlt]
        unfold property.parse_one
        simp only [h1, if_false]


theorem parse_loop_at_spec (mem : Nat → Nat) (e fuel it : Nat) (h : it ≤ e)
    (hf : e - it ≤ fuel) :
    (∀ a ∈ (property.parse_loop_at mem fuel it e).2.2, it ≤ a ∧ a < e)
      ∧ it + 2 * (property.parse_loop_at mem fuel it e).1.length
          ≤ (property.parse_loop_at mem fuel it e).2.1
      ∧ (property.parse_loop_at mem fuel it e).2.1 ≤ e
      ∧ (property.parse_loop_at mem fuel it e).1
          = (property.parse (property.bytes_at mem it e)).1
      ∧ property.bytes_at mem (property.parse_loop_at mem fuel it e).2.1 e
          = (property.parse (property.bytes_at mem it e)).2 := by
  induction fuel generalizing it with
  | zero =>
    have he : it = e := by omega
    subst he
    simp only [property.parse_loop_at]
    rw [bytes_at_nil mem it it (le_refl _)]
    exact ⟨by simp, by simp, le_refl _, rfl, rfl⟩
  | succ f ih =>
    rw [parse_unroll]
    rcases parse_one_at_cases mem it e h with ⟨p, h2, hp, hl⟩ | ⟨h2, hp, hl⟩ | ⟨h2, hp, hl⟩
      | ⟨h2, hp, hl⟩
    · obtain ⟨i1, i2, i3, i4, i5⟩ := ih (it + 2) h2 (by omega)
      simp only [property.parse_loop_at, hp, hl]
      refine ⟨?_, ?_, i3, by rw [i4], i5⟩
      · intro a ha
        simp only [List.cons_append, List.nil_append, List.mem_cons] at ha
        rcases ha with ha | ha | ha
        · omega
        · omega
        · have := i1 a ha
          omega
      · simp only [List.length_cons]
        omega
    · simp only [property.parse_loop_at, hp, hl]
      refine ⟨?_, by simp, by omega, by trivial, by trivial⟩
      intro a ha
      simp only [List.mem_cons, List.mem_singleton, List.not_mem_nil, or_false] at ha
      omega
    · simp only [property.parse_loop_at, hp, hl]
      refine ⟨?_, by simp, by omega, by trivial, by trivial⟩
      intro a ha
      simp only [List.mem_singleton] at ha
      omega
    · simp only [property.parse_loop_at, hp, hl]
      refine ⟨by simp, by simp, by omega, by trivial, by trivial⟩

theorem parse_loop_at_fuel (mem : Nat → Nat) (e f1 f2 it : Nat) (h : it ≤ e)
    (h1 : e - it ≤ f1) (h2 : e - it ≤ f2) :
    property.parse_loop_at mem f1 it e = property.parse_loop_at mem f2 it e := by
  induction f1 generalizing f2 it with
  | zero =>
    have he : it = e := by omega
    subst he
    cases f2 with
    | zero => rfl
    | succ b => simp [property.parse_loop_at, property.parse_one_at]
  | succ a ih =>
    cases f2 with
    | zero =>
      have he : it = e := by omega
      subst he
      simp [property.parse_loop_at, property.parse_one_at]
    | succ b =>
      rcases parse_one_at_cases mem it e h with ⟨p, h3, hp, _⟩ | ⟨h3, hp, _⟩ | ⟨h3, hp, _⟩
        | ⟨h3, hp, _⟩
      · simp only [property.parse_loop_at, hp, ih b (it + 2) h3 (by omega) (by omega)]
      · simp only [property.parse_loop_at, hp]
      · simp only [property.parse_loop_at, hp]
      · simp only [property.parse_loop_at, hp]

theorem parse_loop_at_succ (mem : Nat → Nat) (fuel it e : Nat) :
    property.parse_loop_at mem (fuel + 1) it e
      = match property.parse_one_at mem it e with
        | (some p, it', reads) =>
          (p :: (property.parse_loop_at mem fuel it' e).1,
            (property.parse_loop_at mem fuel it' e).2.1,
            reads ++ (property.parse_loop_at mem fuel it' e).2.2)
        | (none, it', reads) => ([], it', reads) := rfl

theorem parse_at_unroll (mem : Nat → Nat) (it e : Nat) (h : it ≤ e) :
    property.parse_at mem it e
      = match property.parse_one_at mem it e with
        | (some p, it', reads) =>
          (p :: (property.parse_at mem it' e).1, (property.parse_at mem it' e).2.1,
            reads ++ (property.parse_at mem it' e).2.2)
        | (none, it', reads) => ([], it', reads) := by
  unfold property.parse_at
  rcases parse_one_at_cases mem it e h with ⟨p, h3, hp, _⟩ | ⟨h3, hp, _⟩ | ⟨h3, hp, _⟩
    | ⟨h3, hp, _⟩
  · have e1 : e - it = (e - (it + 2)) + 1 + 1 := by omega
    rw [e1, parse_loop_at_succ, hp]
    simp only
    rw [parse_loop_at_fuel mem e (e - (it + 2) + 1) (e - (it + 2)) (it + 2) h3 (by omega)
      (by omega)]
  · have e1 : e - it = (e - (it + 1)) + 1 := by omega
    rw [e1, parse_loop_at_succ, hp]
  · have e1 : e - it = (e - (it + 1)) + 1 := by omega
    rw [e1, parse_loop_at_succ, hp]
  · rw [hp]
    subst h3
    simp [property.parse_loop_at]

theorem connect_flags_set_properties (m m' : connect_message)
    (h : m.set_properties = .ok m') : m'.connect_flags_ = m.connect_flags_ := by
  unfold connect_message.set_properties at h
  split at h
  · cases h
  · cases h; rfl

theorem connect_flags_set_user_name (m m' : connect_message) (un : Option (List Nat))
    (h : m.set_user_name un = .ok m') :
    m'.connect_flags_
      = if un.isSome then m.connect_flags_ ||| connect_flags.user_name_flag
        else m.connect_flags_ := by
  cases un with
  | none =>
    simp only [connect_message.set_user_name, Except.ok.injEq] at h
    subst h; rfl
  | some u =>
    simp only [connect_message.set_user_name] at h
    split at h
    · cases h
    · cases h; rfl

theorem connect_flags_set_password (m : connect_message) (pw : Option (List Nat)) :
    (m.set_password pw).connect_flags_
      = if pw.isSome then m.connect_flags_ ||| connect_flags.password_flag
        else m.connect_flags_ := by
  cases pw <;> rfl

theorem connect_flags_set_will (m m' : connect_message) (w : Option will)
    (h : m.set_will w = .ok m') :
    (w = none → m'.connect_flags_ = m.connect_flags_)
      ∧ (∀ w', w = some w' → m'.connect_flags_
          = connect_flags.set_will_qos
              (if w'.retain then
                m.connect_flags_ ||| connect_flags.will_flag ||| connect_flags.will_retain
              else m.connect_flags_ ||| connect_flags.will_flag) w'.qos) := by
  cases w with
  | none =>
    simp only [connect_message.set_will, Except.ok.injEq] at h
    subst h
    exact ⟨fun _ => rfl, fun w' hw => by cases hw⟩
  | some w =>
    simp only [connect_message.set_will] at h
    cases hu : utf8string_check w.topic with
    | error e => simp [hu] at h
    | ok u =>
      by_cases hm : w.message.length > 0xffff
      · simp [hu, hm] at h
      · simp only [hu, hm, if_false, Except.ok.injEq] at h
        subst h
        refine ⟨(fun hw => by cases hw), fun w' hw => ?_⟩
        cases hw
        cases hr : w.retain <;> simp [hr]

theorem connect_flags_set_remaining_length_buf (m m' : connect_message)
    (h : m.set_remaining_length_buf = .ok m') : m'.connect_flags_ = m.connect_flags_ := by
  unfold connect_message.set_remaining_length_buf at h
  split at h
  · cases h
  · cases h; rfl

theorem connect_make_flags (keep_alive_sec : Nat) (client_id : List Nat)
    (clean_session : Bool) (w : Option will) (user_name password : Option (List Nat))
    (props : properties) (m : connect_message)
    (h : connect_message.make keep_alive_sec client_id clean_session w user_name password
      props = .ok m) :
    ∃ f : Nat,
      f = (if password.isSome then
            (if user_name.isSome then
              (if clean_session then 0 ||| connect_flags.clean_session else 0)
                ||| connect_flags.user_name_flag
             else (if clean_session then 0 ||| connect_flags.clean_session else 0))
              ||| connect_flags.password_flag
          else
            (if user_name.isSome then
              (if clean_session then 0 ||| connect_flags.clean_session else 0)
                ||| connect_flags.user_name_flag
             else (if clean_session then 0 ||| connect_flags.clean_session else 0)))
      ∧ (w = none → m.connect_flags_ = f)
      ∧ (∀ w', w = some w' → m.connect_flags_
          = connect_flags.set_will_qos
              (if w'.retain then f ||| connect_flags.will_flag ||| connect_flags.will_retain
              else f ||| connect_flags.will_flag) w'.qos) := by
  unfold connect_message.make at h
  simp only [bind, Except.bind] at h
  cases h1 : connect_message.set_properties
      (connect_message.init keep_alive_sec client_id props) with
  | error e => simp [h1] at h
  | ok m1 =>
    cases h2 : utf8string_check client_id with
    | error e => simp [h1, h2] at h
    | ok u =>
      cases h3 : (m1.set_clean_session clean_session).set_user_name user_name with
      | error e => simp [h1, h2, h3] at h
      | ok m3 =>
        cases h4 : (m3.set_password password).set_will w with
        | error e => simp [h1, h2, h3, h4] at h
        | ok m4 =>
          simp only [h1, h2, h3, h4] at h
          have f1 : m1.connect_flags_ = 0 := connect_flags_set_properties _ _ h1
          have f2 : (m1.set_clean_session clean_session).connect_flags_
              = if clean_session then 0 ||| connect_flags.clean_session else 0 := by
            cases clean_session
            · simp [connect_message.set_clean_session, f1]
            · simp [connect_message.set_clean_session, f1]
          have f3 := connect_flags_set_user_name _ _ _ h3
          have f4 := connect_flags_set_password m3 password
          have f5 := connect_flags_set_will _ _ _ h4
          have f6 := connect_flags_set_remaining_length_buf _ _ h
          rw [f2] at f3
          rw [f3] at f4
          refine ⟨_, rfl, ?_, ?_⟩
          · intro hw
            rw [f6, f5.1 hw, f4]
          · intro w' hw
            rw [f6, f5.2 w' hw, f4]

theorem connect_make_property_length_buf (keep_alive_sec : Nat) (client_id : List Nat)
    (clean_session : Bool) (w : Option will) (user_name password : Option (List Nat))
    (props : properties) (m : connect_message)
    (h : connect_message.make keep_alive_sec client_id clean_session w user_name password
      props = .ok m) :
    variable_bytes (accumulate_size props) = .ok m.property_length_buf_ := by
  unfold connect_message.make at h
  simp only [bind, Except.bind] at h
  cases h1 : connect_message.set_properties
      (connect_message.init keep_alive_sec client_id props) with
  | error e => simp [h1] at h
  | ok m1 =>
    cases h2 : utf8string_check client_id with
    | error e => simp [h1, h2] at h
    | ok u =>
      cases h3 : (m1.set_clean_session clean_session).set_user_name user_name with
      | error e => simp [h1, h2, h3] at h
      | ok m3 =>
        cases h4 : (m3.set_password password).set_will w with
        | error e => simp [h1, h2, h3, h4] at h
        | ok m4 =>
          simp only [h1, h2, h3, h4] at h
          have p1 : variable_bytes (accumulate_size props) = .ok m1.property_length_buf_ := by
            unfold connect_message.set_properties at h1
            simp only [connect_message.init] at h1
            split at h1
            · cases h1
            · rename_i pb hpb
              cases h1
              simpa using hpb
          have p2 : (m1.set_clean_session clean_session).property_length_buf_
              = m1.property_length_buf_ := by
            cases clean_session <;> rfl
          have p3 : m3.property_length_buf_
              = (m1.set_clean_session clean_session).property_length_buf_ := by
            cases user_name with
            | none =>
              simp only [connect_message.set_user_name, Except.ok.injEq] at h3
              subst h3; rfl
            | some u =>
              simp only [connect_message.set_user_name] at h3
              split at h3
              · cases h3
              · cases h3; rfl
          have p4 : (m3.set_password password).property_length_buf_
              = m3.property_length_buf_ := by
            cases password <;> rfl
          have p5 : m4.property_length_buf_ = (m3.set_password password).property_length_buf_ := by
            cases w with
            | none =>
              simp only [connect_message.set_will, Except.ok.injEq] at h4
              subst h4; rfl
            | some w =>
              simp only [connect_message.set_will] at h4
              cases hu : utf8string_check w.topic with
              | error e => simp [hu] at h4
              | ok u =>
                by_cases hm : w.message.length > 0xffff
                · simp [hu, hm] at h4
                · simp only [hu, hm, if_false, Except.ok.injEq] at h4
                  subst h4; rfl
          have p6 : m.property_length_buf_ = m4.property_length_buf_ := by
            unfold connect_message.set_remaining_length_buf at h
            split at h
            · cases h
            · cases h; rfl
          rw [p6, p5, p4, p3, p2]
          exact p1

end v5

/-! ## Lemmas for the resend engine -/

namespace resend

end resend

namespace v5

/-! ## The claims, continued: scatter-gather view, resend engine, property classes -/

/-- C31 (fails on the code): the slices of `const_buffer_sequence()` of a PUBLISH do not
concatenate to the bytes of `continuous_buffer()`. For topic "a/b", QoS 1, packet identifier
7, an empty property list and payload "hi" the sequence holds the slice `00` of
`property_length_buf_` and concatenates to the 12 bytes
`32 0A 00 03 'a' '/' 'b' 00 07 00 'h' 'i'`, while `continuous_buffer()` is the 11 bytes
`32 0A 00 03 'a' '/' 'b' 00 07 'h' 'i'`. -/
theorem publish_sequence_differs_from_buffer :
    ∃ p, basic_publish_message.make 2 [97, 47, 98] 1 false false 7 [] [104, 105] = .ok p
      ∧ p.props_ = []
      ∧ p.const_buffer_sequence
          = some [[0x32], [0x0A], [0x00, 0x03], [97, 47, 98], [0x00, 0x07], [0x00], [104, 105]]
      ∧ p.const_buffer_sequence.map List.flatten
          = some [0x32, 0x0A, 0x00, 0x03, 97, 47, 98, 0x00, 0x07, 0x00, 104, 105]
      ∧ p.continuous_buffer = [0x32, 0x0A, 0x00, 0x03, 97, 47, 98, 0x00, 0x07, 104, 105]
      ∧ p.const_buffer_sequence.map List.flatten ≠ some p.continuous_buffer :=
  ⟨_, rfl, by decide, by decide, by decide, by decide, by decide⟩

end v5

namespace resend

end resend

namespace v5

/-- C33 (fails on the code): a `user_property` built from a key of 65536 bytes is not written
as a length-prefixed key. For every property `fill` writes the `size()` bytes of the
identifier and of the buffers of the class, and for a key and a value of at most 65535 bytes
these are the identifier, the length-prefixed key and the length-prefixed value; the
constructor of `user_property` checks no length, so for a key of 65536 bytes the two bytes
after the identifier are `00 00`, followed by the 65536 bytes of the key. The sibling
`binary_property` throws `property_length_error` for data of that length. -/
theorem user_property_long_key_prefix :
    (∀ (p : property_variant) (ret : List Nat) (b : Nat), b ≤ ret.length →
        p.fill ret b = copy_to ret b p.written ∧ p.written.length = p.size)
    ∧ (∀ key val : List Nat, key.length ≤ 65535 → val.length ≤ 65535 →
        (property.user_property key val).written
          = [property.id.user_property] ++ length_prefixed key ++ length_prefixed val)
    ∧ (List.replicate 65536 97).length = 65536
    ∧ (property.user_property (List.replicate 65536 97) [49]).written
        = [0x26] ++ ([0x00, 0x00] ++ List.replicate 65536 97) ++ length_prefixed [49]
    ∧ (property.user_property (List.replicate 65536 97) [49]).size = 65541 + [49].length
    ∧ make_uint16_t [0x00, 0x00] = 0
    ∧ property.detail.binary_property property.id.authentication_data
        (List.replicate 65536 97) = .error .property_length_error :=
  ⟨fun p ret b hb => ⟨fill_eq_copy_to p ret b hb, length_written p⟩,
    user_property_written_short,
    List.length_replicate _ _,
    (user_property_written_long _ [49] (List.length_replicate _ _) (by decide)).1,
    (user_property_written_long _ [49] (List.length_replicate _ _) (by decide)).2,
    by decide,
    binary_property_long _ _ (by rw [List.length_replicate]; decide)⟩

/-- C34: for every 16-bit value, every 32-bit value and every boolean, `val()` of the
property built by the value constructor returns the argument, and `buf_` holds its
big-endian encoding: two bytes for `server_keep_alive`, `receive_maximum`,
`topic_alias_maximum` and `topic_alias`, four bytes for `message_expiry_interval`, and one
byte, 1 for true and 0 for false, for the six boolean properties. -/
theorem fixed_width_val_roundtrip (v16 v32 : Nat) (b : Bool)
    (h16 : v16 < 65536) (h32 : v32 < 4294967296) :
    (property.server_keep_alive.val (property.server_keep_alive.make v16) = v16
      ∧ (property.server_keep_alive.make v16).buf_ = [v16 / 256, v16 % 256])
    ∧ (property.receive_maximum.val (property.receive_maximum.make v16) = v16
      ∧ (property.receive_maximum.make v16).buf_ = [v16 / 256, v16 % 256])
    ∧ (property.topic_alias_maximum.val (property.topic_alias_maximum.make v16) = v16
      ∧ (property.topic_alias_maximum.make v16).buf_ = [v16 / 256, v16 % 256])
    ∧ (property.topic_alias.val (property.topic_alias.make v16) = v16
      ∧ (property.topic_alias.make v16).buf_ = [v16 / 256, v16 % 256])
    ∧ (property.message_expiry_interval.val (property.message_expiry_interval.make v32) = v32
      ∧ (property.message_expiry_interval.make v32).buf_
          = [v32 / 16777216, v32 / 65536 % 256, v32 / 256 % 256, v32 % 256])
    ∧ (property.request_problem_information.val
          (property.request_problem_information.make b) = b
      ∧ (property.request_problem_information.make b).buf_ = [if b then 1 else 0])
    ∧ (property.request_response_information.val
          (property.request_response_information.make b) = b
      ∧ (property.request_response_information.make b).buf_ = [if b then 1 else 0])
    ∧ (property.retain_available.val (property.retain_available.make b) = b
      ∧ (property.retain_available.make b).buf_ = [if b then 1 else 0])
    ∧ (property.wildcard_subscription_available.val
          (property.wildcard_subscription_available.make b) = b
      ∧ (property.wildcard_subscription_available.make b).buf_ = [if b then 1 else 0])
    ∧ (property.subscription_identifier_available.val
          (property.subscription_identifier_available.make b) = b
      ∧ (property.subscription_identifier_available.make b).buf_ = [if b then 1 else 0])
    ∧ (property.shared_subscription_available.val
          (property.shared_subscription_available.make b) = b
      ∧ (property.shared_subscription_available.make b).buf_ = [if b then 1 else 0]) := by
  have k := fun id => val_make_uint16 id v16 h16
  have kb := fun id => val_make_bool id b
  refine ⟨⟨(k _).1, (k _).2.1⟩, ⟨(k _).1, (k _).2.1⟩, ⟨(k _).1, (k _).2.1⟩,
    ⟨(k _).1, (k _).2.1⟩, ⟨?_, ?_⟩, ⟨(kb _).1, (kb _).2.1⟩, ⟨(kb _).1, (kb _).2.1⟩,
    ⟨(kb _).1, (kb _).2.1⟩, ⟨(kb _).1, (kb _).2.1⟩, ⟨(kb _).1, (kb _).2.1⟩,
    ⟨(kb _).1, (kb _).2.1⟩⟩
  · exact make_uint32_t_four v32 h32
  · simp only [property.message_expiry_interval.make, MQTT_32BITNUM_TO_BYTE_SEQ]
    have : v32 / 16777216 % 256 = v32 / 16777216 := by omega
    rw [this]

/-- C34, at the values 300 and 70000 and the boolean true: the bounds hold and the statement
of the theorem holds; the value bytes are `01 2C` and `00 01 11 70`. -/
theorem fixed_width_val_roundtrip_witness :
    (300 : Nat) < 65536 ∧ (70000 : Nat) < 4294967296
      ∧ (property.server_keep_alive.make 300).buf_ = [0x01, 0x2C]
      ∧ (property.message_expiry_interval.make 70000).buf_ = [0x00, 0x01, 0x11, 0x70]
      ∧ (property.retain_available.make true).buf_ = [0x01]
      ∧ property.server_keep_alive.val (property.server_keep_alive.make 300) = 300
      ∧ property.message_expiry_interval.val (property.message_expiry_interval.make 70000)
          = 70000
      ∧ property.retain_available.val (property.retain_available.make true) = true :=
  ⟨by decide, by decide, by decide, by decide, by decide,
    (fixed_width_val_roundtrip 300 70000 true (by decide) (by decide)).1.1,
    (fixed_width_val_roundtrip 300 70000 true (by decide) (by decide)).2.2.2.2.1.1,
    (fixed_width_val_roundtrip 300 70000 true (by decide) (by decide)).2.2.2.2.2.2.2.1.1⟩

/-- C35: constructing a `binary_property` or a `binary_property_ref` from data of length `n`
succeeds if and only if `n` is at most 65535, and throws `property_length_error` otherwise;
when it succeeds, `length_` is the two-byte big-endian encoding of `n` and `val()` returns
the data unchanged. -/
theorem binary_property_length_bound (id : Nat) (sv : List Nat) :
    ((∃ p, property.detail.binary_property id sv = .ok p) ↔ sv.length ≤ 65535)
      ∧ ((∃ p, property.detail.binary_property_ref id sv = .ok p) ↔ sv.length ≤ 65535)
      ∧ (∀ p, property.detail.binary_property id sv = .ok p →
          p = .binary_property id [sv.length / 256, sv.length % 256] sv
            ∧ property.detail.binary_val p = some sv)
      ∧ (∀ p, property.detail.binary_property_ref id sv = .ok p →
          p = .binary_property_ref id [sv.length / 256, sv.length % 256] sv
            ∧ property.detail.binary_val p = some sv)
      ∧ (65535 < sv.length →
          property.detail.binary_property id sv = .error .property_length_error
            ∧ property.detail.binary_property_ref id sv = .error .property_length_error) := by
  by_cases h : sv.length ≤ 65535
  · have h' : ¬ sv.length > 0xffff := by omega
    have e1 : property.detail.binary_property id sv
        = .ok (.binary_property id [sv.length / 256, sv.length % 256] sv) := by
      unfold property.detail.binary_property
      rw [if_neg h', uint16_seq_of_le _ h]
    have e2 : property.detail.binary_property_ref id sv
        = .ok (.binary_property_ref id [sv.length / 256, sv.length % 256] sv) := by
      unfold property.detail.binary_property_ref
      rw [if_neg h', uint16_seq_of_le _ h]
    rw [e1, e2]
    refine ⟨⟨fun _ => h, fun _ => ⟨_, rfl⟩⟩, ⟨fun _ => h, fun _ => ⟨_, rfl⟩⟩,
      ?_, ?_, fun hc => absurd h (by omega)⟩
    · intro p hp
      cases hp
      exact ⟨rfl, rfl⟩
    · intro p hp
      cases hp
      exact ⟨rfl, rfl⟩
  · have h' : sv.length > 0xffff := by omega
    have e1 : property.detail.binary_property id sv = .error .property_length_error := by
      unfold property.detail.binary_property
      rw [if_pos h']
    have e2 : property.detail.binary_property_ref id sv
        = .error .property_length_error := by
      unfold property.detail.binary_property_ref
      rw [if_pos h']
    rw [e1, e2]
    refine ⟨⟨fun hp => ?_, fun hc => absurd hc h⟩, ⟨fun hp => ?_, fun hc => absurd hc h⟩,
      ?_, ?_, fun _ => ⟨rfl, rfl⟩⟩
    · obtain ⟨p, hp⟩ := hp
      cases hp
    · obtain ⟨p, hp⟩ := hp
      cases hp
    · intro p hp
      cases hp
    · intro p hp
      cases hp

/-- C35, at `authentication_data` built from the three bytes `01 02 03`: the constructor
succeeds, the length is `00 03` and `val()` returns the data. -/
theorem binary_property_length_bound_witness :
    property.authentication_data [1, 2, 3]
        = .ok (.binary_property property.id.authentication_data [0x00, 0x03] [1, 2, 3])
      ∧ property.authentication_data_ref [1, 2, 3]
        = .ok (.binary_property_ref property.id.authentication_data [0x00, 0x03] [1, 2, 3])
      ∧ (.binary_property property.id.authentication_data [0x00, 0x03] [1, 2, 3]
            = property_variant.binary_property property.id.authentication_data
                [[1, 2, 3].length / 256, [1, 2, 3].length % 256] [1, 2, 3]
          ∧ property.detail.binary_val
              (.binary_property property.id.authentication_data [0x00, 0x03] [1, 2, 3])
            = some [1, 2, 3]) :=
  ⟨by decide, by decide,
    (binary_property_length_bound property.id.authentication_data [1, 2, 3]).2.2.1 _
      (by decide)⟩

/-- C36 (as stated, fails on the code): the bits 4..3 of the connect flags are not the QoS
of the will for every CONNECT that the constructor builds. The constructor checks no will
QoS: with clean session and the will ("t", "m", no retain, QoS 4) it succeeds, and the flags
byte is 0x26: bits 4..3 are 0, and bit 5, the will retain bit, is set although the will has
no retain flag. -/
theorem connect_flags_bits_counterexample :
    ∃ m, connect_message.make 60 [99, 49] true (some ⟨[116], [109], false, 4⟩) none none []
          = .ok m
      ∧ m.connect_flags_ = 0x26
      ∧ m.connect_flags_ / 8 % 4 = 0
      ∧ m.connect_flags_ / 8 % 4 ≠ (⟨[116], [109], false, 4⟩ : will).qos
      ∧ m.connect_flags_ / 32 % 2 = 1
      ∧ m.connect_flags_ / 32 % 2 ≠ (⟨[116], [109], false, 4⟩ : will).retain.toNat :=
  ⟨_, rfl, by decide, by decide, by decide, by decide, by decide⟩

/-- C36 (amended): for every CONNECT that the constructor builds, with a will QoS of at most
3 when a will is given, the connect flags byte has bit 0 clear, bit 1 set exactly when `clean_session`
is true, bit 2 set exactly when a will is given, bits 4..3 equal to the QoS of the will and
bit 5 equal to its retain flag when a will is given and all three clear otherwise, bit 6 set
exactly when a password is given and bit 7 set exactly when a user name is given. -/
theorem connect_flags_bits (keep_alive_sec : Nat) (client_id : List Nat)
    (clean_session : Bool) (w : Option will) (user_name password : Option (List Nat))
    (props : properties) (m : connect_message)
    (h : connect_message.make keep_alive_sec client_id clean_session w user_name password
      props = .ok m)
    (hq : ∀ w', w = some w' → w'.qos ≤ 3) :
    m.connect_flags_ % 2 = 0
      ∧ m.connect_flags_ / 2 % 2 = clean_session.toNat
      ∧ m.connect_flags_ / 4 % 2 = w.isSome.toNat
      ∧ (∀ w', w = some w' →
          m.connect_flags_ / 8 % 4 = w'.qos ∧ m.connect_flags_ / 32 % 2 = w'.retain.toNat)
      ∧ (w = none → m.connect_flags_ / 8 % 4 = 0 ∧ m.connect_flags_ / 32 % 2 = 0)
      ∧ m.connect_flags_ / 64 % 2 = password.isSome.toNat
      ∧ m.connect_flags_ / 128 % 2 = user_name.isSome.toNat
      ∧ m.connect_flags_ < 256 := by
  obtain ⟨f, hf, hn, hs⟩ := connect_make_flags keep_alive_sec client_id clean_session w
    user_name password props m h
  have b1 := Bool.toNat_le clean_session
  have b2 := Bool.toNat_le password.isSome
  have b3 := Bool.toNat_le user_name.isSome
  cases w with
  | none =>
    have hval : m.connect_flags_ = 2 * clean_session.toNat + 64 * password.isSome.toNat
        + 128 * user_name.isSome.toNat := by
      rw [hn rfl, hf]
      cases clean_session <;> cases user_name <;> cases password <;>
        simp only [Option.isSome] <;> decide
    refine ⟨by omega, by omega, ?_, (fun w' hw => by cases hw),
      fun _ => ⟨by omega, by omega⟩, by omega, by omega, by omega⟩
    simp only [Option.isSome, Bool.toNat_false]
    omega
  | some w' =>
    have hq' := hq w' rfl
    have b4 := Bool.toNat_le w'.retain
    have hval : m.connect_flags_ = 2 * clean_session.toNat + 4 + 8 * w'.qos
        + 32 * w'.retain.toNat + 64 * password.isSome.toNat
        + 128 * user_name.isSome.toNat := by
      rw [hs w' rfl, hf]
      obtain ⟨t, msg, r, q⟩ := w'
      simp only at hq' ⊢
      interval_cases q <;> cases r <;> cases clean_session <;> cases user_name <;>
        cases password <;> simp only [Option.isSome] <;> decide
    refine ⟨by omega, by omega, ?_, fun w'' hw => ?_, (fun hw => by cases hw), by omega,
      by omega, by omega⟩
    · simp only [Option.isSome, Bool.toNat_true]
      omega
    · cases hw
      exact ⟨by omega, by omega⟩

/-- C36 (amended), at a CONNECT with clean session, the will ("t", `01 02 03`, retain,
QoS 1), user name "u" and password "pw": the flags byte is 0xEE and the statement of the
theorem holds. -/
theorem connect_flags_bits_witness :
    (∀ w', (some ⟨[116], [1, 2, 3], true, 1⟩ : Option will) = some w' → w'.qos ≤ 3)
      ∧ ∃ m, connect_message.make 60 [99, 49] true (some ⟨[116], [1, 2, 3], true, 1⟩)
            (some [117]) (some [112, 119]) [] = .ok m
          ∧ m.connect_flags_ = 0xEE
          ∧ m.connect_flags_ % 2 = 0
          ∧ m.connect_flags_ / 2 % 2 = true.toNat
          ∧ m.connect_flags_ / 64 % 2 = (some [112, 119] : Option (List Nat)).isSome.toNat :=
  ⟨by intro w' hw; cases hw; decide, _, rfl, by decide,
    (connect_flags_bits 60 [99, 49] true (some ⟨[116], [1, 2, 3], true, 1⟩) (some [117])
      (some [112, 119]) [] _ rfl (by intro w' hw; cases hw; decide)).1,
    (connect_flags_bits 60 [99, 49] true (some ⟨[116], [1, 2, 3], true, 1⟩) (some [117])
      (some [112, 119]) [] _ rfl (by intro w' hw; cases hw; decide)).2.1,
    (connect_flags_bits 60 [99, 49] true (some ⟨[116], [1, 2, 3], true, 1⟩) (some [117])
      (some [112, 119]) [] _ rfl (by intro w' hw; cases hw; decide)).2.2.2.2.2.1⟩

/-- C37: for every CONNECT built without a will and with an empty property list, with a
keep-alive and a password, if any, of at most 65535, `continuous_buffer()` is the byte 0x10,
the variable byte encoding of the remaining length, `00 04 'M' 'Q' 'T' 'T' 05`, the connect
flags, the big-endian keep-alive, the property length `00`, the length-prefixed client
identifier, and the length-prefixed user name and password when present; the remaining
length is the number of bytes after its encoding. -/
theorem connect_plain_layout (keep_alive_sec : Nat) (client_id : List Nat)
    (clean_session : Bool) (user_name password : Option (List Nat)) (m : connect_message)
    (h : connect_message.make keep_alive_sec client_id clean_session none user_name password
      [] = .ok m)
    (hk : keep_alive_sec ≤ 65535)
    (hp : ∀ p, password = some p → p.length ≤ 65535) :
    m.continuous_buffer
        = [0x10] ++ m.remaining_length_buf_ ++ [0x00, 0x04, 77, 81, 84, 84, 0x05]
          ++ [m.connect_flags_] ++ [keep_alive_sec / 256, keep_alive_sec % 256] ++ [0x00]
          ++ length_prefixed client_id
          ++ optional_length_prefixed user_name ++ optional_length_prefixed password
      ∧ m.connect_flags_ = 2 * clean_session.toNat + 64 * password.isSome.toNat
          + 128 * user_name.isSome.toNat
      ∧ variable_bytes m.remaining_length_ = .ok m.remaining_length_buf_
      ∧ m.remaining_length_
          = ([0x00, 0x04, 77, 81, 84, 84, 0x05]
              ++ [m.connect_flags_] ++ [keep_alive_sec / 256, keep_alive_sec % 256] ++ [0x00]
              ++ length_prefixed client_id
              ++ optional_length_prefixed user_name
              ++ optional_length_prefixed password).length := by
  obtain ⟨hc, hr⟩ := connect_make_consistent keep_alive_sec client_id clean_session none
    user_name password [] m h
  obtain ⟨⟨a1, a2, a3, a4, a5, a6, a7, a8, a9, a10, a11, a12, a13, a14⟩, hcid, hun, _⟩ :=
    connect_make_built_from keep_alive_sec client_id clean_session none user_name password
      [] m h
  have hplb := connect_make_property_length_buf keep_alive_sec client_id clean_session none
    user_name password [] m h
  have hplb' : m.property_length_buf_ = [0x00] := by
    have : variable_bytes (accumulate_size []) = .ok [0x00] := by decide
    rw [this] at hplb
    exact (Except.ok.inj hplb).symm
  obtain ⟨f, hf, hn, _⟩ := connect_make_flags keep_alive_sec client_id clean_session none
    user_name password [] m h
  have hflags : m.connect_flags_ = 2 * clean_session.toNat + 64 * password.isSome.toNat
      + 128 * user_name.isSome.toNat := by
    rw [hn rfl, hf]
    cases clean_session <;> cases user_name <;> cases password <;>
      simp only [Option.isSome] <;> decide
  dsimp only at a7 a8 a9 a10
  have eu : m.user_name_length_buf_ ++ m.user_name_ = optional_length_prefixed user_name := by
    rw [a11, a12]
    cases user_name with
    | none => rfl
    | some u =>
      simp only [uint16_mod_of_le _ (utf8string_check_length _ (hun u rfl)),
        optional_length_prefixed, length_prefixed]
  have ep : m.password_length_buf_ ++ m.password_ = optional_length_prefixed password := by
    rw [a13, a14]
    cases password with
    | none => rfl
    | some p =>
      simp only [uint16_mod_of_le _ (hp p rfl), optional_length_prefixed, length_prefixed]
  have hfh : m.fixed_header_ = 0x10 := by rw [a1]; decide
  have hbody : m.body = [0x00, 0x04, 77, 81, 84, 84, 0x05]
      ++ [m.connect_flags_] ++ [keep_alive_sec / 256, keep_alive_sec % 256] ++ [0x00]
      ++ length_prefixed client_id
      ++ optional_length_prefixed user_name ++ optional_length_prefixed password := by
    rw [connect_body_eq m hc, eu, ep, a2, a3, a4, a5, a6, a7, a8, a9, a10, hplb',
      uint16_seq_of_le _ hk, uint16_seq_of_le _ (utf8string_check_length _ hcid)]
    simp only [written_props, List.flatMap_nil, length_prefixed, List.append_nil,
      List.append_assoc, List.singleton_append, List.cons_append, List.nil_append]
  refine ⟨?_, hflags, hr, ?_⟩
  · rw [connect_continuous_buffer_eq m hc.1, hbody, hfh]
    simp only [List.singleton_append, List.cons_append, List.append_assoc, List.nil_append]
  · rw [← hbody]
    exact (connect_body_length m hc).symm

/-- C37, at keep-alive 60, client identifier "c1", clean session, user name "u" and password
"pw": the bounds hold, the constructor succeeds and the buffer is the one of the theorem,
`10 16 00 04 'M' 'Q' 'T' 'T' 05 C2 00 3C 00 00 02 'c' '1' 00 01 'u' 00 02 'p' 'w'`. -/
theorem connect_plain_layout_witness :
    (60 : Nat) ≤ 65535
      ∧ (∀ p, (some [112, 119] : Option (List Nat)) = some p → p.length ≤ 65535)
      ∧ ∃ m, connect_message.make 60 [99, 49] true none (some [117]) (some [112, 119]) []
            = .ok m
          ∧ m.continuous_buffer
              = [0x10, 0x16, 0x00, 0x04, 77, 81, 84, 84, 0x05, 0xC2, 0x00, 0x3C, 0x00,
                  0x00, 0x02, 99, 49, 0x00, 0x01, 117, 0x00, 0x02, 112, 119]
          ∧ m.continuous_buffer
              = [0x10] ++ m.remaining_length_buf_ ++ [0x00, 0x04, 77, 81, 84, 84, 0x05]
                ++ [m.connect_flags_] ++ [60 / 256, 60 % 256] ++ [0x00]
                ++ length_prefixed [99, 49]
                ++ optional_length_prefixed (some [117])
                ++ optional_length_prefixed (some [112, 119]) :=
  ⟨by decide, by intro p hp; cases hp; decide, _, rfl, by decide,
    (connect_plain_layout 60 [99, 49] true (some [117]) (some [112, 119]) _ rfl (by decide)
      (by intro p hp; cases hp; decide)).1⟩

/-! ## The claims, continued: decoding of the property block -/

/-- C38 (fails on the code): the iterator-range constructor of PUBLISH does not decode the
properties of a well-formed block. For the buffer `30 0A 00 01 't' 05 02 00 00 00 0A 'x'`,
whose block holds one `message_expiry_interval`, the property list of the decoded message is
empty and `payload()` is `02 00 00 00 0A 'x'`, the property bytes and the payload. For the
buffer `30 07 00 01 't' 02 01 01 'x'`, whose block holds one `payload_format_indicator` with
value 1, the decoded property has an empty `buf_`, it is not the property that was encoded;
the payload is `'x'`. -/
theorem publish_decode_drops_properties :
    (∃ m, basic_publish_message.from_range 2
          [0x30, 0x0A, 0x00, 0x01, 116, 0x05, 0x02, 0x00, 0x00, 0x00, 0x0A, 120] = .ok m
      ∧ m.props_ = []
      ∧ m.payload = [0x02, 0x00, 0x00, 0x00, 0x0A, 120]
      ∧ m.payload ≠ [120])
    ∧ (∃ m, basic_publish_message.from_range 2
          [0x30, 0x07, 0x00, 0x01, 116, 0x02, 0x01, 0x01, 120] = .ok m
      ∧ m.props_ = [.n_bytes_property property.id.payload_format_indicator []]
      ∧ m.props_ ≠ [property.payload_format_indicator false]
      ∧ m.payload = [120]) :=
  ⟨⟨_, rfl, by decide, by decide, by decide⟩, ⟨_, rfl, by decide, by decide, by decide⟩⟩

/-- C39 (fails on the code): `parse_one` can return `boost::none` with the cursor moved. On
the range `01 02 'x'`, a `payload_format_indicator` with the invalid value 2, it returns
`boost::none` and leaves the cursor one byte after the position on entry. On an empty range,
on a range that ends after the identifier and on an unknown identifier the cursor is not
moved, and whenever a property is returned the range on entry is the identifier of
`payload_format_indicator`, one value byte, and the range on return: the cursor has advanced
by 2. -/
theorem parse_one_cursor_after_bad_value :
    property.parse_one [0x01, 0x02, 120] = (none, [0x02, 120])
      ∧ (property.parse_one [0x01, 0x02, 120]).2 ≠ [0x01, 0x02, 120]
      ∧ property.parse_one [] = (none, [])
      ∧ property.parse_one [0x01] = (none, [0x01])
      ∧ property.parse_one [0xFF, 0x00] = (none, [0xFF, 0x00])
      ∧ (∀ range p rest, property.parse_one range = (some p, rest) →
          ∃ v, range = property.id.payload_format_indicator :: v :: rest) := by
  refine ⟨by decide, by decide, by decide, by decide, by decide, ?_⟩
  intro range p rest h
  unfold property.parse_one at h
  split at h
  · cases h
  · rename_i b r
    split_ifs at h with h1 h2
    · cases h
    · cases r with
      | nil => simp at h2
      | cons v r' =>
        unfold property.payload_format_indicator_parse at h
        simp only at h
        split_ifs at h with h3
        · cases h
        · simp only [Prod.mk.injEq, Option.some.injEq] at h
          exact ⟨v, by rw [h1, h.2]⟩
    · cases h

/-- C40: for every range `[it, e)` of a memory, `property::parse` terminates: its loop
satisfies the equation of the source (`parse_one`, then the rest of the loop from where
`parse_one` left the cursor, or the end of the loop when it returned `boost::none`) and its
result is the same for every fuel that is at least the length of the range. Every address
that the loop dereferences lies in `[it, e)`: no byte at or beyond `e` is read. On return the
cursor is between its position on entry and `e`, every returned property accounts for two
consumed bytes, `parse_one` advancing the cursor by exactly two whenever it returns a
property; and the properties and the range left are those that `parse` gives on the bytes of
the range, whatever the memory holds outside it. -/
theorem parse_terminates_within_range (mem : Nat → Nat) (it e : Nat) (h : it ≤ e) :
    (∀ fuel, e - it ≤ fuel →
        property.parse_loop_at mem fuel it e = property.parse_at mem it e)
    ∧ property.parse_at mem it e
        = (match property.parse_one_at mem it e with
          | (some p, it', reads) =>
            (p :: (property.parse_at mem it' e).1, (property.parse_at mem it' e).2.1,
              reads ++ (property.parse_at mem it' e).2.2)
          | (none, it', reads) => ([], it', reads))
    ∧ (∀ a ∈ (property.parse_at mem it e).2.2, it ≤ a ∧ a < e)
    ∧ it ≤ (property.parse_at mem it e).2.1
    ∧ (property.parse_at mem it e).2.1 ≤ e
    ∧ it + 2 * (property.parse_at mem it e).1.length ≤ (property.parse_at mem it e).2.1
    ∧ (∀ it1 p it2 reads, it1 ≤ e →
        property.parse_one_at mem it1 e = (some p, it2, reads) → it2 = it1 + 2)
    ∧ (property.parse_at mem it e).1 = (property.parse (property.bytes_at mem it e)).1
    ∧ property.bytes_at mem (property.parse_at mem it e).2.1 e
        = (property.parse (property.bytes_at mem it e)).2 := by
  obtain ⟨i1, i2, i3, i4, i5⟩ := parse_loop_at_spec mem e (e - it) it h (le_refl _)
  refine ⟨fun fuel hf => parse_loop_at_fuel mem e fuel (e - it) it h hf (le_refl _),
    parse_at_unroll mem it e h, i1, ?_, i3, i2, ?_, i4, i5⟩
  · have : it + 2 * (property.parse_at mem it e).1.length
        ≤ (property.parse_at mem it e).2.1 := i2
    omega
  · intro it1 p it2 reads h1 hp
    rcases parse_one_at_cases mem it1 e h1 with ⟨q, _, hq, _⟩ | ⟨_, hq, _⟩ | ⟨_, hq, _⟩
      | ⟨_, hq, _⟩
    · rw [hq] at hp
      simp only [Prod.mk.injEq] at hp
      exact hp.2.1.symm
    · rw [hq] at hp
      simp at hp
    · rw [hq] at hp
      simp at hp
    · rw [hq] at hp
      simp at hp

/-- C40, at the range `[100, 106)` of a memory that holds `01 00 01 01 FF 00` there and the
identifier `01` everywhere else: two properties are returned, the cursor is left at 104, on
`FF`, the addresses read are 100 to 104, and the statement of the theorem holds: twelve units
of fuel give the same result, and every address read is in the range. -/
theorem parse_terminates_within_range_witness :
    100 ≤ 106
      ∧ property.parse_at
          (fun a => if a < 100 then 1
            else [0x01, 0x00, 0x01, 0x01, 0xFF, 0x00].getD (a - 100) 1)
          100 106
        = ([.n_bytes_property property.id.payload_format_indicator [],
            .n_bytes_property property.id.payload_format_indicator []], 104,
            [100, 101, 102, 103, 104])
      ∧ property.parse_loop_at
          (fun a => if a < 100 then 1
            else [0x01, 0x00, 0x01, 0x01, 0xFF, 0x00].getD (a - 100) 1)
          12 100 106
        = property.parse_at
          (fun a => if a < 100 then 1
            else [0x01, 0x00, 0x01, 0x01, 0xFF, 0x00].getD (a - 100) 1)
          100 106
      ∧ ∀ a ∈ (property.parse_at
          (fun a => if a < 100 then 1
            else [0x01, 0x00, 0x01, 0x01, 0xFF, 0x00].getD (a - 100) 1)
          100 106).2.2, 100 ≤ a ∧ a < 106 :=
  ⟨by decide, by decide,
    (parse_terminates_within_range _ 100 106 (by decide)).1 12 (by decide),
    (parse_terminates_within_range _ 100 106 (by decide)).2.2.1⟩

end v5

end mqtt
